import Mathlib

/-!
# Graphite: the ATAC cluster network model

A shallow embedding of `common/network/network_model_atac_cluster.cc`.

Conventions of the embedding.

* `core_id_t` and `SInt32` values are `Int`; C++ `/` and `%` on them are `Int.tdiv` and
  `Int.tmod` (truncation towards zero).  Signed overflow is undefined in C++ and does not
  occur for the values handled here, so no wrap-around is modelled for them.  Where the
  other operand of `%` is unsigned, the signed operand is converted to `UInt32`
  (`toUInt32`) and the remainder is the unsigned one.
* `UInt64` values are `Nat`, and every `UInt64` operation is reduced modulo `2^64` (`u64`);
  `UInt32` operations are reduced modulo `2^32` (`u32`).
* A fatal `LOG_ASSERT_ERROR` / `LOG_PRINT_ERROR` / `assert`, and an access that the C++ leaves
  undefined (null instance, array index out of range), is an `Except.error`.
* The members of a `NetworkModelAtacCluster` instance are split in three records: the
  immutable members set by the constructor (`Config`, identical on every core), the private
  mutable members (`Instance`), and the hub members (`HubState`), that other cores reach
  through the core manager; `Hubs` lists the hub members of all cores by core id.
* Collaborators whose code is outside this file are parameters: the queue model
  (`QueueModel`), the memory manager's requester lookup, the modelled packet length and
  the broadcast marker (`Env`).
* A division or remainder by a configuration value that is zero is undefined in the C++ and
  ends the process: the constructor's divisions, `computeProcessingTime` on a bandwidth of
  zero and the channel index on zero broadcast networks are `Except.error divisionByZero`.
-/

namespace AtacCluster

/-! ## Machine arithmetic -/

/-- Number of `UInt64` values. -/
def U64 : Nat := 18446744073709551616

/-- Number of `UInt32` values. -/
def U32 : Nat := 4294967296

/-- Result of a `UInt64` operation. -/
def u64 (n : Nat) : Nat := n % U64

/-- Result of a `UInt32` operation. -/
def u32 (n : Nat) : Nat := n % U32

/-- Subtraction of two `UInt64` values. -/
def u64sub (a b : Nat) : Nat := (u64 a + (U64 - u64 b)) % U64

/-- Value of `ceil(1.0 * a / b)` for non-negative integers `a` and positive `b`. -/
def ceilDiv (a b : Nat) : Nat := (a + b - 1) / b

/-! ## Data model -/

/-- Ways in which the model terminates the simulation. -/
inductive Fatal where
  | readingParameters
  | clusterSizeNotSquare
  | divisionByZero
  | meshWidthNotMultiple
  | meshHeight
  | meshCoreCount
  | requesterOutOfRange
  | invalidReceiver
  | queueModelDisabled
  | notHubHost
  | noHubQueueModel
  | senderClusterMismatch
  | unrecognizedHubType
  | noSuchCore
  | indexOutOfRange
  | notInitialized
  | tooManyMemoryControllers
  deriving DecidableEq, Repr

/-- Packet types, as far as the model tells them apart. -/
inductive PacketType where
  | SHARED_MEM_1
  | SHARED_MEM_2
  | OTHER
  deriving DecidableEq, Repr

/-- The two sides of an optical hub. -/
inductive HubType where
  | SENDER_HUB
  | RECEIVER_HUB
  deriving DecidableEq, Repr

/-- A network packet: `data` stands for the payload pointer. -/
structure NetPacket where
  start_time : Nat
  time : Nat
  type : PacketType
  sender : Int
  receiver : Int
  length : Nat
  data : Nat
  deriving DecidableEq, Repr

/-- A routing hop. -/
structure Hop where
  next_dest : Int
  final_dest : Int
  time : Nat
  deriving DecidableEq, Repr

/-- Values read from the configuration by the constructor. -/
structure Params where
  total_cores : Nat
  application_cores : Nat
  optical_hop_latency : Nat
  electrical_mesh_hop_latency : Nat
  optical_bus_bandwidth : Nat
  num_electrical_broadcast_networks_per_cluster : Nat
  cluster_size : Nat
  queue_model_enabled : Bool
  deriving DecidableEq, Repr

/-- Members fixed by the constructor. -/
structure Config where
  m_total_cores : Nat
  m_num_application_cores : Nat
  m_optical_hop_latency : Nat
  m_electrical_mesh_hop_latency : Nat
  m_optical_bus_bandwidth : Nat
  m_num_electrical_broadcast_networks_per_cluster : Nat
  m_queue_model_enabled : Bool
  m_sqrt_cluster_size : Nat
  m_mesh_width : Nat
  m_mesh_height : Nat
  m_num_clusters : Nat
  m_sender_cluster_electrical_network_delay : Nat
  m_receiver_cluster_electrical_network_delay : Nat
  deriving DecidableEq, Repr

/-- The queue model consumed by the hubs: `create` is `QueueModel::create`, and
`computeQueueDelay q pkt_time processing_time` gives the delay and the next state. -/
structure QueueModel (Q : Type) where
  create : Q
  computeQueueDelay : Q → Nat → Nat → Nat × Q

/-- Collaborators of the routing code: the memory manager's `getShmemRequester` on a payload,
the network's `getModeledLength`, and the constant `NetPacket::BROADCAST`. -/
structure Env where
  getShmemRequester : Nat → Int
  getModeledLength : NetPacket → Nat
  BROADCAST : Int

/-- Hub members of an instance that hosts an optical hub. -/
structure HubState (Q : Type) where
  m_sender_hub_queue_model : Q
  m_receiver_hub_queue_models : List Q
  m_total_sender_hub_contention_delay : Nat
  m_total_sender_hub_packets : Nat
  m_total_receiver_hub_contention_delay : List Nat
  m_total_receiver_hub_packets : List Nat
  deriving DecidableEq, Repr

/-- Hub members of all instances, by core id; `none` is an instance whose queue model
pointers are `NULL`. -/
abbrev Hubs (Q : Type) := List (Option (HubState Q))

/-- Private mutable members of an instance. -/
structure Instance where
  m_core_id : Int
  m_enabled : Bool
  m_total_bytes_received : Nat
  m_total_packets_received : Nat
  m_total_packet_latency : Nat
  deriving DecidableEq, Repr

/-! ## Topology -/

/-- Cluster of a core (`getClusterID`). -/
def getClusterID (cfg : Config) (core_id : Int) : Int :=
  let cluster_mesh_width : Int := Int.tdiv cfg.m_mesh_width cfg.m_sqrt_cluster_size
  let core_x : Int := Int.tmod core_id cfg.m_mesh_width
  let core_y : Int := Int.tdiv core_id cfg.m_mesh_width
  let cluster_pos_x : Int := Int.tdiv core_x cfg.m_sqrt_cluster_size
  let cluster_pos_y : Int := Int.tdiv core_y cfg.m_sqrt_cluster_size
  cluster_pos_y * cluster_mesh_width + cluster_pos_x

/-- Core that hosts the optical hub of a cluster (`getCoreIDWithOpticalHub`). -/
def getCoreIDWithOpticalHub (cfg : Config) (cluster_id : Int) : Int :=
  let cluster_mesh_width : Int := Int.tdiv cfg.m_mesh_width cfg.m_sqrt_cluster_size
  let cluster_pos_x : Int := Int.tmod cluster_id cluster_mesh_width
  let cluster_pos_y : Int := Int.tdiv cluster_id cluster_mesh_width
  let optical_hub_x : Int := cluster_pos_x * cfg.m_sqrt_cluster_size
  let optical_hub_y : Int := cluster_pos_y * cfg.m_sqrt_cluster_size
  optical_hub_y * cfg.m_mesh_width + optical_hub_x

/-- Element of a C array at a signed index; `none` outside the array. -/
def arrayGet {α : Type} (xs : List α) (i : Int) : Option α :=
  if i < 0 then none else xs[i.toNat]?

/-! ## Construction -/

/-- The constructor's derivation and checks of the topology members. A zero divisor
(`cluster_size = 0` or `total_cores = 0`) is reported as `divisionByZero`. -/
def construct (p : Params) : Except Fatal Config :=
  let m_sqrt_cluster_size := Nat.sqrt p.cluster_size
  if p.cluster_size ≠ m_sqrt_cluster_size * m_sqrt_cluster_size then
    .error .clusterSizeNotSquare
  else
    let delay := p.electrical_mesh_hop_latency * ceilDiv m_sqrt_cluster_size 2
    let m_mesh_width := Nat.sqrt p.total_cores
    if m_mesh_width = 0 ∨ m_sqrt_cluster_size = 0 then
      .error .divisionByZero
    else
      let m_mesh_height := ceilDiv p.total_cores m_mesh_width
      if m_mesh_width % m_sqrt_cluster_size ≠ 0 then
        .error .meshWidthNotMultiple
      else if m_mesh_height ≠ m_mesh_width + 1 then
        .error .meshHeight
      else if m_mesh_width * m_mesh_height ≠ p.total_cores then
        .error .meshCoreCount
      else
        .ok
          { m_total_cores := p.total_cores
            m_num_application_cores := p.application_cores
            m_optical_hop_latency := p.optical_hop_latency
            m_electrical_mesh_hop_latency := p.electrical_mesh_hop_latency
            m_optical_bus_bandwidth := p.optical_bus_bandwidth
            m_num_electrical_broadcast_networks_per_cluster :=
              p.num_electrical_broadcast_networks_per_cluster
            m_queue_model_enabled := p.queue_model_enabled
            m_sqrt_cluster_size := m_sqrt_cluster_size
            m_mesh_width := m_mesh_width
            m_mesh_height := m_mesh_height
            m_num_clusters :=
              (m_mesh_width / m_sqrt_cluster_size) * ceilDiv m_mesh_height m_sqrt_cluster_size
            m_sender_cluster_electrical_network_delay := delay
            m_receiver_cluster_electrical_network_delay := delay }

/-- Hub members created on core `m_core_id` (`createOpticalHub`). -/
def createOpticalHub {Q : Type} (qm : QueueModel Q) (cfg : Config) (m_core_id : Int) :
    Option (HubState Q) :=
  if cfg.m_queue_model_enabled = true ∧
      m_core_id = getCoreIDWithOpticalHub cfg (getClusterID cfg m_core_id) then
    some
      { m_sender_hub_queue_model := qm.create
        m_receiver_hub_queue_models :=
          List.replicate cfg.m_num_electrical_broadcast_networks_per_cluster qm.create
        m_total_sender_hub_contention_delay := 0
        m_total_sender_hub_packets := 0
        m_total_receiver_hub_contention_delay :=
          List.replicate cfg.m_num_electrical_broadcast_networks_per_cluster 0
        m_total_receiver_hub_packets :=
          List.replicate cfg.m_num_electrical_broadcast_networks_per_cluster 0 }
  else
    none

/-- Hub members of all cores right after every core's instance is constructed. -/
def initialHubs {Q : Type} (qm : QueueModel Q) (cfg : Config) : Hubs Q :=
  (List.range cfg.m_total_cores).map (fun (i : Nat) => createOpticalHub qm cfg (i : Int))

/-- Private members right after construction: disabled, counters zero. -/
def initialInstance (m_core_id : Int) : Instance :=
  { m_core_id := m_core_id
    m_enabled := false
    m_total_bytes_received := 0
    m_total_packets_received := 0
    m_total_packet_latency := 0 }

/-! ## Hub queue delay -/

/-- Value of an `SInt32` converted to `UInt32`, as the usual arithmetic conversions do when
the other operand of `%` is unsigned. -/
def toUInt32 (i : Int) : Nat := (i % (U32 : Int)).toNat

/-- Cycles needed to push `pkt_length` bytes through `bandwidth` bits per cycle
(`computeProcessingTime`); `num_bits` is a `UInt32`, and `num_bits % bandwidth` divides by
zero when `bandwidth` is zero. -/
def computeProcessingTime (pkt_length bandwidth : Nat) : Except Fatal Nat :=
  let num_bits := u32 (pkt_length * 8)
  if bandwidth = 0 then
    .error .divisionByZero
  else if num_bits % bandwidth = 0 then
    .ok (num_bits / bandwidth)
  else
    .ok (u32 (num_bits / bandwidth + 1))

/-- Queue delay at the hub hosted by core `m_core_id`, whose hub members are `hub`
(`computeHubQueueDelay`); returns the delay and the updated hub members. Either branch
computes the processing time first. The channel index `sender_cluster_id % B` has an
unsigned right operand, so `sender_cluster_id` is converted to `UInt32` and the remainder
is the unsigned one; it is below `B`, which `getInt` delivered, so it fits the `SInt32`
variable that holds it. -/
def computeHubQueueDelay {Q : Type} (qm : QueueModel Q) (cfg : Config) (m_core_id : Int)
    (hub : Option (HubState Q)) (hub_type : HubType) (sender_cluster_id : Int)
    (pkt_time pkt_length : Nat) : Except Fatal (Nat × Option (HubState Q)) :=
  if cfg.m_queue_model_enabled = false then
    .error .queueModelDisabled
  else if m_core_id ≠ getCoreIDWithOpticalHub cfg (getClusterID cfg m_core_id) then
    .error .notHubHost
  else
    match hub with
    | none => .error .noHubQueueModel
    | some h =>
      match hub_type with
      | .SENDER_HUB =>
        match computeProcessingTime pkt_length cfg.m_optical_bus_bandwidth with
        | .error e => .error e
        | .ok processing_time =>
          if sender_cluster_id ≠ getClusterID cfg m_core_id then
            .error .senderClusterMismatch
          else
            let r := qm.computeQueueDelay h.m_sender_hub_queue_model pkt_time processing_time
            .ok (r.1,
              some { h with
                m_sender_hub_queue_model := r.2
                m_total_sender_hub_contention_delay :=
                  u64 (h.m_total_sender_hub_contention_delay + r.1)
                m_total_sender_hub_packets := u64 (h.m_total_sender_hub_packets + 1) })
      | .RECEIVER_HUB =>
        match computeProcessingTime pkt_length cfg.m_optical_bus_bandwidth with
        | .error e => .error e
        | .ok processing_time =>
          if cfg.m_num_electrical_broadcast_networks_per_cluster = 0 then
            .error .divisionByZero
          else
            let broadcast_network_num : Int :=
              ((toUInt32 sender_cluster_id
                % cfg.m_num_electrical_broadcast_networks_per_cluster : Nat) : Int)
            match arrayGet h.m_receiver_hub_queue_models broadcast_network_num,
                  arrayGet h.m_total_receiver_hub_contention_delay broadcast_network_num,
                  arrayGet h.m_total_receiver_hub_packets broadcast_network_num with
            | some q, some total_delay, some total_packets =>
              let r := qm.computeQueueDelay q pkt_time processing_time
              .ok (r.1,
                some { h with
                  m_receiver_hub_queue_models :=
                    h.m_receiver_hub_queue_models.set broadcast_network_num.toNat r.2
                  m_total_receiver_hub_contention_delay :=
                    h.m_total_receiver_hub_contention_delay.set broadcast_network_num.toNat
                      (u64 (total_delay + r.1))
                  m_total_receiver_hub_packets :=
                    h.m_total_receiver_hub_packets.set broadcast_network_num.toNat
                      (u64 (total_packets + 1)) })
            | _, _, _ => .error .indexOutOfRange

/-- Requester of a packet (`getRequester`). -/
def getRequester (env : Env) (cfg : Config) (pkt : NetPacket) : Except Fatal Int :=
  let requester : Int :=
    if pkt.type = PacketType.SHARED_MEM_1 ∨ pkt.type = PacketType.SHARED_MEM_2 then
      env.getShmemRequester pkt.data
    else
      pkt.sender
  if 0 ≤ requester ∧ requester < (cfg.m_total_cores : Int) then
    .ok requester
  else
    .error .requesterOutOfRange

/-- Queue delay at the hub of `cluster_id`, asked for by instance `self`
(`getHubQueueDelay`): the hub-hosting core is looked up among `hubs`. -/
def getHubQueueDelay {Q : Type} (qm : QueueModel Q) (cfg : Config) (self : Instance)
    (hubs : Hubs Q) (hub_type : HubType) (sender_cluster_id cluster_id : Int)
    (pkt_time pkt_length : Nat) (_pkt_type : PacketType) (requester : Int) :
    Except Fatal (Nat × Hubs Q) :=
  if self.m_enabled = false ∨ cfg.m_queue_model_enabled = false ∨
      requester ≥ (cfg.m_num_application_cores : Int) then
    .ok (0, hubs)
  else
    let core_id_with_optical_hub := getCoreIDWithOpticalHub cfg cluster_id
    match arrayGet hubs core_id_with_optical_hub with
    | none => .error .noSuchCore
    | some hub =>
      match computeHubQueueDelay qm cfg core_id_with_optical_hub hub hub_type
          sender_cluster_id pkt_time pkt_length with
      | .error e => .error e
      | .ok (delay, hub') => .ok (delay, hubs.set core_id_with_optical_hub.toNat hub')

/-! ## Routing -/

/-- First loop of broadcast routing: the receiver-hub delay of each cluster in `clusters`,
in that order. -/
def receiverHubQueueDelays {Q : Type} (qm : QueueModel Q) (cfg : Config) (self : Instance)
    (sender_cluster_id : Int) (pkt_time pkt_length : Nat) (pkt_type : PacketType)
    (requester : Int) : List Nat → Hubs Q → Except Fatal (List Nat × Hubs Q)
  | [], hubs => .ok ([], hubs)
  | i :: rest, hubs =>
    match getHubQueueDelay qm cfg self hubs HubType.RECEIVER_HUB sender_cluster_id (i : Int)
        pkt_time pkt_length pkt_type requester with
    | .error e => .error e
    | .ok (delay, hubs1) =>
      match receiverHubQueueDelays qm cfg self sender_cluster_id pkt_time pkt_length pkt_type
          requester rest hubs1 with
      | .error e => .error e
      | .ok (delays, hubs2) => .ok (delay :: delays, hubs2)

/-- Hop that broadcast routing emits for core `i`, given the receiver-hub delay of its
cluster. -/
def broadcastHop (cfg : Config) (pkt_time latency_sender_core_to_receiver_hub
    processing_time receiver_hub_queue_delay : Nat) (i : Nat) : Hop :=
  let latency_receiver_hub_to_receiver_core :=
    u64 (receiver_hub_queue_delay + cfg.m_receiver_cluster_electrical_network_delay)
  let total_latency :=
    u64 (u64 (latency_sender_core_to_receiver_hub + latency_receiver_hub_to_receiver_core)
      + processing_time)
  { next_dest := (i : Int), final_dest := (i : Int), time := u64 (pkt_time + total_latency) }

/-- Second loop of broadcast routing: one Hop for each core in `cores`, in that order. -/
def broadcastHops (cfg : Config) (pkt_time latency_sender_core_to_receiver_hub
    processing_time : Nat) (receiver_hub_queue_delay : List Nat) :
    List Nat → Except Fatal (List Hop)
  | [] => .ok []
  | i :: rest =>
    match arrayGet receiver_hub_queue_delay (getClusterID cfg (i : Int)) with
    | none => .error .indexOutOfRange
    | some d =>
      match broadcastHops cfg pkt_time latency_sender_core_to_receiver_hub processing_time
          receiver_hub_queue_delay rest with
      | .error e => .error e
      | .ok hops =>
        .ok (broadcastHop cfg pkt_time latency_sender_core_to_receiver_hub
          processing_time d i :: hops)

/-- Routing of one packet by instance `self` (`routePacket`): returns `nextHops` with the
new Hops appended, and the hub members of all cores after the call. The processing time is
computed before the packet is looked at, whichever branch is taken. -/
def routePacket {Q : Type} (qm : QueueModel Q) (env : Env) (cfg : Config) (self : Instance)
    (hubs : Hubs Q) (pkt : NetPacket) (nextHops : List Hop) :
    Except Fatal (List Hop × Hubs Q) :=
  match getRequester env cfg pkt with
  | .error e => .error e
  | .ok requester =>
    let pkt_length := env.getModeledLength pkt
    match computeProcessingTime pkt_length cfg.m_optical_bus_bandwidth with
    | .error e => .error e
    | .ok processing_time =>
      if pkt.receiver = env.BROADCAST then
        match getHubQueueDelay qm cfg self hubs HubType.SENDER_HUB
            (getClusterID cfg pkt.sender) (getClusterID cfg pkt.sender)
            (u64 (pkt.time + cfg.m_sender_cluster_electrical_network_delay))
            pkt_length pkt.type requester with
        | .error e => .error e
        | .ok (sender_hub_queue_delay, hubs1) =>
          let latency_sender_core_to_receiver_hub :=
            u64 (u64 (cfg.m_sender_cluster_electrical_network_delay + sender_hub_queue_delay)
              + cfg.m_optical_hop_latency)
          match receiverHubQueueDelays qm cfg self (getClusterID cfg pkt.sender)
              (u64 (pkt.time + latency_sender_core_to_receiver_hub)) pkt_length pkt.type
              requester (List.range cfg.m_num_clusters) hubs1 with
          | .error e => .error e
          | .ok (receiver_hub_queue_delay, hubs2) =>
            match broadcastHops cfg pkt.time latency_sender_core_to_receiver_hub
                processing_time receiver_hub_queue_delay (List.range cfg.m_total_cores) with
            | .error e => .error e
            | .ok hops => .ok (nextHops ++ hops, hubs2)
      else if ¬ (pkt.receiver < (cfg.m_total_cores : Int)) then
        .error .invalidReceiver
      else if pkt.sender = pkt.receiver then
        .ok (nextHops ++
          [{ next_dest := pkt.receiver, final_dest := pkt.receiver,
             time := u64 (pkt.time + 0) }], hubs)
      else if getClusterID cfg pkt.sender = getClusterID cfg pkt.receiver then
        let total_latency :=
          u64 (u64 (cfg.m_sender_cluster_electrical_network_delay
            + cfg.m_receiver_cluster_electrical_network_delay) + processing_time)
        .ok (nextHops ++
          [{ next_dest := pkt.receiver, final_dest := pkt.receiver,
             time := u64 (pkt.time + total_latency) }], hubs)
      else
        match getHubQueueDelay qm cfg self hubs HubType.SENDER_HUB
            (getClusterID cfg pkt.sender) (getClusterID cfg pkt.sender)
            (u64 (pkt.time + cfg.m_sender_cluster_electrical_network_delay))
            pkt_length pkt.type requester with
        | .error e => .error e
        | .ok (sender_hub_queue_delay, hubs1) =>
          let latency_sender_core_to_receiver_hub :=
            u64 (u64 (cfg.m_sender_cluster_electrical_network_delay + sender_hub_queue_delay)
              + cfg.m_optical_hop_latency)
          match getHubQueueDelay qm cfg self hubs1 HubType.RECEIVER_HUB
              (getClusterID cfg pkt.sender) (getClusterID cfg pkt.receiver)
              (u64 (pkt.time + latency_sender_core_to_receiver_hub))
              pkt_length pkt.type requester with
          | .error e => .error e
          | .ok (receiver_hub_queue_delay, hubs2) =>
            let latency_receiver_hub_to_receiver_core :=
              u64 (receiver_hub_queue_delay + cfg.m_receiver_cluster_electrical_network_delay)
            let total_latency :=
              u64 (u64 (latency_sender_core_to_receiver_hub
                + latency_receiver_hub_to_receiver_core) + processing_time)
            .ok (nextHops ++
              [{ next_dest := pkt.receiver, final_dest := pkt.receiver,
                 time := u64 (pkt.time + total_latency) }], hubs2)

/-- Time of the Hop of a cross-cluster unicast as `routePacket` computes it from the
delays `d_s` and `d_r` of the two hubs (its last branch). -/
def crossClusterHopTime (cfg : Config) (pkt_time processing_time d_s d_r : Nat) : Nat :=
  let latency_sender_core_to_receiver_hub :=
    u64 (u64 (cfg.m_sender_cluster_electrical_network_delay + d_s)
      + cfg.m_optical_hop_latency)
  let latency_receiver_hub_to_receiver_core :=
    u64 (d_r + cfg.m_receiver_cluster_electrical_network_delay)
  let total_latency :=
    u64 (u64 (latency_sender_core_to_receiver_hub + latency_receiver_hub_to_receiver_core)
      + processing_time)
  u64 (pkt_time + total_latency)

/-! ## Counters, enabling, memory controllers -/

/-- Accounting of a packet received by instance `self` (`processReceivedPacket`). -/
def processReceivedPacket (env : Env) (cfg : Config) (self : Instance) (pkt : NetPacket) :
    Except Fatal Instance :=
  match getRequester env cfg pkt with
  | .error e => .error e
  | .ok requester =>
    if self.m_enabled = false ∨ requester ≥ (cfg.m_num_application_cores : Int) then
      .ok self
    else
      let pkt_length := env.getModeledLength pkt
      let packet_latency := u64sub pkt.time pkt.start_time
      .ok { self with
        m_total_packets_received := u64 (self.m_total_packets_received + 1)
        m_total_bytes_received := u64 (self.m_total_bytes_received + pkt_length)
        m_total_packet_latency := u64 (self.m_total_packet_latency + packet_latency) }

/-- Start of measurement (`enable`). -/
def enable (self : Instance) : Instance := { self with m_enabled := true }

/-- End of measurement (`disable`). -/
def disable (self : Instance) : Instance := { self with m_enabled := false }

/-- Cores that get a memory controller (`computeMemoryControllerPositions`). -/
def computeMemoryControllerPositions (cfg : Config) (num_memory_controllers _core_count : Int) :
    Except Fatal (Bool × List Int) :=
  if ¬ (0 < cfg.m_sqrt_cluster_size ∧ 0 < cfg.m_mesh_width) then
    .error .notInitialized
  else
    let num_clusters : Int :=
      Int.tdiv cfg.m_mesh_width cfg.m_sqrt_cluster_size
        * Int.tdiv cfg.m_mesh_width cfg.m_sqrt_cluster_size
    if ¬ (num_memory_controllers ≤ num_clusters) then
      .error .tooManyMemoryControllers
    else
      .ok (true,
        (List.range num_memory_controllers.toNat).map
          (fun (i : Nat) => getCoreIDWithOpticalHub cfg (i : Int)))

/-! ## Natural-number forms of the topology functions -/

/-- Value of `getClusterID` on a non-negative core id, computed in natural numbers. -/
def clusterNat (cfg : Config) (n : Nat) : Nat :=
  (n / cfg.m_mesh_width / cfg.m_sqrt_cluster_size) * (cfg.m_mesh_width / cfg.m_sqrt_cluster_size)
    + (n % cfg.m_mesh_width) / cfg.m_sqrt_cluster_size

/-- Value of `getCoreIDWithOpticalHub` on a non-negative cluster id, computed in natural
numbers. -/
def hubNat (cfg : Config) (c : Nat) : Nat :=
  (c / (cfg.m_mesh_width / cfg.m_sqrt_cluster_size) * cfg.m_sqrt_cluster_size) * cfg.m_mesh_width
    + (c % (cfg.m_mesh_width / cfg.m_sqrt_cluster_size)) * cfg.m_sqrt_cluster_size

/-! ## Predicates used by the statements -/

/-- A core id of the system. -/
def validCore (cfg : Config) (c : Int) : Prop := 0 ≤ c ∧ c < (cfg.m_total_cores : Int)

instance (cfg : Config) (c : Int) : Decidable (validCore cfg c) := by
  unfold validCore; infer_instance

/-- What the constructor's checks establish about the members it sets. -/
structure Accepted (cfg : Config) : Prop where
  sqrt_pos : 0 < cfg.m_sqrt_cluster_size
  width_pos : 0 < cfg.m_mesh_width
  width_multiple : cfg.m_mesh_width % cfg.m_sqrt_cluster_size = 0
  height : cfg.m_mesh_height = cfg.m_mesh_width + 1
  cores : cfg.m_mesh_width * cfg.m_mesh_height = cfg.m_total_cores
  clusters : cfg.m_num_clusters
    = (cfg.m_mesh_width / cfg.m_sqrt_cluster_size)
      * ceilDiv cfg.m_mesh_height cfg.m_sqrt_cluster_size
  delays : cfg.m_receiver_cluster_electrical_network_delay
    = cfg.m_sender_cluster_electrical_network_delay

/-- The hub members are those of a constructed system: one entry per core, and, when the
queue model is enabled, each hub-hosting core has its queue models and counters, one per
electrical broadcast network on the receiver side. -/
def HubsWF {Q : Type} (cfg : Config) (hubs : Hubs Q) : Prop :=
  hubs.length = cfg.m_total_cores ∧
  ∀ (i : Nat) (o : Option (HubState Q)), hubs[i]? = some o →
    cfg.m_queue_model_enabled = true →
    (i : Int) = getCoreIDWithOpticalHub cfg (getClusterID cfg (i : Int)) →
    ∃ h, o = some h ∧
      h.m_receiver_hub_queue_models.length = cfg.m_num_electrical_broadcast_networks_per_cluster ∧
      h.m_total_receiver_hub_contention_delay.length
        = cfg.m_num_electrical_broadcast_networks_per_cluster ∧
      h.m_total_receiver_hub_packets.length
        = cfg.m_num_electrical_broadcast_networks_per_cluster

/-! ## Order on the performance counters -/

/-- Entry by entry, the counters of `l'` are at least those of `l`. -/
def arrayLe (l l' : List Nat) : Prop :=
  l'.length = l.length ∧
  ∀ (j c : Nat), l[j]? = some c → ∃ c', l'[j]? = some c' ∧ c ≤ c'

/-- Every contention counter of `h'` is at least the one of `h`. -/
def hubCountersLe {Q : Type} (h h' : HubState Q) : Prop :=
  h.m_total_sender_hub_contention_delay ≤ h'.m_total_sender_hub_contention_delay ∧
  h.m_total_sender_hub_packets ≤ h'.m_total_sender_hub_packets ∧
  arrayLe h.m_total_receiver_hub_contention_delay h'.m_total_receiver_hub_contention_delay ∧
  arrayLe h.m_total_receiver_hub_packets h'.m_total_receiver_hub_packets

/-- Every contention counter of `h` is at most `bound`. -/
def hubCountersBelow {Q : Type} (h : HubState Q) (bound : Nat) : Prop :=
  h.m_total_sender_hub_contention_delay ≤ bound ∧
  h.m_total_sender_hub_packets ≤ bound ∧
  (∀ (j c : Nat), h.m_total_receiver_hub_contention_delay[j]? = some c → c ≤ bound) ∧
  (∀ (j c : Nat), h.m_total_receiver_hub_packets[j]? = some c → c ≤ bound)

/-- On every hub-hosting core, every contention counter in `hubs'` is at least the one in
`hubs`. -/
def hubsCountersLe {Q : Type} (hubs hubs' : Hubs Q) : Prop :=
  hubs'.length = hubs.length ∧
  ∀ (i : Nat) (h : HubState Q), hubs[i]? = some (some h) →
    ∃ h', hubs'[i]? = some (some h') ∧ hubCountersLe h h'

/-- Every contention counter of every hub is at most `bound`. -/
def hubsCountersBelow {Q : Type} (hubs : Hubs Q) (bound : Nat) : Prop :=
  ∀ (i : Nat) (h : HubState Q), hubs[i]? = some (some h) → hubCountersBelow h bound

/-- The three counters of `self'` are at least those of `self`. -/
def instanceCountersLe (self self' : Instance) : Prop :=
  self.m_total_bytes_received ≤ self'.m_total_bytes_received ∧
  self.m_total_packets_received ≤ self'.m_total_packets_received ∧
  self.m_total_packet_latency ≤ self'.m_total_packet_latency

/-- Room that hub counters need for the delays of a list of hub computations: each
computation adds its delay to a contention-delay total and 1 to a packet count. -/
def headroom (delays : List Nat) : Nat := (delays.map (fun d => max d 1)).sum

/-! ## A concrete system for the examples -/

/-- A single-server queue: the state is the time at which the server gets free. -/
def fifoQueue : QueueModel Nat where
  create := 0
  computeQueueDelay := fun queue_time pkt_time processing_time =>
    (if pkt_time < queue_time then queue_time - pkt_time else 0,
     u64 (max queue_time pkt_time + processing_time))

/-- Parameters of the 20-core example: clusters of 4 cores, electrical hop latency 3. -/
def params20 : Params :=
  { total_cores := 20
    application_cores := 16
    optical_hop_latency := 5
    electrical_mesh_hop_latency := 3
    optical_bus_bandwidth := 16
    num_electrical_broadcast_networks_per_cluster := 2
    cluster_size := 4
    queue_model_enabled := true }

/-- Members that the constructor derives from `params20`. -/
def config20 : Config :=
  { m_total_cores := 20
    m_num_application_cores := 16
    m_optical_hop_latency := 5
    m_electrical_mesh_hop_latency := 3
    m_optical_bus_bandwidth := 16
    m_num_electrical_broadcast_networks_per_cluster := 2
    m_queue_model_enabled := true
    m_sqrt_cluster_size := 2
    m_mesh_width := 4
    m_mesh_height := 5
    m_num_clusters := 6
    m_sender_cluster_electrical_network_delay := 3
    m_receiver_cluster_electrical_network_delay := 3 }

/-- Collaborators of the example: a shared-memory payload `d` names requester `d - 1`, the
modelled length is the packet's length field. -/
def env20 : Env :=
  { getShmemRequester := fun d => (d : Int) - 1
    getModeledLength := fun pkt => pkt.length
    BROADCAST := -559039810 }

/-- An enabled instance on core 5. -/
def self5 : Instance := enable (initialInstance 5)

/-- Hub members of the 20-core example right after construction. -/
def hubs20 : Hubs Nat := initialHubs fifoQueue config20

/-- Hub members of core 0, the hub core of cluster 0, right after construction. -/
def hub0 : HubState Nat :=
  { m_sender_hub_queue_model := 0
    m_receiver_hub_queue_models := [0, 0]
    m_total_sender_hub_contention_delay := 0
    m_total_sender_hub_packets := 0
    m_total_receiver_hub_contention_delay := [0, 0]
    m_total_receiver_hub_packets := [0, 0] }

/-- Hub members of the 20-core example when the sender side of the hub of cluster 0 is
busy until time `2^64 - 1`. -/
def hubsBusy20 : Hubs Nat :=
  hubs20.set 0 (some { hub0 with m_sender_hub_queue_model := 18446744073709551615 })

/-- Packet from core 5 to core 1 (same cluster) at time 100, two cycles on the bus. -/
def pkt5to1 : NetPacket :=
  { start_time := 90, time := 100, type := PacketType.OTHER, sender := 5, receiver := 1,
    length := 4, data := 0 }

/-- Packet from core 5 to core 19 (another cluster). -/
def pkt5to19 : NetPacket := { pkt5to1 with receiver := 19 }

/-- Packet from core 3 to itself. -/
def pkt3to3 : NetPacket := { pkt5to1 with sender := 3, receiver := 3 }

/-- Broadcast packet from core 5. -/
def pktBroadcast5 : NetPacket := { pkt5to1 with receiver := env20.BROADCAST }

/-- Broadcast packet whose sender field is 20, not a core of the 20-core example. -/
def pktBroadcast20 : NetPacket := { pkt5to1 with sender := 20, receiver := env20.BROADCAST }

/-- Packet from core 5 whose receiver field is `-1`. -/
def pkt5toMinus1 : NetPacket := { pkt5to1 with receiver := -1 }

/-- Packet from core 5 to core 1 whose `time` is 0 and whose `start_time` is 1. -/
def pktEarly : NetPacket := { pkt5to1 with start_time := 1, time := 0 }

/-- Shared-memory packet from core 5 to core 1 whose payload names requester `-1`. -/
def pktShmem5to1 : NetPacket := { pkt5to1 with type := PacketType.SHARED_MEM_1 }

/-- Shared-memory packet from core 5 to core 19 whose payload names requester `-1`. -/
def pktShmem5to19 : NetPacket := { pkt5to19 with type := PacketType.SHARED_MEM_2 }

/-- Shared-memory packet from core 3 to itself whose payload names requester `-1`. -/
def pktShmem3to3 : NetPacket := { pkt3to3 with type := PacketType.SHARED_MEM_1 }

/-- Parameters of the 20-core example with an optical bus bandwidth of zero, which the
constructor reads without a check. -/
def params20NoBandwidth : Params := { params20 with optical_bus_bandwidth := 0 }

/-- Members that the constructor derives from `params20NoBandwidth`. -/
def config20NoBandwidth : Config := { config20 with m_optical_bus_bandwidth := 0 }

/-- Hub members of the 20-core example with bandwidth zero, right after construction. -/
def hubs20NoBandwidth : Hubs Nat := initialHubs fifoQueue config20NoBandwidth

/-- Parameters of the 20-core example with no electrical broadcast network per cluster,
which the constructor reads without a check. -/
def params20NoNetworks : Params :=
  { params20 with num_electrical_broadcast_networks_per_cluster := 0 }

/-- Members that the constructor derives from `params20NoNetworks`. -/
def config20NoNetworks : Config :=
  { config20 with m_num_electrical_broadcast_networks_per_cluster := 0 }

/-- Hub members of the 20-core example without broadcast networks, right after
construction. -/
def hubs20NoNetworks : Hubs Nat := initialHubs fifoQueue config20NoNetworks

/-- Parameters of the 20-core example with three electrical broadcast networks per
cluster. -/
def params20Three : Params :=
  { params20 with num_electrical_broadcast_networks_per_cluster := 3 }

/-- Members that the constructor derives from `params20Three`. -/
def config20Three : Config :=
  { config20 with m_num_electrical_broadcast_networks_per_cluster := 3 }

/-- Hub members of core 0 with three receiver channels, right after construction. -/
def hub0Three : HubState Nat :=
  { m_sender_hub_queue_model := 0
    m_receiver_hub_queue_models := [0, 0, 0]
    m_total_sender_hub_contention_delay := 0
    m_total_sender_hub_packets := 0
    m_total_receiver_hub_contention_delay := [0, 0, 0]
    m_total_receiver_hub_packets := [0, 0, 0] }

/-- Hub members of core 0 whose sender-hub packet count is `2^64 - 1`. -/
def hub0Full : HubState Nat :=
  { hub0 with m_total_sender_hub_packets := 18446744073709551615 }

/-- Hub members of the 20-core example when the hub of cluster 0 has counted `2^64 - 1`
sender-hub packets. -/
def hubsFull20 : Hubs Nat := hubs20.set 0 (some hub0Full)

/-- An enabled instance on core 5 that has counted `2^64 - 1` received packets. -/
def self5Full : Instance :=
  { self5 with m_total_packets_received := 18446744073709551615 }

/-- Packet from core 5 to the core id 20, which the 20-core system does not have. -/
def pkt5to20 : NetPacket := { pkt5to1 with receiver := 20 }

/-! ## Arithmetic lemmas -/

theorem u64_time_unicast (t sd ds opt dr rd pt : Nat) :
    u64 (t + u64 (u64 (u64 (u64 (sd + ds) + opt) + u64 (dr + rd)) + pt))
      = u64 (t + sd + ds + opt + dr + rd + pt) := by
  simp only [u64, U64]
  omega

theorem u64_time_arrival (t sd ds opt : Nat) :
    u64 (t + u64 (u64 (sd + ds) + opt)) = u64 (t + sd + ds + opt) := by
  simp only [u64, U64]
  omega

theorem u64_time_same_cluster (t sd rd pt : Nat) :
    u64 (t + u64 (u64 (sd + rd) + pt)) = u64 (t + sd + rd + pt) := by
  simp only [u64, U64]
  omega

theorem u64_no_contention (t sd ds opt dr rd pt : Nat) :
    u64 (t + sd + ds + opt + dr + rd + pt) = u64 (u64 (t + sd + 0 + opt + 0 + rd + pt) + ds + dr) := by
  simp only [u64, U64]
  omega

theorem arrayGet_natCast {α : Type} (xs : List α) (n : Nat) :
    arrayGet xs (n : Int) = xs[n]? := by
  simp [arrayGet]

theorem arrayGet_of_lt {α : Type} (xs : List α) (i : Int) (h0 : 0 ≤ i)
    (h1 : i < (xs.length : Int)) : ∃ x, arrayGet xs i = some x := by
  lift i to Nat using h0
  rw [arrayGet_natCast]
  have : i < xs.length := by exact_mod_cast h1
  exact ⟨xs[i], List.getElem?_eq_getElem this⟩

theorem tdiv_natCast (a b : Nat) : Int.tdiv (a : Int) (b : Int) = ((a / b : Nat) : Int) := rfl
theorem tmod_natCast (a b : Nat) : Int.tmod (a : Int) (b : Int) = ((a % b : Nat) : Int) := rfl

theorem getClusterID_natCast (cfg : Config) (n : Nat) :
    getClusterID cfg (n : Int) = ((clusterNat cfg n : Nat) : Int) := by
  simp only [getClusterID, clusterNat, tdiv_natCast, tmod_natCast]
  push_cast
  rfl

theorem getCoreIDWithOpticalHub_natCast (cfg : Config) (c : Nat) :
    getCoreIDWithOpticalHub cfg (c : Int) = ((hubNat cfg c : Nat) : Int) := by
  simp only [getCoreIDWithOpticalHub, hubNat, tdiv_natCast, tmod_natCast]
  push_cast
  rfl

theorem construct_accepted {p : Params} {cfg : Config} (h : construct p = .ok cfg) :
    Accepted cfg := by
  unfold construct at h
  simp only at h
  split_ifs at h with h1 h2 h3 h4 h5
  simp only [Except.ok.injEq] at h
  subst h
  push_neg at h2
  simp only [ne_eq, not_not] at h3 h4 h5
  exact ⟨Nat.pos_of_ne_zero h2.2, Nat.pos_of_ne_zero h2.1, h3, h4, h5, rfl, rfl⟩

theorem construct_params20 : construct params20 = .ok config20 := by
  have h4 : Nat.sqrt 4 = 2 := (Nat.eq_sqrt.2 ⟨by norm_num, by norm_num⟩).symm
  have h20 : Nat.sqrt 20 = 4 := (Nat.eq_sqrt.2 ⟨by norm_num, by norm_num⟩).symm
  simp [construct, params20, config20, h4, h20, ceilDiv]

theorem construct_params20NoBandwidth :
    construct params20NoBandwidth = .ok config20NoBandwidth := by
  have h4 : Nat.sqrt 4 = 2 := (Nat.eq_sqrt.2 ⟨by norm_num, by norm_num⟩).symm
  have h20 : Nat.sqrt 20 = 4 := (Nat.eq_sqrt.2 ⟨by norm_num, by norm_num⟩).symm
  simp [construct, params20NoBandwidth, config20NoBandwidth, params20, config20, h4, h20,
    ceilDiv]

theorem construct_params20NoNetworks :
    construct params20NoNetworks = .ok config20NoNetworks := by
  have h4 : Nat.sqrt 4 = 2 := (Nat.eq_sqrt.2 ⟨by norm_num, by norm_num⟩).symm
  have h20 : Nat.sqrt 20 = 4 := (Nat.eq_sqrt.2 ⟨by norm_num, by norm_num⟩).symm
  simp [construct, params20NoNetworks, config20NoNetworks, params20, config20, h4, h20,
    ceilDiv]

theorem construct_params20Three : construct params20Three = .ok config20Three := by
  have h4 : Nat.sqrt 4 = 2 := (Nat.eq_sqrt.2 ⟨by norm_num, by norm_num⟩).symm
  have h20 : Nat.sqrt 20 = 4 := (Nat.eq_sqrt.2 ⟨by norm_num, by norm_num⟩).symm
  simp [construct, params20Three, config20Three, params20, config20, h4, h20, ceilDiv]

theorem mul_add_div_mod (a b k : Nat) (hb : b < k) :
    (a * k + b) / k = a ∧ (a * k + b) % k = b := by
  have hk : 0 < k := Nat.lt_of_le_of_lt (Nat.zero_le _) hb
  constructor
  · rw [Nat.add_comm, Nat.add_mul_div_right _ _ hk, Nat.div_eq_of_lt hb, Nat.zero_add]
  · rw [Nat.add_comm, Nat.add_mul_mod_self_right, Nat.mod_eq_of_lt hb]

/-- Shape of an accepted mesh, in natural numbers: `W = cw * S`. -/
theorem width_eq (W S : Nat) (hm : W % S = 0) : W = W / S * S := by
  have := Nat.div_add_mod W S
  rw [hm, Nat.add_zero, Nat.mul_comm] at this
  exact this.symm

theorem cw_pos (W S : Nat) (hW : 0 < W) (hm : W % S = 0) : 0 < W / S := by
  rcases Nat.eq_zero_or_pos (W / S) with h | h
  · have := width_eq W S hm
    rw [h, Nat.zero_mul] at this
    omega
  · exact h

theorem cluster_hub_nat (W S c : Nat) (hS : 0 < S) (hW : 0 < W) (hm : W % S = 0) :
    ((c / (W / S) * S) * W + (c % (W / S)) * S) / W / S * (W / S)
      + ((c / (W / S) * S) * W + (c % (W / S)) * S) % W / S = c := by
  have hcw := cw_pos W S hW hm
  have hlt : c % (W / S) * S < W := by
    have h1 : c % (W / S) < W / S := Nat.mod_lt _ hcw
    calc c % (W / S) * S < W / S * S := Nat.mul_lt_mul_of_pos_right h1 hS
      _ = W := (width_eq W S hm).symm
  obtain ⟨h1, h2⟩ := mul_add_div_mod (c / (W / S) * S) (c % (W / S) * S) W hlt
  rw [h1, h2, Nat.mul_div_cancel _ hS, Nat.mul_div_cancel _ hS]
  exact Nat.div_add_mod' c (W / S)

theorem hub_cluster_nat_le (W S n : Nat) (hW : 0 < W) (hm : W % S = 0) :
    ((n / W / S * (W / S) + n % W / S) / (W / S) * S) * W
      + ((n / W / S * (W / S) + n % W / S) % (W / S)) * S ≤ n := by
  have hx : n % W / S < W / S := by
    apply Nat.div_lt_of_lt_mul
    rw [Nat.mul_comm, ← width_eq W S hm]
    exact Nat.mod_lt _ hW
  obtain ⟨h1, h2⟩ := mul_add_div_mod (n / W / S) (n % W / S) (W / S) hx
  rw [h1, h2]
  have hy : n / W / S * S ≤ n / W := Nat.div_mul_le_self _ _
  have hx2 : n % W / S * S ≤ n % W := Nat.div_mul_le_self _ _
  have hn : n / W * W + n % W = n := Nat.div_add_mod' n W
  have : n / W / S * S * W ≤ n / W * W := Nat.mul_le_mul_right W hy
  omega

theorem ceilDiv_eq_succ (H S : Nat) (hH : 0 < H) (hS : 0 < S) :
    ceilDiv H S = (H - 1) / S + 1 := by
  unfold ceilDiv
  have : H + S - 1 = (H - 1) + S := by omega
  rw [this, Nat.add_div_right _ hS]

theorem cluster_nat_lt (W S H n : Nat) (hS : 0 < S) (hW : 0 < W) (hm : W % S = 0)
    (hn : n < W * H) :
    n / W / S * (W / S) + n % W / S < W / S * ceilDiv H S := by
  have hH : 0 < H := by
    rcases Nat.eq_zero_or_pos H with h | h
    · subst h; simp at hn
    · exact h
  have hx : n % W / S < W / S := by
    apply Nat.div_lt_of_lt_mul
    rw [Nat.mul_comm, ← width_eq W S hm]
    exact Nat.mod_lt _ hW
  have hy : n / W < H := Nat.div_lt_of_lt_mul hn
  have hy2 : n / W / S ≤ (H - 1) / S := Nat.div_le_div_right (by omega)
  rw [ceilDiv_eq_succ H S hH hS]
  calc n / W / S * (W / S) + n % W / S
      < n / W / S * (W / S) + W / S := by omega
    _ = (n / W / S + 1) * (W / S) := by ring
    _ ≤ ((H - 1) / S + 1) * (W / S) := Nat.mul_le_mul_right _ (by omega)
    _ = W / S * ((H - 1) / S + 1) := by ring

theorem hub_nat_lt (W S H c : Nat) (hS : 0 < S) (hW : 0 < W) (hm : W % S = 0)
    (hc : c < W / S * ceilDiv H S) (hH : 0 < H) :
    (c / (W / S) * S) * W + (c % (W / S)) * S < W * H := by
  have hcw := cw_pos W S hW hm
  rw [ceilDiv_eq_succ H S hH hS] at hc
  have h1 : c / (W / S) < (H - 1) / S + 1 := Nat.div_lt_of_lt_mul hc
  have h2 : c / (W / S) * S ≤ (H - 1) / S * S := Nat.mul_le_mul_right S (by omega)
  have h3 : (H - 1) / S * S ≤ H - 1 := Nat.div_mul_le_self _ _
  have hlt : c % (W / S) * S < W := by
    have h1 : c % (W / S) < W / S := Nat.mod_lt _ hcw
    calc c % (W / S) * S < W / S * S := Nat.mul_lt_mul_of_pos_right h1 hS
      _ = W := (width_eq W S hm).symm
  have h4 : c / (W / S) * S * W ≤ (H - 1) * W := Nat.mul_le_mul_right W (by omega)
  have h5 : (H - 1) * W + W = W * H := by
    have : H = (H - 1) + 1 := by omega
    conv_rhs => rw [this]
    ring
  omega

/-- Uniqueness of quotient and remainder. -/
theorem mul_add_unique (a b a' b' k : Nat) (hb : b < k) (hb' : b' < k)
    (h : a * k + b = a' * k + b') : a = a' ∧ b = b' := by
  obtain ⟨h1, h2⟩ := mul_add_div_mod a b k hb
  obtain ⟨h3, h4⟩ := mul_add_div_mod a' b' k hb'
  rw [h] at h1 h2
  exact ⟨h1.symm.trans h3, h2.symm.trans h4⟩

theorem complete_cluster_card (W S c : Nat) (hS : 0 < S) (hW : 0 < W) (hm : W % S = 0)
    (hc : c < W / S * (W / S)) :
    ((Finset.range (W * (W + 1))).filter
      (fun n => n / W / S * (W / S) + n % W / S = c)).card = S * S := by
  have hcw := cw_pos W S hW hm
  have hWS := width_eq W S hm
  have hcx : c % (W / S) < W / S := Nat.mod_lt _ hcw
  have hcy : c / (W / S) < W / S := Nat.div_lt_of_lt_mul hc
  have hcsplit : c / (W / S) * (W / S) + c % (W / S) = c := Nat.div_add_mod' c (W / S)
  rw [show S * S = ((Finset.range S) ×ˢ (Finset.range S)).card by
    rw [Finset.card_product, Finset.card_range]]
  refine Finset.card_nbij' (fun n => (n % W % S, n / W % S))
    (fun ab => (c / (W / S) * S + ab.2) * W + (c % (W / S) * S + ab.1)) ?_ ?_ ?_ ?_
  · intro n _
    simp only [Finset.mem_product, Finset.mem_range]
    exact ⟨Nat.mod_lt _ hS, Nat.mod_lt _ hS⟩
  · rintro ⟨a, b⟩ hab
    simp only [Finset.mem_product, Finset.mem_range] at hab
    obtain ⟨ha, hb⟩ := hab
    have hx : c % (W / S) * S + a < W := by
      have : (c % (W / S) + 1) * S ≤ W / S * S := Nat.mul_le_mul_right S hcx
      rw [← hWS] at this
      have e : (c % (W / S) + 1) * S = c % (W / S) * S + S := by ring
      omega
    have hy : c / (W / S) * S + b < W := by
      have : (c / (W / S) + 1) * S ≤ W / S * S := Nat.mul_le_mul_right S hcy
      rw [← hWS] at this
      have e : (c / (W / S) + 1) * S = c / (W / S) * S + S := by ring
      omega
    obtain ⟨h1, h2⟩ := mul_add_div_mod (c / (W / S) * S + b) (c % (W / S) * S + a) W hx
    obtain ⟨h3, _⟩ := mul_add_div_mod (c % (W / S)) a S ha
    obtain ⟨h5, _⟩ := mul_add_div_mod (c / (W / S)) b S hb
    simp only [Finset.mem_filter, Finset.mem_range]
    constructor
    · have : (c / (W / S) * S + b + 1) * W ≤ W * W := by
        have := Nat.mul_le_mul_right W hy
        rwa [Nat.succ_eq_add_one] at this
      have e1 : (c / (W / S) * S + b + 1) * W = (c / (W / S) * S + b) * W + W := by ring
      have e2 : W * (W + 1) = W * W + W := by ring
      omega
    · rw [h1, h2, h3, h5]
      exact hcsplit
  · intro n hn
    simp only [Finset.mem_filter, Finset.mem_range] at hn
    obtain ⟨_, hn⟩ := hn
    have hx : n % W / S < W / S := by
      apply Nat.div_lt_of_lt_mul
      rw [Nat.mul_comm, ← hWS]
      exact Nat.mod_lt _ hW
    obtain ⟨e1, e2⟩ := mul_add_unique _ _ _ _ _ hx hcx (hn.trans hcsplit.symm)
    simp only
    rw [← e1, ← e2, Nat.div_add_mod' (n / W) S, Nat.div_add_mod' (n % W) S]
    exact Nat.div_add_mod' n W
  · rintro ⟨a, b⟩ hab
    simp only [Finset.mem_product, Finset.mem_range] at hab
    obtain ⟨ha, hb⟩ := hab
    have hx : c % (W / S) * S + a < W := by
      have : (c % (W / S) + 1) * S ≤ W / S * S := Nat.mul_le_mul_right S hcx
      rw [← hWS] at this
      have e : (c % (W / S) + 1) * S = c % (W / S) * S + S := by ring
      omega
    obtain ⟨h1, h2⟩ := mul_add_div_mod (c / (W / S) * S + b) (c % (W / S) * S + a) W hx
    obtain ⟨_, h4⟩ := mul_add_div_mod (c % (W / S)) a S ha
    obtain ⟨_, h6⟩ := mul_add_div_mod (c / (W / S)) b S hb
    simp only
    rw [h1, h2, h4, h6]

/-- Ceiling of a quotient of natural numbers, by quotient and remainder. -/
theorem ceil_div_eq (a b : Nat) (hb : 0 < b) :
    ⌈((a : ℕ) : ℚ) / (b : ℚ)⌉₊ = (if a % b = 0 then a / b else a / b + 1) := by
  have hbq : (0 : ℚ) < (b : ℚ) := by exact_mod_cast hb
  have hdm : b * (a / b) + a % b = a := Nat.div_add_mod a b
  have hml : a % b < b := Nat.mod_lt a hb
  split_ifs with h
  · have hdvd : b ∣ a := Nat.dvd_of_mod_eq_zero h
    rw [← Nat.cast_div hdvd (by exact_mod_cast hb.ne'), Nat.ceil_natCast]
  · rw [Nat.ceil_eq_iff (Nat.succ_ne_zero (a / b))]
    simp only [Nat.succ_eq_add_one]
    constructor
    · rw [Nat.add_sub_cancel, lt_div_iff₀ hbq]
      have : a / b * b < a := by rw [Nat.mul_comm]; omega
      exact_mod_cast this
    · rw [div_le_iff₀ hbq]
      have : a ≤ (a / b + 1) * b := by
        rw [Nat.add_mul, Nat.one_mul, Nat.mul_comm]; omega
      exact_mod_cast this

theorem ceilDiv_eq_if (a b : Nat) (hb : 0 < b) :
    ceilDiv a b = (if a % b = 0 then a / b else a / b + 1) := by
  have hdm : a / b * b + a % b = a := Nat.div_add_mod' a b
  have hml : a % b < b := Nat.mod_lt a hb
  unfold ceilDiv
  split_ifs with h
  · have e : a + b - 1 = a / b * b + (b - 1) := by omega
    rw [e]
    exact (mul_add_div_mod (a / b) (b - 1) b (by omega)).1
  · have e : a + b - 1 = (a / b + 1) * b + (a % b - 1) := by
      rw [Nat.add_mul, Nat.one_mul]; omega
    rw [e]
    exact (mul_add_div_mod (a / b + 1) (a % b - 1) b (by omega)).1

theorem computeProcessingTime_eq (pkt_length bandwidth : Nat) (hb : 0 < bandwidth)
    (hl : pkt_length * 8 < U32) :
    computeProcessingTime pkt_length bandwidth
      = .ok (if pkt_length * 8 % bandwidth = 0 then pkt_length * 8 / bandwidth
         else pkt_length * 8 / bandwidth + 1) := by
  unfold computeProcessingTime
  simp only [u32, Nat.mod_eq_of_lt hl]
  rw [if_neg (Nat.pos_iff_ne_zero.mp hb)]
  split_ifs with h
  · rfl
  · congr 1
    apply Nat.mod_eq_of_lt
    have h1 : pkt_length * 8 / bandwidth ≤ pkt_length * 8 := Nat.div_le_self _ _
    rcases Nat.lt_or_ge (pkt_length * 8 / bandwidth + 1) U32 with h2 | h2
    · exact h2
    · exfalso
      have h3 : pkt_length * 8 / bandwidth = pkt_length * 8 := by omega
      rcases Nat.eq_or_lt_of_le (Nat.succ_le_of_lt hb) with h4 | h4
      · apply h; rw [← h4]; exact Nat.mod_one _
      · have : pkt_length * 8 / bandwidth < pkt_length * 8 :=
          Nat.div_lt_self (by unfold U32 at h2; omega) h4
        omega

/-- The processing time is computed whenever the bandwidth is not zero. -/
theorem computeProcessingTime_ok (pkt_length : Nat) {bandwidth : Nat} (hb : 0 < bandwidth) :
    ∃ processing_time, computeProcessingTime pkt_length bandwidth = .ok processing_time := by
  unfold computeProcessingTime
  simp only
  rw [if_neg (Nat.pos_iff_ne_zero.mp hb)]
  split_ifs
  · exact ⟨_, rfl⟩
  · exact ⟨_, rfl⟩

/-- The processing time is not computed on a bandwidth of zero. -/
theorem computeProcessingTime_zero (pkt_length : Nat) :
    computeProcessingTime pkt_length 0 = .error Fatal.divisionByZero := by
  unfold computeProcessingTime
  simp

/-- A computed processing time comes from a bandwidth that is not zero. -/
theorem computeProcessingTime_pos {pkt_length bandwidth processing_time : Nat}
    (h : computeProcessingTime pkt_length bandwidth = .ok processing_time) :
    0 < bandwidth := by
  rcases Nat.eq_zero_or_pos bandwidth with h0 | h0
  · rw [h0, computeProcessingTime_zero] at h
    cases h
  · exact h0

/-- The only failure of the processing time is the division by zero. -/
theorem computeProcessingTime_error {pkt_length bandwidth : Nat} {e : Fatal}
    (h : computeProcessingTime pkt_length bandwidth = .error e) :
    e = Fatal.divisionByZero ∧ bandwidth = 0 := by
  rcases Nat.eq_zero_or_pos bandwidth with h0 | h0
  · rw [h0, computeProcessingTime_zero] at h
    cases h
    exact ⟨rfl, h0⟩
  · obtain ⟨pt, hpt⟩ := computeProcessingTime_ok pkt_length h0
    rw [hpt] at h
    cases h

/-- The unsigned value of a non-negative `SInt32`. -/
theorem toUInt32_of_nonneg {i : Int} (h0 : 0 ≤ i) (h1 : i < (U32 : Int)) :
    toUInt32 i = i.toNat := by
  unfold toUInt32
  rw [Int.emod_eq_of_lt h0 h1]

/-- The unsigned value of a negative `SInt32`. -/
theorem toUInt32_of_neg {i : Int} (h0 : i < 0) (h1 : -(U32 : Int) ≤ i) :
    ((toUInt32 i : Nat) : Int) = (U32 : Int) + i := by
  unfold toUInt32
  have hU : (0 : Int) < (U32 : Int) := by unfold U32; norm_num
  have h2 : (i + (U32 : Int)) % (U32 : Int) = i % (U32 : Int) := Int.add_emod_self
  have h3 : (i + (U32 : Int)) % (U32 : Int) = i + (U32 : Int) :=
    Int.emod_eq_of_lt (by omega) (by omega)
  rw [← h2, h3, Int.toNat_of_nonneg (by omega)]
  ring

/-! ## Topology lemmas -/

theorem construct_cluster_size {p : Params} {cfg : Config} (h : construct p = .ok cfg) :
    p.cluster_size = cfg.m_sqrt_cluster_size * cfg.m_sqrt_cluster_size ∧
      cfg.m_total_cores = p.total_cores := by
  unfold construct at h
  simp only at h
  split_ifs at h with h1 h2 h3 h4 h5
  simp only [Except.ok.injEq] at h
  subst h
  simp only [ne_eq, not_not] at h1
  exact ⟨h1, rfl⟩

theorem Accepted.total {cfg : Config} (ha : Accepted cfg) :
    cfg.m_total_cores = cfg.m_mesh_width * (cfg.m_mesh_width + 1) := by
  rw [← ha.cores, ha.height]

theorem clusterNat_hubNat {cfg : Config} (ha : Accepted cfg) (c : Nat) :
    clusterNat cfg (hubNat cfg c) = c :=
  cluster_hub_nat _ _ c ha.sqrt_pos ha.width_pos ha.width_multiple

theorem hubNat_clusterNat_le {cfg : Config} (ha : Accepted cfg) (n : Nat) :
    hubNat cfg (clusterNat cfg n) ≤ n :=
  hub_cluster_nat_le _ _ n ha.width_pos ha.width_multiple

theorem clusterNat_lt {cfg : Config} (ha : Accepted cfg) {n : Nat}
    (hn : n < cfg.m_total_cores) : clusterNat cfg n < cfg.m_num_clusters := by
  rw [ha.clusters]
  rw [← ha.cores] at hn
  exact cluster_nat_lt _ _ _ n ha.sqrt_pos ha.width_pos ha.width_multiple hn

theorem hubNat_lt {cfg : Config} (ha : Accepted cfg) {c : Nat}
    (hc : c < cfg.m_num_clusters) : hubNat cfg c < cfg.m_total_cores := by
  rw [ha.clusters] at hc
  rw [← ha.cores]
  exact hub_nat_lt _ _ _ c ha.sqrt_pos ha.width_pos ha.width_multiple hc
    (by rw [ha.height]; omega)

/-- Left inverse on integers, for non-negative cluster ids. -/
theorem getClusterID_hub {cfg : Config} (ha : Accepted cfg) {c : Int} (h0 : 0 ≤ c) :
    getClusterID cfg (getCoreIDWithOpticalHub cfg c) = c := by
  lift c to Nat using h0
  rw [getCoreIDWithOpticalHub_natCast, getClusterID_natCast, clusterNat_hubNat ha]

theorem validCore_hub {cfg : Config} (ha : Accepted cfg) {c : Int} (h0 : 0 ≤ c)
    (h1 : c < (cfg.m_num_clusters : Int)) : validCore cfg (getCoreIDWithOpticalHub cfg c) := by
  lift c to Nat using h0
  rw [getCoreIDWithOpticalHub_natCast]
  have : c < cfg.m_num_clusters := by exact_mod_cast h1
  have := hubNat_lt ha this
  exact ⟨Int.natCast_nonneg _, by exact_mod_cast this⟩

theorem getClusterID_range {cfg : Config} (ha : Accepted cfg) {i : Int}
    (hi : validCore cfg i) :
    0 ≤ getClusterID cfg i ∧ getClusterID cfg i < (cfg.m_num_clusters : Int) := by
  obtain ⟨h0, h1⟩ := hi
  lift i to Nat using h0
  rw [getClusterID_natCast]
  have : i < cfg.m_total_cores := by exact_mod_cast h1
  have := clusterNat_lt ha this
  exact ⟨Int.natCast_nonneg _, by exact_mod_cast this⟩

theorem hub_getClusterID_le {cfg : Config} (ha : Accepted cfg) {i : Int} (h0 : 0 ≤ i) :
    getCoreIDWithOpticalHub cfg (getClusterID cfg i) ≤ i := by
  lift i to Nat using h0
  rw [getClusterID_natCast, getCoreIDWithOpticalHub_natCast]
  exact_mod_cast hubNat_clusterNat_le ha i

theorem complete_cluster_count {cfg : Config} (ha : Accepted cfg) {c : Int} (h0 : 0 ≤ c)
    (h1 : c < ((cfg.m_mesh_width / cfg.m_sqrt_cluster_size) ^ 2 : Nat)) :
    ((Finset.range cfg.m_total_cores).filter
      (fun n : Nat => getClusterID cfg (n : Int) = c)).card
      = cfg.m_sqrt_cluster_size * cfg.m_sqrt_cluster_size := by
  lift c to Nat using h0
  have hc : c < cfg.m_mesh_width / cfg.m_sqrt_cluster_size
      * (cfg.m_mesh_width / cfg.m_sqrt_cluster_size) := by
    have : c < (cfg.m_mesh_width / cfg.m_sqrt_cluster_size) ^ 2 := by exact_mod_cast h1
    rwa [sq] at this
  rw [ha.total]
  have := complete_cluster_card _ _ c ha.sqrt_pos ha.width_pos ha.width_multiple hc
  rw [← this]
  congr 1
  apply Finset.filter_congr
  intro n _
  rw [getClusterID_natCast]
  simp only [clusterNat, Nat.cast_inj]

/-! ## Hub queue delay lemmas -/

variable {Q : Type}

/-- A hub computation on the hub-hosting core of a cluster succeeds when that core has its
hub members and neither the bandwidth nor the number of broadcast networks is zero. -/
theorem computeHubQueueDelay_ok (qm : QueueModel Q) {cfg : Config} (ha : Accepted cfg)
    (hq : cfg.m_queue_model_enabled = true)
    (hbw : 0 < cfg.m_optical_bus_bandwidth)
    (hB : 0 < cfg.m_num_electrical_broadcast_networks_per_cluster)
    {cluster_id : Int} (hc0 : 0 ≤ cluster_id) (h : HubState Q)
    (hl1 : h.m_receiver_hub_queue_models.length
      = cfg.m_num_electrical_broadcast_networks_per_cluster)
    (hl2 : h.m_total_receiver_hub_contention_delay.length
      = cfg.m_num_electrical_broadcast_networks_per_cluster)
    (hl3 : h.m_total_receiver_hub_packets.length
      = cfg.m_num_electrical_broadcast_networks_per_cluster)
    (hub_type : HubType) (sender_cluster_id : Int)
    (hsend : hub_type = HubType.SENDER_HUB → sender_cluster_id = cluster_id)
    (pkt_time pkt_length : Nat) :
    ∃ d h', computeHubQueueDelay qm cfg (getCoreIDWithOpticalHub cfg cluster_id) (some h)
        hub_type sender_cluster_id pkt_time pkt_length = .ok (d, some h') ∧
      h'.m_receiver_hub_queue_models.length
        = cfg.m_num_electrical_broadcast_networks_per_cluster ∧
      h'.m_total_receiver_hub_contention_delay.length
        = cfg.m_num_electrical_broadcast_networks_per_cluster ∧
      h'.m_total_receiver_hub_packets.length
        = cfg.m_num_electrical_broadcast_networks_per_cluster := by
  have hcl := getClusterID_hub ha hc0
  obtain ⟨pt, hpt⟩ := computeProcessingTime_ok pkt_length hbw
  unfold computeHubQueueDelay
  rw [if_neg (by simp [hq]), if_neg (by rw [hcl]; simp)]
  cases hub_type with
  | SENDER_HUB =>
    simp only
    rw [hpt]
    simp only
    rw [if_neg (by rw [hcl, hsend rfl]; simp)]
    exact ⟨_, _, rfl, hl1, hl2, hl3⟩
  | RECEIVER_HUB =>
    simp only
    rw [hpt]
    simp only
    rw [if_neg (Nat.pos_iff_ne_zero.mp hB)]
    have hm0 : (0 : Int) ≤ ((toUInt32 sender_cluster_id
        % cfg.m_num_electrical_broadcast_networks_per_cluster : Nat) : Int) :=
      Int.natCast_nonneg _
    have hm1 : ((toUInt32 sender_cluster_id
        % cfg.m_num_electrical_broadcast_networks_per_cluster : Nat) : Int)
        < (cfg.m_num_electrical_broadcast_networks_per_cluster : Int) := by
      exact_mod_cast Nat.mod_lt _ hB
    obtain ⟨q, hq1⟩ := arrayGet_of_lt h.m_receiver_hub_queue_models _ hm0 (by rw [hl1]; exact hm1)
    obtain ⟨td, hq2⟩ := arrayGet_of_lt h.m_total_receiver_hub_contention_delay _ hm0
      (by rw [hl2]; exact hm1)
    obtain ⟨tp, hq3⟩ := arrayGet_of_lt h.m_total_receiver_hub_packets _ hm0
      (by rw [hl3]; exact hm1)
    rw [hq1, hq2, hq3]
    exact ⟨_, _, rfl, by simp [hl1], by simp [hl2], by simp [hl3]⟩

theorem HubsWF_set {cfg : Config} {hubs : Hubs Q} (hwf : HubsWF cfg hubs) (k : Nat)
    (h' : HubState Q)
    (hl1 : h'.m_receiver_hub_queue_models.length
      = cfg.m_num_electrical_broadcast_networks_per_cluster)
    (hl2 : h'.m_total_receiver_hub_contention_delay.length
      = cfg.m_num_electrical_broadcast_networks_per_cluster)
    (hl3 : h'.m_total_receiver_hub_packets.length
      = cfg.m_num_electrical_broadcast_networks_per_cluster) :
    HubsWF cfg (hubs.set k (some h')) := by
  refine ⟨by rw [List.length_set]; exact hwf.1, ?_⟩
  intro i o hio hq hi
  by_cases hik : k = i
  · subst hik
    rw [List.getElem?_set_self'] at hio
    rcases hk : hubs[k]? with _ | x
    · rw [hk] at hio; simp at hio
    · rw [hk] at hio
      have hio' : some h' = o := by simpa using hio
      exact ⟨h', hio'.symm, hl1, hl2, hl3⟩
  · rw [List.getElem?_set_ne hik] at hio
    exact hwf.2 i o hio hq hi

/-- On a constructed system every hub computation that routing asks for succeeds, and the
hub members stay those of a constructed system. -/
theorem getHubQueueDelay_ok (qm : QueueModel Q) {cfg : Config} (ha : Accepted cfg)
    (hbw : 0 < cfg.m_optical_bus_bandwidth)
    (hB : 0 < cfg.m_num_electrical_broadcast_networks_per_cluster)
    (self : Instance) {hubs : Hubs Q} (hwf : HubsWF cfg hubs)
    (hub_type : HubType) {sender_cluster_id cluster_id : Int}
    (hc0 : 0 ≤ cluster_id)
    (hc1 : cluster_id < (cfg.m_num_clusters : Int))
    (hsend : hub_type = HubType.SENDER_HUB → sender_cluster_id = cluster_id)
    (pkt_time pkt_length : Nat) (pkt_type : PacketType) (requester : Int) :
    ∃ d hubs', getHubQueueDelay qm cfg self hubs hub_type sender_cluster_id cluster_id
        pkt_time pkt_length pkt_type requester = .ok (d, hubs') ∧ HubsWF cfg hubs' := by
  unfold getHubQueueDelay
  split_ifs with hcond
  · exact ⟨0, hubs, rfl, hwf⟩
  · have hq : cfg.m_queue_model_enabled = true := by
      rcases hqe : cfg.m_queue_model_enabled with _ | _
      · exact absurd (Or.inr (Or.inl hqe)) hcond
      · rfl
    obtain ⟨hv0, hv1⟩ := validCore_hub ha hc0 hc1
    simp only
    obtain ⟨o, ho⟩ := arrayGet_of_lt hubs _ hv0 (by rw [hwf.1]; exact hv1)
    rw [ho]
    simp only
    have ho' : hubs[(getCoreIDWithOpticalHub cfg cluster_id).toNat]? = some o := by
      have := ho
      unfold arrayGet at this
      rwa [if_neg (by omega)] at this
    have hidx : (((getCoreIDWithOpticalHub cfg cluster_id).toNat : Nat) : Int)
        = getCoreIDWithOpticalHub cfg cluster_id := Int.toNat_of_nonneg hv0
    obtain ⟨h, rfl, hl1, hl2, hl3⟩ := hwf.2 _ o ho' hq (by
      rw [hidx, getClusterID_hub ha hc0])
    obtain ⟨d, h', hres, hl1', hl2', hl3'⟩ := computeHubQueueDelay_ok qm ha hq hbw hB hc0 h
      hl1 hl2 hl3 hub_type sender_cluster_id hsend pkt_time pkt_length
    rw [hres]
    exact ⟨d, _, rfl, HubsWF_set hwf _ h' hl1' hl2' hl3'⟩

/-! ## Lemmas on the broadcast loops -/

variable {Q : Type}

theorem receiverHubQueueDelays_cons (qm : QueueModel Q) (cfg : Config) (self : Instance)
    (scid : Int) (t len : Nat) (ty : PacketType) (req : Int) (k : Nat) (rest : List Nat)
    (hubs hubs' : Hubs Q) (ds : List Nat)
    (h : receiverHubQueueDelays qm cfg self scid t len ty req (k :: rest) hubs
      = .ok (ds, hubs')) :
    ∃ d h1 ds', getHubQueueDelay qm cfg self hubs HubType.RECEIVER_HUB scid (k : Int) t len
        ty req = .ok (d, h1) ∧
      receiverHubQueueDelays qm cfg self scid t len ty req rest h1 = .ok (ds', hubs') ∧
      ds = d :: ds' := by
  unfold receiverHubQueueDelays at h
  rcases hg : getHubQueueDelay qm cfg self hubs HubType.RECEIVER_HUB scid (k : Int) t len
      ty req with e | ⟨d, h1⟩
  · rw [hg] at h; simp at h
  · rw [hg] at h
    simp only at h
    rcases hr : receiverHubQueueDelays qm cfg self scid t len ty req rest h1 with e | ⟨ds', h2⟩
    · rw [hr] at h; simp at h
    · rw [hr] at h
      simp only [Except.ok.injEq, Prod.mk.injEq] at h
      exact ⟨d, h1, ds', rfl, by rw [hr, h.2], h.1.symm⟩

theorem receiverHubQueueDelays_cons_ok (qm : QueueModel Q) (cfg : Config) (self : Instance)
    (scid : Int) (t len : Nat) (ty : PacketType) (req : Int) (k : Nat) (rest : List Nat)
    (hubs h1 hubs' : Hubs Q) (d : Nat) (ds' : List Nat)
    (hg : getHubQueueDelay qm cfg self hubs HubType.RECEIVER_HUB scid (k : Int) t len
        ty req = .ok (d, h1))
    (hr : receiverHubQueueDelays qm cfg self scid t len ty req rest h1 = .ok (ds', hubs')) :
    receiverHubQueueDelays qm cfg self scid t len ty req (k :: rest) hubs
      = .ok (d :: ds', hubs') := by
  rw [receiverHubQueueDelays, hg]
  simp only
  rw [hr]

/-- The first broadcast loop over `l1 ++ l2` is the loop over `l1` followed by the loop
over `l2`. -/
theorem receiverHubQueueDelays_append (qm : QueueModel Q) (cfg : Config) (self : Instance)
    (scid : Int) (t len : Nat) (ty : PacketType) (req : Int) (l1 l2 : List Nat) :
    ∀ (hubs hubs' : Hubs Q) (ds : List Nat),
    receiverHubQueueDelays qm cfg self scid t len ty req (l1 ++ l2) hubs = .ok (ds, hubs') →
    ∃ ds1 h1 ds2, receiverHubQueueDelays qm cfg self scid t len ty req l1 hubs = .ok (ds1, h1) ∧
      receiverHubQueueDelays qm cfg self scid t len ty req l2 h1 = .ok (ds2, hubs') ∧
      ds = ds1 ++ ds2 ∧ ds1.length = l1.length := by
  induction l1 with
  | nil =>
    intro hubs hubs' ds h
    exact ⟨[], hubs, ds, rfl, h, rfl, rfl⟩
  | cons k rest ih =>
    intro hubs hubs' ds h
    rw [List.cons_append] at h
    obtain ⟨d, h1, ds', hg, hr, rfl⟩ := receiverHubQueueDelays_cons qm cfg self scid t len ty
      req k _ hubs hubs' ds h
    obtain ⟨ds1, h2, ds2, hr1, hr2, rfl, hlen⟩ := ih h1 hubs' ds' hr
    exact ⟨d :: ds1, h2, ds2,
      receiverHubQueueDelays_cons_ok qm cfg self scid t len ty req k rest hubs h1 h2 d ds1 hg hr1,
      hr2, rfl, by simp [hlen]⟩

theorem receiverHubQueueDelays_length (qm : QueueModel Q) (cfg : Config) (self : Instance)
    (scid : Int) (t len : Nat) (ty : PacketType) (req : Int) (l : List Nat) :
    ∀ (hubs hubs' : Hubs Q) (ds : List Nat),
    receiverHubQueueDelays qm cfg self scid t len ty req l hubs = .ok (ds, hubs') →
    ds.length = l.length := by
  induction l with
  | nil =>
    intro hubs hubs' ds h
    simp only [receiverHubQueueDelays, Except.ok.injEq, Prod.mk.injEq] at h
    rw [← h.1]
  | cons k rest ih =>
    intro hubs hubs' ds h
    obtain ⟨d, h1, ds', _, hr, rfl⟩ := receiverHubQueueDelays_cons qm cfg self scid t len ty
      req k _ hubs hubs' ds h
    simp [ih h1 hubs' ds' hr]

/-- Entry `k` of the delays computed by the first broadcast loop is what `getHubQueueDelay`
returns for cluster `k`, asked on the hub members left by the loop over the clusters
before `k`. -/
theorem receiverHubQueueDelays_entry (qm : QueueModel Q) (cfg : Config) (self : Instance)
    (scid : Int) (t len : Nat) (ty : PacketType) (req : Int) (n : Nat)
    (hubs hubs' : Hubs Q) (ds : List Nat)
    (h : receiverHubQueueDelays qm cfg self scid t len ty req (List.range n) hubs
      = .ok (ds, hubs')) (k : Nat) (hk : k < n) :
    ∃ hk hk' d, receiverHubQueueDelays qm cfg self scid t len ty req (List.range k) hubs
        = .ok (ds.take k, hk) ∧
      getHubQueueDelay qm cfg self hk HubType.RECEIVER_HUB scid (k : Int) t len ty req
        = .ok (d, hk') ∧
      ds[k]? = some d := by
  have hlen : k < (List.range n).length := by simpa using hk
  have hsplit : List.range n = List.range k ++ (k :: (List.range n).drop (k + 1)) := by
    have h1 := (List.take_append_drop k (List.range n)).symm
    rw [List.take_range, Nat.min_eq_left (Nat.le_of_lt hk), List.drop_eq_getElem_cons hlen,
      List.getElem_range] at h1
    exact h1
  rw [hsplit] at h
  obtain ⟨ds1, hk1, ds2, hr1, hr2, rfl, hl⟩ := receiverHubQueueDelays_append qm cfg self scid
    t len ty req _ _ hubs hubs' ds h
  obtain ⟨d, hk2, ds3, hg, _, rfl⟩ := receiverHubQueueDelays_cons qm cfg self scid t len ty
    req k _ hk1 hubs' ds2 hr2
  have hl' : ds1.length = k := by simpa using hl
  refine ⟨hk1, hk2, d, ?_, hg, ?_⟩
  · rw [List.take_left' hl']
    exact hr1
  · rw [List.getElem?_append_right (by omega), hl']
    simp


/-- On a constructed system the first broadcast loop succeeds for clusters of the system. -/
theorem receiverHubQueueDelays_ok (qm : QueueModel Q) {cfg : Config} (ha : Accepted cfg)
    (hbw : 0 < cfg.m_optical_bus_bandwidth)
    (hB : 0 < cfg.m_num_electrical_broadcast_networks_per_cluster) (self : Instance)
    (scid : Int) (t len : Nat) (ty : PacketType) (req : Int) (l : List Nat) :
    ∀ (hubs : Hubs Q), HubsWF cfg hubs → (∀ k ∈ l, k < cfg.m_num_clusters) →
    ∃ ds hubs', receiverHubQueueDelays qm cfg self scid t len ty req l hubs = .ok (ds, hubs') ∧
      HubsWF cfg hubs' := by
  induction l with
  | nil =>
    intro hubs hwf _
    exact ⟨[], hubs, rfl, hwf⟩
  | cons k rest ih =>
    intro hubs hwf hl
    have hk : k < cfg.m_num_clusters := hl k (List.mem_cons_self _ _)
    obtain ⟨d, h1, hg, hwf1⟩ := getHubQueueDelay_ok qm ha hbw hB self hwf HubType.RECEIVER_HUB
      (Int.natCast_nonneg k) (by exact_mod_cast hk) (by intro h; cases h) t len ty req
    obtain ⟨ds, h2, hr, hwf2⟩ := ih h1 hwf1 (fun j hj => hl j (List.mem_cons_of_mem _ hj))
    exact ⟨d :: ds, h2,
      receiverHubQueueDelays_cons_ok qm cfg self scid t len ty req k rest hubs h1 h2 d ds hg hr,
      hwf2⟩

/-- Result of the second broadcast loop, when it returns. -/
theorem broadcastHops_eq (cfg : Config) (t lat pt : Nat) (delays : List Nat) (l : List Nat) :
    ∀ hops, broadcastHops cfg t lat pt delays l = .ok hops →
    hops = l.map (fun (i : Nat) => broadcastHop cfg t lat pt
      ((arrayGet delays (getClusterID cfg (i : Int))).getD 0) i) := by
  induction l with
  | nil =>
    intro hops h
    simp only [broadcastHops, Except.ok.injEq] at h
    simp [← h]
  | cons i rest ih =>
    intro hops h
    unfold broadcastHops at h
    rcases hd : arrayGet delays (getClusterID cfg (i : Int)) with _ | d
    · rw [hd] at h; simp at h
    · rw [hd] at h
      simp only at h
      rcases hr : broadcastHops cfg t lat pt delays rest with e | hs
      · rw [hr] at h; simp at h
      · rw [hr] at h
        simp only [Except.ok.injEq] at h
        rw [← h, List.map_cons, hd, ← ih hs hr]
        rfl

/-- The second broadcast loop returns when every core's cluster has an entry. -/
theorem broadcastHops_ok (cfg : Config) (t lat pt : Nat) (delays : List Nat) (l : List Nat)
    (hl : ∀ i ∈ l, ∃ d, arrayGet delays (getClusterID cfg (i : Int)) = some d) :
    ∃ hops, broadcastHops cfg t lat pt delays l = .ok hops := by
  induction l with
  | nil => exact ⟨[], rfl⟩
  | cons i rest ih =>
    obtain ⟨d, hd⟩ := hl i (List.mem_cons_self _ _)
    obtain ⟨hs, hr⟩ := ih (fun j hj => hl j (List.mem_cons_of_mem _ hj))
    refine ⟨broadcastHop cfg t lat pt d i :: hs, ?_⟩
    rw [broadcastHops, hd]
    simp only
    rw [hr]

/-- The second broadcast loop reads only entries that exist, when it returns. -/
theorem broadcastHops_entries (cfg : Config) (t lat pt : Nat) (delays : List Nat)
    (l : List Nat) : ∀ hops, broadcastHops cfg t lat pt delays l = .ok hops →
    ∀ i ∈ l, ∃ d, arrayGet delays (getClusterID cfg (i : Int)) = some d := by
  induction l with
  | nil =>
    intro hops _ i hi
    simp at hi
  | cons j rest ih =>
    intro hops h i hi
    unfold broadcastHops at h
    rcases hd : arrayGet delays (getClusterID cfg (j : Int)) with _ | d
    · rw [hd] at h; simp at h
    · rw [hd] at h
      simp only at h
      rcases hr : broadcastHops cfg t lat pt delays rest with e | hs
      · rw [hr] at h; simp at h
      · rcases List.mem_cons.1 hi with rfl | hi'
        · exact ⟨d, hd⟩
        · exact ih hs hr i hi'


/-! ## Lemmas on broadcast routing -/

/-- What a broadcast routing that returns has computed. -/
theorem routePacket_broadcast_inv (qm : QueueModel Q) (env : Env) (cfg : Config)
    (self : Instance) (hubs : Hubs Q) (pkt : NetPacket) (nextHops : List Hop)
    (hb : pkt.receiver = env.BROADCAST) (out : List Hop) (hubs' : Hubs Q)
    (h : routePacket qm env cfg self hubs pkt nextHops = .ok (out, hubs')) :
    ∃ requester processing_time d_s hubs1 d_r hops,
      getRequester env cfg pkt = .ok requester ∧
      computeProcessingTime (env.getModeledLength pkt) cfg.m_optical_bus_bandwidth
        = .ok processing_time ∧
      getHubQueueDelay qm cfg self hubs HubType.SENDER_HUB (getClusterID cfg pkt.sender)
        (getClusterID cfg pkt.sender)
        (u64 (pkt.time + cfg.m_sender_cluster_electrical_network_delay))
        (env.getModeledLength pkt) pkt.type requester = .ok (d_s, hubs1) ∧
      receiverHubQueueDelays qm cfg self (getClusterID cfg pkt.sender)
        (u64 (pkt.time + cfg.m_sender_cluster_electrical_network_delay + d_s
          + cfg.m_optical_hop_latency))
        (env.getModeledLength pkt) pkt.type requester (List.range cfg.m_num_clusters) hubs1
        = .ok (d_r, hubs') ∧
      broadcastHops cfg pkt.time
        (u64 (u64 (cfg.m_sender_cluster_electrical_network_delay + d_s)
          + cfg.m_optical_hop_latency))
        processing_time d_r (List.range cfg.m_total_cores) = .ok hops ∧
      out = nextHops ++ hops := by
  unfold routePacket at h
  rcases hq : getRequester env cfg pkt with e | requester
  · rw [hq] at h; simp at h
  · rw [hq] at h
    simp only at h
    rcases hp : computeProcessingTime (env.getModeledLength pkt) cfg.m_optical_bus_bandwidth
        with e | processing_time
    · rw [hp] at h; simp at h
    · rw [hp] at h
      simp only at h
      rw [if_pos hb] at h
      rcases hs : getHubQueueDelay qm cfg self hubs HubType.SENDER_HUB
          (getClusterID cfg pkt.sender) (getClusterID cfg pkt.sender)
          (u64 (pkt.time + cfg.m_sender_cluster_electrical_network_delay))
          (env.getModeledLength pkt) pkt.type requester with e | ⟨d_s, hubs1⟩
      · rw [hs] at h; simp at h
      · rw [hs] at h
        simp only at h
        rw [u64_time_arrival] at h
        rcases hr : receiverHubQueueDelays qm cfg self (getClusterID cfg pkt.sender)
            (u64 (pkt.time + cfg.m_sender_cluster_electrical_network_delay + d_s
              + cfg.m_optical_hop_latency))
            (env.getModeledLength pkt) pkt.type requester (List.range cfg.m_num_clusters)
            hubs1 with e | ⟨d_r, hubs2⟩
        · rw [hr] at h; simp at h
        · rw [hr] at h
          simp only at h
          rcases hh : broadcastHops cfg pkt.time
              (u64 (u64 (cfg.m_sender_cluster_electrical_network_delay + d_s)
                + cfg.m_optical_hop_latency))
              processing_time d_r (List.range cfg.m_total_cores) with e | hops
          · rw [hh] at h; simp at h
          · rw [hh] at h
            simp only [Except.ok.injEq, Prod.mk.injEq] at h
            exact ⟨requester, processing_time, d_s, hubs1, d_r, hops, rfl, rfl, hs,
              by rw [hr, h.2], hh, h.1.symm⟩

/-- Broadcast routing returns on a constructed system. -/
theorem routePacket_broadcast_ok (qm : QueueModel Q) (env : Env) {cfg : Config}
    (ha : Accepted cfg) (hbw : 0 < cfg.m_optical_bus_bandwidth)
    (hB : 0 < cfg.m_num_electrical_broadcast_networks_per_cluster)
    (self : Instance) {hubs : Hubs Q} (hwf : HubsWF cfg hubs) (pkt : NetPacket)
    (nextHops : List Hop) (hb : pkt.receiver = env.BROADCAST)
    (hs : validCore cfg pkt.sender) {requester : Int}
    (hreq : getRequester env cfg pkt = .ok requester) :
    ∃ hops hubs', routePacket qm env cfg self hubs pkt nextHops
      = .ok (nextHops ++ hops, hubs') := by
  obtain ⟨hc0, hc1⟩ := getClusterID_range ha hs
  obtain ⟨processing_time, hpt⟩ := computeProcessingTime_ok (env.getModeledLength pkt) hbw
  obtain ⟨d_s, hubs1, hg, hwf1⟩ := getHubQueueDelay_ok qm ha hbw hB self hwf
    HubType.SENDER_HUB hc0 hc1 (fun _ => rfl)
    (u64 (pkt.time + cfg.m_sender_cluster_electrical_network_delay))
    (env.getModeledLength pkt) pkt.type requester
  obtain ⟨d_r, hubs2, hr, _⟩ := receiverHubQueueDelays_ok qm ha hbw hB self
    (getClusterID cfg pkt.sender)
    (u64 (pkt.time + u64 (u64 (cfg.m_sender_cluster_electrical_network_delay + d_s)
      + cfg.m_optical_hop_latency)))
    (env.getModeledLength pkt) pkt.type requester (List.range cfg.m_num_clusters) hubs1 hwf1
    (fun k hk => List.mem_range.1 hk)
  have hlen := receiverHubQueueDelays_length qm cfg self _ _ _ _ _ _ _ _ _ hr
  rw [List.length_range] at hlen
  obtain ⟨hops, hh⟩ := broadcastHops_ok cfg pkt.time
    (u64 (u64 (cfg.m_sender_cluster_electrical_network_delay + d_s)
      + cfg.m_optical_hop_latency))
    processing_time d_r (List.range cfg.m_total_cores) (by
      intro i hi
      have hi' : validCore cfg (i : Int) :=
        ⟨Int.natCast_nonneg _, by exact_mod_cast List.mem_range.1 hi⟩
      obtain ⟨h0, h1⟩ := getClusterID_range ha hi'
      exact arrayGet_of_lt d_r _ h0 (by rw [hlen]; exact h1))
  refine ⟨hops, hubs2, ?_⟩
  unfold routePacket
  rw [hreq]
  simp only
  rw [hpt]
  simp only
  rw [if_pos hb, hg]
  simp only
  rw [hr]
  simp only
  rw [hh]

/-! ## Lemmas on unicast routing -/

theorem initialHubs_wf (qm : QueueModel Q) (cfg : Config) : HubsWF cfg (initialHubs qm cfg) := by
  refine ⟨by simp [initialHubs], ?_⟩
  intro i o hio hq hi
  unfold initialHubs at hio
  rw [List.getElem?_map] at hio
  rcases hr : (List.range cfg.m_total_cores)[i]? with _ | j
  · rw [hr] at hio; simp at hio
  · rw [hr] at hio
    have hj : j = i := by
      have := List.getElem?_eq_some.1 hr
      obtain ⟨h1, h2⟩ := this
      rw [List.getElem_range] at h2
      exact h2.symm
    subst hj
    simp only [Option.map_some', Option.some.injEq] at hio
    rw [← hio, createOpticalHub, if_pos ⟨hq, hi⟩]
    exact ⟨_, rfl, by simp, by simp, by simp⟩

/-- Same-cluster unicast, as the code computes it. -/
theorem sameCluster_route_eq (qm : QueueModel Q) (env : Env) (cfg : Config)
    (self : Instance) (hubs : Hubs Q) (pkt : NetPacket) (nextHops : List Hop)
    {requester : Int} (hreq : getRequester env cfg pkt = .ok requester)
    {processing_time : Nat}
    (hpt : computeProcessingTime (env.getModeledLength pkt) cfg.m_optical_bus_bandwidth
      = .ok processing_time)
    (huni : pkt.receiver ≠ env.BROADCAST) (hr : pkt.receiver < (cfg.m_total_cores : Int))
    (hne : pkt.sender ≠ pkt.receiver)
    (hcl : getClusterID cfg pkt.sender = getClusterID cfg pkt.receiver) :
    routePacket qm env cfg self hubs pkt nextHops
      = .ok (nextHops ++
          [{ next_dest := pkt.receiver, final_dest := pkt.receiver,
             time := u64 (pkt.time + cfg.m_sender_cluster_electrical_network_delay
               + cfg.m_receiver_cluster_electrical_network_delay
               + processing_time) }], hubs) := by
  unfold routePacket
  rw [hreq]
  simp only
  rw [hpt]
  simp only
  rw [if_neg huni, if_neg (by simpa using hr), if_neg hne, if_pos hcl, u64_time_same_cluster]

/-- Same-core unicast, as the code computes it. -/
theorem sameCore_route_eq (qm : QueueModel Q) (env : Env) (cfg : Config)
    (self : Instance) (hubs : Hubs Q) (pkt : NetPacket) (nextHops : List Hop)
    {requester : Int} (hreq : getRequester env cfg pkt = .ok requester)
    {processing_time : Nat}
    (hpt : computeProcessingTime (env.getModeledLength pkt) cfg.m_optical_bus_bandwidth
      = .ok processing_time)
    (huni : pkt.receiver ≠ env.BROADCAST) (hr : pkt.receiver < (cfg.m_total_cores : Int))
    (heq : pkt.sender = pkt.receiver) :
    routePacket qm env cfg self hubs pkt nextHops
      = .ok (nextHops ++
          [{ next_dest := pkt.receiver, final_dest := pkt.receiver, time := u64 pkt.time }],
          hubs) := by
  unfold routePacket
  rw [hreq]
  simp only
  rw [hpt]
  simp only
  rw [if_neg huni, if_neg (by simpa using hr), if_pos heq, Nat.add_zero]

/-- Cross-cluster unicast, as the code computes it, on a constructed system. -/
theorem crossCluster_route_eq (qm : QueueModel Q) (env : Env) {cfg : Config}
    (ha : Accepted cfg) (hB : 0 < cfg.m_num_electrical_broadcast_networks_per_cluster)
    (self : Instance) {hubs : Hubs Q} (hwf : HubsWF cfg hubs) (pkt : NetPacket)
    (nextHops : List Hop) {requester : Int} (hreq : getRequester env cfg pkt = .ok requester)
    {processing_time : Nat}
    (hpt : computeProcessingTime (env.getModeledLength pkt) cfg.m_optical_bus_bandwidth
      = .ok processing_time)
    (huni : pkt.receiver ≠ env.BROADCAST) (hs : validCore cfg pkt.sender)
    (hr : validCore cfg pkt.receiver)
    (hcl : getClusterID cfg pkt.sender ≠ getClusterID cfg pkt.receiver) :
    ∃ d_s hubs1 d_r hubs2,
      getHubQueueDelay qm cfg self hubs HubType.SENDER_HUB (getClusterID cfg pkt.sender)
        (getClusterID cfg pkt.sender)
        (u64 (pkt.time + cfg.m_sender_cluster_electrical_network_delay))
        (env.getModeledLength pkt) pkt.type requester = .ok (d_s, hubs1) ∧
      getHubQueueDelay qm cfg self hubs1 HubType.RECEIVER_HUB (getClusterID cfg pkt.sender)
        (getClusterID cfg pkt.receiver)
        (u64 (pkt.time + cfg.m_sender_cluster_electrical_network_delay + d_s
          + cfg.m_optical_hop_latency))
        (env.getModeledLength pkt) pkt.type requester = .ok (d_r, hubs2) ∧
      routePacket qm env cfg self hubs pkt nextHops
        = .ok (nextHops ++
            [{ next_dest := pkt.receiver, final_dest := pkt.receiver,
               time := u64 (pkt.time + cfg.m_sender_cluster_electrical_network_delay + d_s
                 + cfg.m_optical_hop_latency + d_r
                 + cfg.m_receiver_cluster_electrical_network_delay
                 + processing_time) }], hubs2) := by
  obtain ⟨hs0, hs1⟩ := getClusterID_range ha hs
  obtain ⟨hr0, hr1⟩ := getClusterID_range ha hr
  have hbw := computeProcessingTime_pos hpt
  obtain ⟨d_s, hubs1, hg1, hwf1⟩ := getHubQueueDelay_ok qm ha hbw hB self hwf
    HubType.SENDER_HUB hs0 hs1 (fun _ => rfl)
    (u64 (pkt.time + cfg.m_sender_cluster_electrical_network_delay))
    (env.getModeledLength pkt) pkt.type requester
  obtain ⟨d_r, hubs2, hg2, _⟩ := getHubQueueDelay_ok qm ha hbw hB self hwf1
    HubType.RECEIVER_HUB hr0 hr1 (by intro h; cases h)
    (u64 (pkt.time + cfg.m_sender_cluster_electrical_network_delay + d_s
      + cfg.m_optical_hop_latency))
    (env.getModeledLength pkt) pkt.type requester
  refine ⟨d_s, hubs1, d_r, hubs2, hg1, hg2, ?_⟩
  have hne : pkt.sender ≠ pkt.receiver := fun h => hcl (by rw [h])
  unfold routePacket
  rw [hreq]
  simp only
  rw [hpt]
  simp only
  rw [if_neg huni, if_neg (by simpa using hr.2), if_neg hne, if_neg hcl, hg1]
  simp only
  rw [u64_time_arrival, hg2]
  simp only
  rw [u64_time_unicast]

/-! ## Hops of a broadcast -/

theorem broadcastHop_time (cfg : Config) (t sd ds opt pt d : Nat) (i : Nat) :
    broadcastHop cfg t (u64 (u64 (sd + ds) + opt)) pt d i
      = { next_dest := (i : Int), final_dest := (i : Int),
          time := u64 (t + sd + ds + opt + d
            + cfg.m_receiver_cluster_electrical_network_delay + pt) } := by
  simp only [broadcastHop, u64_time_unicast]

theorem getElem?_map_range {α : Type} (f : Nat → α) (n i : Nat) (hi : i < n) :
    ((List.range n).map f)[i]? = some (f i) := by
  rw [List.getElem?_map, List.getElem?_range hi]
  rfl

theorem count_cast_range (n i : Nat) (hi : i < n) :
    ((List.range n).map (fun (k : Nat) => (k : Int))).count (i : Int) = 1 := by
  apply List.count_eq_one_of_mem
  · exact (List.nodup_range n).map (fun a b h => by exact_mod_cast h)
  · exact List.mem_map.2 ⟨i, List.mem_range.2 hi, rfl⟩

/-- Hops of a broadcast routing that returns. -/
theorem routePacket_broadcast_hops (qm : QueueModel Q) (env : Env) (cfg : Config)
    (self : Instance) (hubs : Hubs Q) (pkt : NetPacket) (nextHops : List Hop)
    (hb : pkt.receiver = env.BROADCAST) (out : List Hop) (hubs' : Hubs Q)
    (h : routePacket qm env cfg self hubs pkt nextHops = .ok (out, hubs')) :
    ∃ requester processing_time d_s hubs1 d_r hops,
      getRequester env cfg pkt = .ok requester ∧
      computeProcessingTime (env.getModeledLength pkt) cfg.m_optical_bus_bandwidth
        = .ok processing_time ∧
      getHubQueueDelay qm cfg self hubs HubType.SENDER_HUB (getClusterID cfg pkt.sender)
        (getClusterID cfg pkt.sender)
        (u64 (pkt.time + cfg.m_sender_cluster_electrical_network_delay))
        (env.getModeledLength pkt) pkt.type requester = .ok (d_s, hubs1) ∧
      receiverHubQueueDelays qm cfg self (getClusterID cfg pkt.sender)
        (u64 (pkt.time + cfg.m_sender_cluster_electrical_network_delay + d_s
          + cfg.m_optical_hop_latency))
        (env.getModeledLength pkt) pkt.type requester (List.range cfg.m_num_clusters) hubs1
        = .ok (d_r, hubs') ∧
      out = nextHops ++ hops ∧
      hops.length = cfg.m_total_cores ∧
      ∀ i, i < cfg.m_total_cores →
        ∃ d, arrayGet d_r (getClusterID cfg (i : Int)) = some d ∧
          hops[i]? = some
            { next_dest := (i : Int), final_dest := (i : Int),
              time := u64 (pkt.time + cfg.m_sender_cluster_electrical_network_delay + d_s
                + cfg.m_optical_hop_latency + d
                + cfg.m_receiver_cluster_electrical_network_delay
                + processing_time) } := by
  obtain ⟨requester, processing_time, d_s, hubs1, d_r, hops, h1, hp, h2, h3, h4, h5⟩ :=
    routePacket_broadcast_inv qm env cfg self hubs pkt nextHops hb out hubs' h
  have heq := broadcastHops_eq cfg _ _ _ _ _ hops h4
  refine ⟨requester, processing_time, d_s, hubs1, d_r, hops, h1, hp, h2, h3, h5, ?_, ?_⟩
  · rw [heq, List.length_map, List.length_range]
  · intro i hi
    obtain ⟨d, hd⟩ := broadcastHops_entries cfg _ _ _ _ _ hops h4 i (List.mem_range.2 hi)
    refine ⟨d, hd, ?_⟩
    rw [heq, getElem?_map_range _ _ _ hi, hd]
    simp only [Option.getD_some, broadcastHop_time]

/-! # Properties of the specification -/

/-! ## C1: unicast inside a cluster -/

/-- C1, as stated, fails on two inputs. In the 20-core system the shared-memory packet from
core 5 to core 1 has a valid sender and a valid receiver in the same cluster, but its
payload names requester `-1`, so `getRequester` terminates the run and `routePacket` emits
no Hop. And on the topology that the constructor accepts with an optical bus bandwidth of
zero, the plain packet from core 5 to core 1 dies on the division by the bandwidth in
`computeProcessingTime`, again without a Hop. -/
theorem c1_fatal_before_hop_counterexample :
    (construct params20 = .ok config20 ∧
      pktShmem5to1.receiver ≠ env20.BROADCAST ∧
      validCore config20 pktShmem5to1.sender ∧ validCore config20 pktShmem5to1.receiver ∧
      pktShmem5to1.sender ≠ pktShmem5to1.receiver ∧
      getClusterID config20 pktShmem5to1.sender
        = getClusterID config20 pktShmem5to1.receiver ∧
      routePacket fifoQueue env20 config20 self5 hubs20 pktShmem5to1 []
        = .error Fatal.requesterOutOfRange) ∧
    (construct params20NoBandwidth = .ok config20NoBandwidth ∧
      pkt5to1.receiver ≠ env20.BROADCAST ∧
      validCore config20NoBandwidth pkt5to1.sender ∧
      validCore config20NoBandwidth pkt5to1.receiver ∧
      pkt5to1.sender ≠ pkt5to1.receiver ∧
      getClusterID config20NoBandwidth pkt5to1.sender
        = getClusterID config20NoBandwidth pkt5to1.receiver ∧
      routePacket fifoQueue env20 config20NoBandwidth self5 hubs20NoBandwidth pkt5to1 []
        = .error Fatal.divisionByZero) :=
  ⟨⟨construct_params20, by decide, by decide, by decide, by decide, by decide, rfl⟩,
    ⟨construct_params20NoBandwidth, by decide, by decide, by decide, by decide, by decide,
      rfl⟩⟩

/-- C1, amended: on a constructed topology with an optical bus bandwidth above zero, a
unicast packet whose requester passes the range check of `getRequester` and whose sender and
receiver are different valid cores of one cluster gets exactly one Hop, to the receiver, at
`pkt.time + sender delay + receiver delay + processing_time` in `UInt64` arithmetic,
which is `pkt.time + 2 * electrical delay + processing_time`, where `processing_time` is
what `computeProcessingTime` returns; this holds for every calling instance (enabled or
not), every queueing flag and every hub state, and the hub members of all cores are
returned unchanged. -/
theorem routePacket_same_cluster (qm : QueueModel Q) (env : Env) {p : Params} {cfg : Config}
    (hc : construct p = .ok cfg) (hbw : 0 < cfg.m_optical_bus_bandwidth)
    (self : Instance) (hubs : Hubs Q) (pkt : NetPacket)
    (nextHops : List Hop) (requester : Int)
    (hreq : getRequester env cfg pkt = .ok requester)
    (huni : pkt.receiver ≠ env.BROADCAST)
    (_hs : validCore cfg pkt.sender) (hr : validCore cfg pkt.receiver)
    (hne : pkt.sender ≠ pkt.receiver)
    (hcl : getClusterID cfg pkt.sender = getClusterID cfg pkt.receiver) :
    ∃ processing_time,
      computeProcessingTime (env.getModeledLength pkt) cfg.m_optical_bus_bandwidth
        = .ok processing_time ∧
      routePacket qm env cfg self hubs pkt nextHops
        = .ok (nextHops ++
            [{ next_dest := pkt.receiver, final_dest := pkt.receiver,
               time := u64 (pkt.time + cfg.m_sender_cluster_electrical_network_delay
                 + cfg.m_receiver_cluster_electrical_network_delay
                 + processing_time) }], hubs) ∧
      u64 (pkt.time + cfg.m_sender_cluster_electrical_network_delay
          + cfg.m_receiver_cluster_electrical_network_delay + processing_time)
        = u64 (pkt.time + 2 * cfg.m_sender_cluster_electrical_network_delay
          + processing_time) := by
  obtain ⟨processing_time, hpt⟩ := computeProcessingTime_ok (env.getModeledLength pkt) hbw
  refine ⟨processing_time, hpt,
    sameCluster_route_eq qm env cfg self hubs pkt nextHops hreq hpt huni hr.2 hne hcl, ?_⟩
  rw [(construct_accepted hc).delays]
  congr 1
  omega

/-- The example of C1: 20 cores in clusters of 4, packet 5 -> 1 at time 100, electrical
delay 3 and processing time 2: a single Hop to core 1 at time 108, hub members unchanged. -/
theorem routePacket_same_cluster_witness :
    computeProcessingTime (env20.getModeledLength pkt5to1) config20.m_optical_bus_bandwidth
      = .ok 2 ∧
    routePacket fifoQueue env20 config20 self5 hubs20 pkt5to1 []
      = .ok ([{ next_dest := 1, final_dest := 1, time := 108 }], hubs20) := by
  obtain ⟨processing_time, hpt, h, _⟩ := routePacket_same_cluster fifoQueue env20
    construct_params20 (by decide) self5 hubs20 pkt5to1 [] 5 rfl (by decide) (by decide)
    (by decide) (by decide) (by decide)
  have h2 : processing_time = 2 :=
    Except.ok.inj (hpt.symm.trans (rfl : computeProcessingTime
      (env20.getModeledLength pkt5to1) config20.m_optical_bus_bandwidth = .ok 2))
  subst h2
  exact ⟨hpt, h⟩

/-! ## C2: unicast across clusters -/

/-- C2, as stated, fails on three inputs. The shared-memory packet from core 5 to core 19
has a valid sender and a valid receiver in different clusters, but its payload names
requester `-1`, so `routePacket` terminates the run without a Hop. On the topology accepted
with an optical bus bandwidth of zero, the plain packet from core 5 to core 19 dies on the
division by the bandwidth, without a Hop. And on the topology accepted with no electrical
broadcast network per cluster it dies in the receiver hub, on the remainder
`sender_cluster_id % 0`. -/
theorem c2_fatal_before_hop_counterexample :
    (construct params20 = .ok config20 ∧
      pktShmem5to19.receiver ≠ env20.BROADCAST ∧
      validCore config20 pktShmem5to19.sender ∧ validCore config20 pktShmem5to19.receiver ∧
      getClusterID config20 pktShmem5to19.sender
        ≠ getClusterID config20 pktShmem5to19.receiver ∧
      routePacket fifoQueue env20 config20 self5 hubs20 pktShmem5to19 []
        = .error Fatal.requesterOutOfRange) ∧
    (construct params20NoBandwidth = .ok config20NoBandwidth ∧
      pkt5to19.receiver ≠ env20.BROADCAST ∧
      validCore config20NoBandwidth pkt5to19.sender ∧
      validCore config20NoBandwidth pkt5to19.receiver ∧
      getClusterID config20NoBandwidth pkt5to19.sender
        ≠ getClusterID config20NoBandwidth pkt5to19.receiver ∧
      routePacket fifoQueue env20 config20NoBandwidth self5 hubs20NoBandwidth pkt5to19 []
        = .error Fatal.divisionByZero) ∧
    (construct params20NoNetworks = .ok config20NoNetworks ∧
      pkt5to19.receiver ≠ env20.BROADCAST ∧
      validCore config20NoNetworks pkt5to19.sender ∧
      validCore config20NoNetworks pkt5to19.receiver ∧
      getClusterID config20NoNetworks pkt5to19.sender
        ≠ getClusterID config20NoNetworks pkt5to19.receiver ∧
      routePacket fifoQueue env20 config20NoNetworks self5 hubs20NoNetworks pkt5to19 []
        = .error Fatal.divisionByZero) :=
  ⟨⟨construct_params20, by decide, by decide, by decide, by decide, rfl⟩,
    ⟨construct_params20NoBandwidth, by decide, by decide, by decide, by decide, rfl⟩,
    ⟨construct_params20NoNetworks, by decide, by decide, by decide, by decide, rfl⟩⟩

/-- C2, amended: on a constructed topology with an optical bus bandwidth above zero, at
least one electrical broadcast network per cluster and the hub members of a constructed
system, a unicast packet whose requester passes the range check of `getRequester` and whose
sender and receiver are valid cores of different clusters gets exactly one Hop, to the
receiver, at `pkt.time + sender delay + d_s + optical_hop_latency + d_r + receiver delay +
processing_time` in `UInt64` arithmetic, where `d_s` is what `getHubQueueDelay` returns for
the sender hub of the sender's cluster at `pkt.time + sender delay`, and `d_r` what it
then returns for the receiver hub of the receiver's cluster at
`pkt.time + sender delay + d_s + optical_hop_latency`; that time is the one with
`d_s = d_r = 0` plus the two hub delays. -/
theorem routePacket_cross_cluster (qm : QueueModel Q) (env : Env) {p : Params} {cfg : Config}
    (hc : construct p = .ok cfg) (hbw : 0 < cfg.m_optical_bus_bandwidth)
    (hB : 0 < cfg.m_num_electrical_broadcast_networks_per_cluster)
    (self : Instance) (hubs : Hubs Q) (hwf : HubsWF cfg hubs) (pkt : NetPacket)
    (nextHops : List Hop) (requester : Int)
    (hreq : getRequester env cfg pkt = .ok requester)
    (huni : pkt.receiver ≠ env.BROADCAST) (hs : validCore cfg pkt.sender)
    (hr : validCore cfg pkt.receiver)
    (hcl : getClusterID cfg pkt.sender ≠ getClusterID cfg pkt.receiver) :
    ∃ processing_time d_s hubs1 d_r hubs2,
      computeProcessingTime (env.getModeledLength pkt) cfg.m_optical_bus_bandwidth
        = .ok processing_time ∧
      getHubQueueDelay qm cfg self hubs HubType.SENDER_HUB (getClusterID cfg pkt.sender)
        (getClusterID cfg pkt.sender)
        (u64 (pkt.time + cfg.m_sender_cluster_electrical_network_delay))
        (env.getModeledLength pkt) pkt.type requester = .ok (d_s, hubs1) ∧
      getHubQueueDelay qm cfg self hubs1 HubType.RECEIVER_HUB (getClusterID cfg pkt.sender)
        (getClusterID cfg pkt.receiver)
        (u64 (pkt.time + cfg.m_sender_cluster_electrical_network_delay + d_s
          + cfg.m_optical_hop_latency))
        (env.getModeledLength pkt) pkt.type requester = .ok (d_r, hubs2) ∧
      routePacket qm env cfg self hubs pkt nextHops
        = .ok (nextHops ++
            [{ next_dest := pkt.receiver, final_dest := pkt.receiver,
               time := u64 (pkt.time + cfg.m_sender_cluster_electrical_network_delay + d_s
                 + cfg.m_optical_hop_latency + d_r
                 + cfg.m_receiver_cluster_electrical_network_delay
                 + processing_time) }], hubs2) ∧
      u64 (pkt.time + cfg.m_sender_cluster_electrical_network_delay + d_s
          + cfg.m_optical_hop_latency + d_r
          + cfg.m_receiver_cluster_electrical_network_delay + processing_time)
        = u64 (u64 (pkt.time + cfg.m_sender_cluster_electrical_network_delay + 0
          + cfg.m_optical_hop_latency + 0
          + cfg.m_receiver_cluster_electrical_network_delay + processing_time)
          + d_s + d_r) := by
  obtain ⟨processing_time, hpt⟩ := computeProcessingTime_ok (env.getModeledLength pkt) hbw
  obtain ⟨d_s, hubs1, d_r, hubs2, h1, h2, h3⟩ := crossCluster_route_eq qm env
    (construct_accepted hc) hB self hwf pkt nextHops hreq hpt huni hs hr hcl
  exact ⟨processing_time, d_s, hubs1, d_r, hubs2, hpt, h1, h2, h3,
    u64_no_contention _ _ _ _ _ _ _⟩

/-- In the 20-core example the packet from core 5 to core 19 at time 100 gets a single Hop
to core 19, timed with the two hub delays. -/
theorem routePacket_cross_cluster_witness :
    ∃ processing_time d_s hubs1 d_r hubs2,
      computeProcessingTime 4 16 = .ok processing_time ∧
      getHubQueueDelay fifoQueue config20 self5 hubs20 HubType.SENDER_HUB
        (getClusterID config20 5) (getClusterID config20 5) (u64 (100 + 3)) 4
        PacketType.OTHER 5 = .ok (d_s, hubs1) ∧
      getHubQueueDelay fifoQueue config20 self5 hubs1 HubType.RECEIVER_HUB
        (getClusterID config20 5) (getClusterID config20 19) (u64 (100 + 3 + d_s + 5)) 4
        PacketType.OTHER 5 = .ok (d_r, hubs2) ∧
      routePacket fifoQueue env20 config20 self5 hubs20 pkt5to19 []
        = .ok ([] ++
            [{ next_dest := 19, final_dest := 19,
               time := u64 (100 + 3 + d_s + 5 + d_r + 3 + processing_time) }],
            hubs2) ∧
      u64 (100 + 3 + d_s + 5 + d_r + 3 + processing_time)
        = u64 (u64 (100 + 3 + 0 + 5 + 0 + 3 + processing_time) + d_s + d_r) :=
  routePacket_cross_cluster fifoQueue env20 construct_params20 (by decide) (by decide) self5
    hubs20 (initialHubs_wf fifoQueue config20) pkt5to19 [] 5 rfl (by decide) (by decide)
    (by decide) (by decide)

/-! ## C3: timing of the Hops of a broadcast -/

/-- C3: on a constructed topology, for a broadcast packet with a valid sender, whenever
`routePacket` returns, the Hop it has appended for core `i`, for every `i` in
`[0, total_cores)`, is timed `pkt.time + sender delay + d_s + optical_hop_latency +
d_r[getClusterID i] + receiver delay + processing_time` in `UInt64` arithmetic, where
`processing_time` is what `computeProcessingTime` returned, `d_s` is what `getHubQueueDelay`
returns for the sender hub of the sender's cluster at `pkt.time + sender delay`, and
`d_r[k]` is what `getHubQueueDelay` returns for the receiver hub of cluster `k` at
`pkt.time + sender delay + d_s + optical_hop_latency`, asked once, after the clusters before
`k`; so the Hops of two cores of one cluster have the same time. And `routePacket` does
return, on the hub members of a constructed system with an optical bus bandwidth above zero
and at least one electrical broadcast network per cluster, when the requester passes the
range check. -/
theorem routePacket_broadcast_times (qm : QueueModel Q) (env : Env) {p : Params}
    {cfg : Config} (hc : construct p = .ok cfg) (self : Instance) (hubs : Hubs Q)
    (pkt : NetPacket) (nextHops : List Hop) (hb : pkt.receiver = env.BROADCAST)
    (hs : validCore cfg pkt.sender) :
    (∀ out hubs', routePacket qm env cfg self hubs pkt nextHops = .ok (out, hubs') →
      ∃ requester processing_time d_s hubs1 d_r hops,
        getRequester env cfg pkt = .ok requester ∧
        computeProcessingTime (env.getModeledLength pkt) cfg.m_optical_bus_bandwidth
          = .ok processing_time ∧
        getHubQueueDelay qm cfg self hubs HubType.SENDER_HUB (getClusterID cfg pkt.sender)
          (getClusterID cfg pkt.sender)
          (u64 (pkt.time + cfg.m_sender_cluster_electrical_network_delay))
          (env.getModeledLength pkt) pkt.type requester = .ok (d_s, hubs1) ∧
        (∀ k, k < cfg.m_num_clusters → ∃ hk hk' d,
          receiverHubQueueDelays qm cfg self (getClusterID cfg pkt.sender)
            (u64 (pkt.time + cfg.m_sender_cluster_electrical_network_delay + d_s
              + cfg.m_optical_hop_latency))
            (env.getModeledLength pkt) pkt.type requester (List.range k) hubs1
            = .ok (d_r.take k, hk) ∧
          getHubQueueDelay qm cfg self hk HubType.RECEIVER_HUB (getClusterID cfg pkt.sender)
            (k : Int)
            (u64 (pkt.time + cfg.m_sender_cluster_electrical_network_delay + d_s
              + cfg.m_optical_hop_latency))
            (env.getModeledLength pkt) pkt.type requester = .ok (d, hk') ∧
          d_r[k]? = some d) ∧
        d_r.length = cfg.m_num_clusters ∧
        out = nextHops ++ hops ∧
        hops.length = cfg.m_total_cores ∧
        (∀ i, i < cfg.m_total_cores →
          ∃ d, arrayGet d_r (getClusterID cfg (i : Int)) = some d ∧
            hops[i]? = some
              { next_dest := (i : Int), final_dest := (i : Int),
                time := u64 (pkt.time + cfg.m_sender_cluster_electrical_network_delay + d_s
                  + cfg.m_optical_hop_latency + d
                  + cfg.m_receiver_cluster_electrical_network_delay
                  + processing_time) }) ∧
        (∀ i j, i < cfg.m_total_cores → j < cfg.m_total_cores →
          getClusterID cfg (i : Int) = getClusterID cfg (j : Int) →
          (hops[i]?).map Hop.time = (hops[j]?).map Hop.time)) ∧
    (∀ requester, getRequester env cfg pkt = .ok requester →
      0 < cfg.m_optical_bus_bandwidth →
      0 < cfg.m_num_electrical_broadcast_networks_per_cluster → HubsWF cfg hubs →
      ∃ out hubs', routePacket qm env cfg self hubs pkt nextHops = .ok (out, hubs')) := by
  constructor
  · intro out hubs' h
    obtain ⟨requester, processing_time, d_s, hubs1, d_r, hops, h1, hp, h2, h3, h4, h5, h6⟩ :=
      routePacket_broadcast_hops qm env cfg self hubs pkt nextHops hb out hubs' h
    refine ⟨requester, processing_time, d_s, hubs1, d_r, hops, h1, hp, h2, ?_, ?_, h4, h5,
      h6, ?_⟩
    · intro k hk
      exact receiverHubQueueDelays_entry qm cfg self _ _ _ _ _ _ hubs1 hubs' d_r h3 k hk
    · have := receiverHubQueueDelays_length qm cfg self _ _ _ _ _ _ hubs1 hubs' d_r h3
      rwa [List.length_range] at this
    · intro i j hi hj hij
      obtain ⟨di, hdi, hhi⟩ := h6 i hi
      obtain ⟨dj, hdj, hhj⟩ := h6 j hj
      rw [hij, hdj] at hdi
      have hd : dj = di := Option.some.inj hdi
      rw [hhi, hhj, hd]
      rfl
  · intro requester hreq hbw hB hwf
    obtain ⟨hops, hubs', h⟩ := routePacket_broadcast_ok qm env (construct_accepted hc) hbw hB
      self hwf pkt nextHops hb hs hreq
    exact ⟨_, hubs', h⟩

/-- In the 20-core example the broadcast from core 5 at time 100 returns, and all it
returns is timed by the hub delays. -/
theorem routePacket_broadcast_times_witness :
    (∀ out hubs', routePacket fifoQueue env20 config20 self5 hubs20 pktBroadcast5 []
        = .ok (out, hubs') →
      ∃ requester processing_time d_s hubs1 d_r hops,
        getRequester env20 config20 pktBroadcast5 = .ok requester ∧
        computeProcessingTime 4 16 = .ok processing_time ∧
        getHubQueueDelay fifoQueue config20 self5 hubs20 HubType.SENDER_HUB
          (getClusterID config20 5) (getClusterID config20 5) (u64 (100 + 3)) 4
          PacketType.OTHER requester = .ok (d_s, hubs1) ∧
        (∀ k : Nat, k < 6 → ∃ hk hk' d,
          receiverHubQueueDelays fifoQueue config20 self5 (getClusterID config20 5)
            (u64 (100 + 3 + d_s + 5)) 4 PacketType.OTHER requester (List.range k) hubs1
            = .ok (d_r.take k, hk) ∧
          getHubQueueDelay fifoQueue config20 self5 hk HubType.RECEIVER_HUB
            (getClusterID config20 5) (k : Int) (u64 (100 + 3 + d_s + 5)) 4
            PacketType.OTHER requester = .ok (d, hk') ∧
          d_r[k]? = some d) ∧
        d_r.length = 6 ∧
        out = [] ++ hops ∧
        hops.length = 20 ∧
        (∀ i : Nat, i < 20 →
          ∃ d, arrayGet d_r (getClusterID config20 (i : Int)) = some d ∧
            hops[i]? = some
              { next_dest := (i : Int), final_dest := (i : Int),
                time := u64 (100 + 3 + d_s + 5 + d + 3 + processing_time) }) ∧
        (∀ i j : Nat, i < 20 → j < 20 →
          getClusterID config20 (i : Int) = getClusterID config20 (j : Int) →
          (hops[i]?).map Hop.time = (hops[j]?).map Hop.time)) ∧
    (∀ requester, getRequester env20 config20 pktBroadcast5 = .ok requester →
      0 < 16 → 0 < 2 → HubsWF config20 hubs20 →
      ∃ out hubs', routePacket fifoQueue env20 config20 self5 hubs20 pktBroadcast5 []
        = .ok (out, hubs')) :=
  routePacket_broadcast_times fifoQueue env20 construct_params20 self5 hubs20 pktBroadcast5 []
    rfl (by decide)

/-! ## C4: one Hop per core for a broadcast -/

/-- C4, as stated, fails on three inputs. The broadcast packet whose sender field is 20 is
not from a core of the 20-core system, its requester is that sender, and `routePacket`
terminates the run on the range check of `getRequester` without appending a Hop. On the
topology accepted with an optical bus bandwidth of zero, the broadcast from core 5 dies on
the division by the bandwidth, without a Hop. And on the topology accepted with no
electrical broadcast network per cluster it dies in the first receiver hub, on the
remainder `sender_cluster_id % 0`. -/
theorem c4_fatal_before_hop_counterexample :
    (construct params20 = .ok config20 ∧
      pktBroadcast20.receiver = env20.BROADCAST ∧
      routePacket fifoQueue env20 config20 self5 hubs20 pktBroadcast20 []
        = .error Fatal.requesterOutOfRange) ∧
    (construct params20NoBandwidth = .ok config20NoBandwidth ∧
      pktBroadcast5.receiver = env20.BROADCAST ∧
      validCore config20NoBandwidth pktBroadcast5.sender ∧
      routePacket fifoQueue env20 config20NoBandwidth self5 hubs20NoBandwidth
        pktBroadcast5 [] = .error Fatal.divisionByZero) ∧
    (construct params20NoNetworks = .ok config20NoNetworks ∧
      pktBroadcast5.receiver = env20.BROADCAST ∧
      validCore config20NoNetworks pktBroadcast5.sender ∧
      routePacket fifoQueue env20 config20NoNetworks self5 hubs20NoNetworks
        pktBroadcast5 [] = .error Fatal.divisionByZero) :=
  ⟨⟨construct_params20, rfl, rfl⟩, ⟨construct_params20NoBandwidth, rfl, by decide, rfl⟩,
    ⟨construct_params20NoNetworks, rfl, by decide, rfl⟩⟩

/-- C4, amended: on a constructed topology with an optical bus bandwidth above zero, at
least one electrical broadcast network per cluster and the hub members of a constructed
system, for a broadcast packet with a valid sender whose requester passes the range check of
`getRequester`, `routePacket` appends exactly `total_cores` Hops, the `i`-th with
`next_dest == final_dest == i`, so that every core is the destination of exactly one of
them. -/
theorem routePacket_broadcast_one_hop_per_core (qm : QueueModel Q) (env : Env) {p : Params}
    {cfg : Config} (hc : construct p = .ok cfg) (hbw : 0 < cfg.m_optical_bus_bandwidth)
    (hB : 0 < cfg.m_num_electrical_broadcast_networks_per_cluster)
    (self : Instance) (hubs : Hubs Q) (hwf : HubsWF cfg hubs) (pkt : NetPacket)
    (nextHops : List Hop) (requester : Int)
    (hreq : getRequester env cfg pkt = .ok requester)
    (hb : pkt.receiver = env.BROADCAST) (hs : validCore cfg pkt.sender) :
    ∃ hops hubs', routePacket qm env cfg self hubs pkt nextHops
        = .ok (nextHops ++ hops, hubs') ∧
      hops.length = cfg.m_total_cores ∧
      (∀ i, i < cfg.m_total_cores →
        ∃ h, hops[i]? = some h ∧ h.next_dest = (i : Int) ∧ h.final_dest = (i : Int)) ∧
      (∀ i, i < cfg.m_total_cores → (hops.map Hop.final_dest).count (i : Int) = 1) := by
  obtain ⟨hops, hubs', h⟩ := routePacket_broadcast_ok qm env (construct_accepted hc) hbw hB
    self hwf pkt nextHops hb hs hreq
  obtain ⟨_, _, d_s, _, d_r, hops', _, _, _, _, h4, h5, h6⟩ :=
    routePacket_broadcast_hops qm env cfg self hubs pkt nextHops hb _ hubs' h
  have hh : hops' = hops := (List.append_cancel_left h4).symm
  subst hh
  refine ⟨hops', hubs', h, h5, ?_, ?_⟩
  · intro i hi
    obtain ⟨d, _, hd⟩ := h6 i hi
    exact ⟨_, hd, rfl, rfl⟩
  · intro i hi
    have hmap : hops'.map Hop.final_dest
        = (List.range cfg.m_total_cores).map (fun (k : Nat) => (k : Int)) := by
      apply List.ext_getElem?
      intro k
      by_cases hk : k < cfg.m_total_cores
      · obtain ⟨d, _, hd⟩ := h6 k hk
        rw [List.getElem?_map, hd, getElem?_map_range _ _ _ hk]
        rfl
      · rw [List.getElem?_eq_none (by rw [List.length_map, h5]; omega),
          List.getElem?_eq_none (by rw [List.length_map, List.length_range]; omega)]
    rw [hmap]
    exact count_cast_range _ _ hi

/-- In the 20-core example the broadcast from core 5 appends 20 Hops, one per core. -/
theorem routePacket_broadcast_one_hop_per_core_witness :
    ∃ hops hubs', routePacket fifoQueue env20 config20 self5 hubs20 pktBroadcast5 []
        = .ok ([] ++ hops, hubs') ∧
      hops.length = 20 ∧
      (∀ i : Nat, i < 20 →
        ∃ h, hops[i]? = some h ∧ h.next_dest = (i : Int) ∧ h.final_dest = (i : Int)) ∧
      (∀ i : Nat, i < 20 → (hops.map Hop.final_dest).count (i : Int) = 1) :=
  routePacket_broadcast_one_hop_per_core fifoQueue env20 construct_params20 (by decide)
    (by decide) self5 hubs20 (initialHubs_wf fifoQueue config20) pktBroadcast5 [] 5 rfl rfl
    (by decide)

/-! ## C5: unicast to the sending core -/

/-- C5, as stated, fails on two inputs. The shared-memory packet from core 3 to itself has
`sender == receiver`, a valid core, but its payload names requester `-1`, so `routePacket`
terminates the run without a Hop. And with an optical bus bandwidth of zero the plain packet
from core 3 to itself dies on the division by the bandwidth, which `routePacket` performs
before it compares sender and receiver. -/
theorem c5_fatal_before_hop_counterexample :
    (pktShmem3to3.receiver ≠ env20.BROADCAST ∧
      pktShmem3to3.sender = pktShmem3to3.receiver ∧
      validCore config20 pktShmem3to3.receiver ∧
      routePacket fifoQueue env20 config20 self5 hubs20 pktShmem3to3 []
        = .error Fatal.requesterOutOfRange) ∧
    (construct params20NoBandwidth = .ok config20NoBandwidth ∧
      pkt3to3.receiver ≠ env20.BROADCAST ∧
      pkt3to3.sender = pkt3to3.receiver ∧
      validCore config20NoBandwidth pkt3to3.receiver ∧
      routePacket fifoQueue env20 config20NoBandwidth self5 hubs20NoBandwidth pkt3to3 []
        = .error Fatal.divisionByZero) :=
  ⟨⟨by decide, by decide, by decide, rfl⟩,
    ⟨construct_params20NoBandwidth, by decide, by decide, by decide, rfl⟩⟩

/-- C5, amended: with an optical bus bandwidth above zero, a unicast packet with
`sender == receiver`, a valid core, whose requester passes the range check of
`getRequester`, gets exactly one Hop, to the receiver, at `pkt.time` (a `UInt64`): latency
0, for every packet length, calling instance, queueing flag and hub state; the hub members
of all cores are returned unchanged, so no hub computation took place. -/
theorem routePacket_same_core (qm : QueueModel Q) (env : Env) (cfg : Config)
    (hbw : 0 < cfg.m_optical_bus_bandwidth)
    (self : Instance) (hubs : Hubs Q) (pkt : NetPacket) (nextHops : List Hop)
    (requester : Int) (hreq : getRequester env cfg pkt = .ok requester)
    (huni : pkt.receiver ≠ env.BROADCAST) (heq : pkt.sender = pkt.receiver)
    (hr : validCore cfg pkt.receiver) (ht : pkt.time < U64) :
    routePacket qm env cfg self hubs pkt nextHops
      = .ok (nextHops ++
          [{ next_dest := pkt.receiver, final_dest := pkt.receiver, time := pkt.time }],
          hubs) := by
  obtain ⟨processing_time, hpt⟩ := computeProcessingTime_ok (env.getModeledLength pkt) hbw
  have h := sameCore_route_eq qm env cfg self hubs pkt nextHops hreq hpt huni hr.2 heq
  rwa [u64, Nat.mod_eq_of_lt ht] at h

/-- In the 20-core example the packet from core 3 to itself at time 100 gets a single Hop
to core 3 at time 100. -/
theorem routePacket_same_core_witness :
    routePacket fifoQueue env20 config20 self5 hubs20 pkt3to3 []
      = .ok ([{ next_dest := 3, final_dest := 3, time := 100 }], hubs20) :=
  routePacket_same_core fifoQueue env20 config20 (by decide) self5 hubs20 pkt3to3 []
    3 rfl (by decide) (by decide) (by decide) (by decide)

/-! ## C6 to C9: the topology -/

/-- C6: on a topology that the constructor accepted, `getClusterID` is a left inverse of
`getCoreIDWithOpticalHub` on every cluster id in `[0, num_clusters)`, the incomplete clusters
of the last mesh row included. -/
theorem getClusterID_getCoreIDWithOpticalHub {p : Params} {cfg : Config}
    (hc : construct p = .ok cfg) (c : Int) (h0 : 0 ≤ c) (_h1 : c < (cfg.m_num_clusters : Int)) :
    getClusterID cfg (getCoreIDWithOpticalHub cfg c) = c :=
  getClusterID_hub (construct_accepted hc) h0

/-- In the 20-core example cluster 5, an incomplete cluster of the last row, is the cluster
of its hub core. -/
theorem getClusterID_getCoreIDWithOpticalHub_witness :
    getClusterID config20 (getCoreIDWithOpticalHub config20 5) = 5 :=
  getClusterID_getCoreIDWithOpticalHub construct_params20 5 (by decide) (by decide)

/-- C7: on a topology that the constructor accepted, for every core `i` the hub core of the
cluster of `i` is a core of the system, lies in that cluster, and is at most `i`: it is the
smallest core id that `getClusterID` maps to that cluster, whether the cluster is complete
or not. -/
theorem hub_is_smallest_core_of_cluster {p : Params} {cfg : Config}
    (hc : construct p = .ok cfg) (i : Int) (hi : validCore cfg i) :
    getCoreIDWithOpticalHub cfg (getClusterID cfg i) ≤ i ∧
    validCore cfg (getCoreIDWithOpticalHub cfg (getClusterID cfg i)) ∧
    getClusterID cfg (getCoreIDWithOpticalHub cfg (getClusterID cfg i)) = getClusterID cfg i ∧
    ∀ j, validCore cfg j → getClusterID cfg j = getClusterID cfg i →
      getCoreIDWithOpticalHub cfg (getClusterID cfg i) ≤ j := by
  have ha := construct_accepted hc
  obtain ⟨h0, h1⟩ := getClusterID_range ha hi
  refine ⟨hub_getClusterID_le ha hi.1, validCore_hub ha h0 h1, getClusterID_hub ha h0, ?_⟩
  intro j hj hji
  rw [← hji]
  exact hub_getClusterID_le ha hj.1

/-- In the 20-core example the hub core of the cluster of core 19 is at most 19. -/
theorem hub_is_smallest_core_of_cluster_witness :
    getCoreIDWithOpticalHub config20 (getClusterID config20 19) ≤ 19 ∧
    validCore config20 (getCoreIDWithOpticalHub config20 (getClusterID config20 19)) ∧
    getClusterID config20 (getCoreIDWithOpticalHub config20 (getClusterID config20 19))
      = getClusterID config20 19 ∧
    ∀ j, validCore config20 j → getClusterID config20 j = getClusterID config20 19 →
      getCoreIDWithOpticalHub config20 (getClusterID config20 19) ≤ j :=
  hub_is_smallest_core_of_cluster construct_params20 19 (by decide)

/-- C8: on a topology that the constructor accepted, the cluster of every core lies in
`[0, num_clusters)`, where `num_clusters` is `(mesh_width / S) * ceil(mesh_height / S)`; so
the array of `num_clusters` receiver-hub delays has an entry at that index. -/
theorem getClusterID_lt_num_clusters {p : Params} {cfg : Config}
    (hc : construct p = .ok cfg) (i : Int) (hi : validCore cfg i) :
    0 ≤ getClusterID cfg i ∧ getClusterID cfg i < (cfg.m_num_clusters : Int) ∧
    cfg.m_num_clusters = (cfg.m_mesh_width / cfg.m_sqrt_cluster_size)
      * ⌈((cfg.m_mesh_height : ℕ) : ℚ) / (cfg.m_sqrt_cluster_size : ℚ)⌉₊ ∧
    ∀ receiver_hub_queue_delay : List Nat,
      receiver_hub_queue_delay.length = cfg.m_num_clusters →
      ∃ d, arrayGet receiver_hub_queue_delay (getClusterID cfg i) = some d := by
  have ha := construct_accepted hc
  obtain ⟨h0, h1⟩ := getClusterID_range ha hi
  refine ⟨h0, h1, ?_, ?_⟩
  · rw [ha.clusters, ceil_div_eq _ _ ha.sqrt_pos, ceilDiv_eq_if _ _ ha.sqrt_pos]
  · intro arr hlen
    exact arrayGet_of_lt arr _ h0 (by rw [hlen]; exact h1)

/-- In the 20-core example core 19 is in a cluster below 6, the number of clusters. -/
theorem getClusterID_lt_num_clusters_witness :
    0 ≤ getClusterID config20 19 ∧ getClusterID config20 19 < (config20.m_num_clusters : Int) ∧
    config20.m_num_clusters = (config20.m_mesh_width / config20.m_sqrt_cluster_size)
      * ⌈((config20.m_mesh_height : ℕ) : ℚ) / (config20.m_sqrt_cluster_size : ℚ)⌉₊ ∧
    ∀ receiver_hub_queue_delay : List Nat,
      receiver_hub_queue_delay.length = config20.m_num_clusters →
      ∃ d, arrayGet receiver_hub_queue_delay (getClusterID config20 19) = some d :=
  getClusterID_lt_num_clusters construct_params20 19 (by decide)

/-- C9: on a topology that the constructor accepted, every complete cluster, that is every
cluster id `c` with `0 <= c < (mesh_width / S)^2`, is the cluster of exactly
`cluster_size = S^2` core ids of `[0, total_cores)`. -/
theorem complete_cluster_has_cluster_size_cores {p : Params} {cfg : Config}
    (hc : construct p = .ok cfg) (c : Int) (h0 : 0 ≤ c)
    (h1 : c < ((cfg.m_mesh_width / cfg.m_sqrt_cluster_size) ^ 2 : Nat)) :
    ((Finset.range cfg.m_total_cores).filter
      (fun n : Nat => getClusterID cfg (n : Int) = c)).card = p.cluster_size ∧
    p.cluster_size = cfg.m_sqrt_cluster_size ^ 2 := by
  have hcs := (construct_cluster_size hc).1
  rw [complete_cluster_count (construct_accepted hc) h0 h1, hcs, sq]
  exact ⟨rfl, rfl⟩

/-- In the 20-core example cluster 3 is the cluster of exactly 4 cores. -/
theorem complete_cluster_has_cluster_size_cores_witness :
    ((Finset.range config20.m_total_cores).filter
      (fun n : Nat => getClusterID config20 (n : Int) = 3)).card = params20.cluster_size ∧
    params20.cluster_size = config20.m_sqrt_cluster_size ^ 2 :=
  complete_cluster_has_cluster_size_cores construct_params20 3 (by decide) (by decide)

/-! ## C10: processing time -/

/-- C10, as stated, fails: for the 32-bit packet length `2^29` and bandwidth 1 the `UInt32`
product `pkt_length * 8` wraps to 0, and `computeProcessingTime` returns 0 where
`ceil(pkt_length * 8 / bandwidth)` is `2^32`. -/
theorem c10_num_bits_overflow_counterexample :
    536870912 < U32 ∧ 0 < 1 ∧
    computeProcessingTime 536870912 1 = .ok 0 ∧
    ⌈((536870912 * 8 : ℕ) : ℚ) / ((1 : ℕ) : ℚ)⌉₊ = 4294967296 ∧
    computeProcessingTime 536870912 1
      ≠ .ok ⌈((536870912 * 8 : ℕ) : ℚ) / ((1 : ℕ) : ℚ)⌉₊ := by
  have h1 : computeProcessingTime 536870912 1 = .ok 0 := rfl
  have h2 : ⌈((536870912 * 8 : ℕ) : ℚ) / ((1 : ℕ) : ℚ)⌉₊ = 4294967296 := by
    rw [ceil_div_eq _ _ (by decide)]
    decide
  refine ⟨by decide, by decide, h1, h2, ?_⟩
  rw [h1, h2]
  intro h
  exact absurd (Except.ok.inj h) (by decide)

/-- C10, amended: for every bandwidth above 0 and every packet length whose number of bits
`pkt_length * 8` fits in 32 bits, `computeProcessingTime(pkt_length, bandwidth)` returns
`ceil(pkt_length * 8 / bandwidth)`; and `computeProcessingTime(8, 16) == 4`,
`computeProcessingTime(9, 16) == 5`. -/
theorem computeProcessingTime_ceil (pkt_length bandwidth : Nat) (hb : 0 < bandwidth)
    (hl : pkt_length * 8 < U32) :
    computeProcessingTime pkt_length bandwidth
      = .ok ⌈((pkt_length * 8 : ℕ) : ℚ) / ((bandwidth : ℕ) : ℚ)⌉₊ ∧
    computeProcessingTime 8 16 = .ok 4 ∧ computeProcessingTime 9 16 = .ok 5 := by
  refine ⟨?_, rfl, rfl⟩
  rw [computeProcessingTime_eq _ _ hb hl, ceil_div_eq _ _ hb]

/-- Nine bytes at 16 bits per cycle. -/
theorem computeProcessingTime_ceil_witness :
    computeProcessingTime 9 16 = .ok ⌈((9 * 8 : ℕ) : ℚ) / ((16 : ℕ) : ℚ)⌉₊ ∧
    computeProcessingTime 8 16 = .ok 4 ∧ computeProcessingTime 9 16 = .ok 5 :=
  computeProcessingTime_ceil 9 16 (by decide) (by decide)

/-! ## Routing without contention charging -/

/-- Without contention charging `getHubQueueDelay` is the zero delay on unchanged hubs. -/
theorem getHubQueueDelay_zero (qm : QueueModel Q) (cfg : Config) (self : Instance)
    (hubs : Hubs Q) (hub_type : HubType) (sender_cluster_id cluster_id : Int)
    (pkt_time pkt_length : Nat) (pkt_type : PacketType) (requester : Int)
    (h : self.m_enabled = false ∨ cfg.m_queue_model_enabled = false ∨
      requester ≥ (cfg.m_num_application_cores : Int)) :
    getHubQueueDelay qm cfg self hubs hub_type sender_cluster_id cluster_id pkt_time
      pkt_length pkt_type requester = .ok (0, hubs) := by
  unfold getHubQueueDelay
  rw [if_pos h]

theorem receiverHubQueueDelays_zero (qm : QueueModel Q) (cfg : Config) (self : Instance)
    (scid : Int) (t len : Nat) (ty : PacketType) (req : Int)
    (h : self.m_enabled = false ∨ cfg.m_queue_model_enabled = false ∨
      req ≥ (cfg.m_num_application_cores : Int)) (l : List Nat) (hubs : Hubs Q) :
    receiverHubQueueDelays qm cfg self scid t len ty req l hubs
      = .ok (List.replicate l.length 0, hubs) := by
  induction l with
  | nil => rfl
  | cons k rest ih =>
    rw [receiverHubQueueDelays, getHubQueueDelay_zero qm cfg self hubs _ _ _ _ _ _ _ h]
    simp only
    rw [ih]
    rfl

/-- Broadcast routing without contention charging, on an accepted topology. -/
theorem routePacket_broadcast_zero (qm : QueueModel Q) (env : Env) {cfg : Config}
    (ha : Accepted cfg) (self : Instance) (hubs : Hubs Q) (pkt : NetPacket)
    (nextHops : List Hop) {requester : Int}
    (hreq : getRequester env cfg pkt = .ok requester)
    {processing_time : Nat}
    (hpt : computeProcessingTime (env.getModeledLength pkt) cfg.m_optical_bus_bandwidth
      = .ok processing_time)
    (hb : pkt.receiver = env.BROADCAST)
    (h : self.m_enabled = false ∨ cfg.m_queue_model_enabled = false ∨
      requester ≥ (cfg.m_num_application_cores : Int)) :
    ∃ hops, routePacket qm env cfg self hubs pkt nextHops = .ok (nextHops ++ hops, hubs) ∧
      hops.length = cfg.m_total_cores := by
  obtain ⟨hops, hh⟩ := broadcastHops_ok cfg pkt.time
    (u64 (u64 (cfg.m_sender_cluster_electrical_network_delay + 0)
      + cfg.m_optical_hop_latency))
    processing_time
    (List.replicate (List.range cfg.m_num_clusters).length 0)
    (List.range cfg.m_total_cores) (by
      intro i hi
      have hi' : validCore cfg (i : Int) :=
        ⟨Int.natCast_nonneg _, by exact_mod_cast List.mem_range.1 hi⟩
      obtain ⟨h0, h1⟩ := getClusterID_range ha hi'
      exact arrayGet_of_lt _ _ h0 (by simpa using h1))
  have hres : routePacket qm env cfg self hubs pkt nextHops = .ok (nextHops ++ hops, hubs) := by
    unfold routePacket
    rw [hreq]
    simp only
    rw [hpt]
    simp only
    rw [if_pos hb, getHubQueueDelay_zero qm cfg self hubs _ _ _ _ _ _ _ h]
    simp only
    rw [receiverHubQueueDelays_zero qm cfg self _ _ _ _ _ h]
    simp only
    rw [hh]
  refine ⟨hops, hres, ?_⟩
  have := broadcastHops_eq cfg _ _ _ _ _ hops hh
  rw [this, List.length_map, List.length_range]

/-- Cross-cluster unicast without contention charging. -/
theorem crossCluster_route_zero (qm : QueueModel Q) (env : Env) (cfg : Config)
    (self : Instance) (hubs : Hubs Q) (pkt : NetPacket) (nextHops : List Hop)
    {requester : Int} (hreq : getRequester env cfg pkt = .ok requester)
    {processing_time : Nat}
    (hpt : computeProcessingTime (env.getModeledLength pkt) cfg.m_optical_bus_bandwidth
      = .ok processing_time)
    (huni : pkt.receiver ≠ env.BROADCAST) (hr : pkt.receiver < (cfg.m_total_cores : Int))
    (hne : pkt.sender ≠ pkt.receiver)
    (hcl : getClusterID cfg pkt.sender ≠ getClusterID cfg pkt.receiver)
    (h : self.m_enabled = false ∨ cfg.m_queue_model_enabled = false ∨
      requester ≥ (cfg.m_num_application_cores : Int)) :
    routePacket qm env cfg self hubs pkt nextHops
      = .ok (nextHops ++
          [{ next_dest := pkt.receiver, final_dest := pkt.receiver,
             time := u64 (pkt.time + cfg.m_sender_cluster_electrical_network_delay
               + cfg.m_optical_hop_latency
               + cfg.m_receiver_cluster_electrical_network_delay
               + processing_time) }], hubs) := by
  unfold routePacket
  rw [hreq]
  simp only
  rw [hpt]
  simp only
  rw [if_neg huni, if_neg (by simpa using hr), if_neg hne, if_neg hcl,
    getHubQueueDelay_zero qm cfg self hubs _ _ _ _ _ _ _ h]
  simp only
  rw [getHubQueueDelay_zero qm cfg self hubs _ _ _ _ _ _ _ h]
  simp only
  rw [u64_time_unicast]
  simp only [Nat.add_zero]

/-- Unicast routing without contention charging gives one Hop to the receiver. -/
theorem routePacket_unicast_zero (qm : QueueModel Q) (env : Env) (cfg : Config)
    (self : Instance) (hubs : Hubs Q) (pkt : NetPacket) (nextHops : List Hop)
    {requester : Int} (hreq : getRequester env cfg pkt = .ok requester)
    {processing_time : Nat}
    (hpt : computeProcessingTime (env.getModeledLength pkt) cfg.m_optical_bus_bandwidth
      = .ok processing_time)
    (huni : pkt.receiver ≠ env.BROADCAST) (hr : pkt.receiver < (cfg.m_total_cores : Int))
    (h : self.m_enabled = false ∨ cfg.m_queue_model_enabled = false ∨
      requester ≥ (cfg.m_num_application_cores : Int)) :
    ∃ t, routePacket qm env cfg self hubs pkt nextHops
      = .ok (nextHops ++
          [{ next_dest := pkt.receiver, final_dest := pkt.receiver, time := t }], hubs) := by
  by_cases heq : pkt.sender = pkt.receiver
  · exact ⟨_, sameCore_route_eq qm env cfg self hubs pkt nextHops hreq hpt huni hr heq⟩
  · by_cases hcl : getClusterID cfg pkt.sender = getClusterID cfg pkt.receiver
    · exact ⟨_, sameCluster_route_eq qm env cfg self hubs pkt nextHops hreq hpt huni hr heq
        hcl⟩
    · exact ⟨_, crossCluster_route_zero qm env cfg self hubs pkt nextHops hreq hpt
        huni hr heq hcl h⟩

/-! ## C11: routing without contention charging -/

/-- C11, as stated, fails on three inputs: after `disable`, `routePacket` emits no Hop for
the shared-memory packet from core 5 to core 19, whose payload names requester `-1`
(`getRequester` terminates the run); nor for the packet from core 5 to the core id 20,
which the 20-core system does not have (the receiver check terminates the run); nor, on
the topology accepted with an optical bus bandwidth of zero, for the plain packet from
core 5 to core 19 (division by the bandwidth). -/
theorem c11_no_hop_after_disable_counterexample :
    routePacket fifoQueue env20 config20 (disable self5) hubs20 pktShmem5to19 []
      = .error Fatal.requesterOutOfRange ∧
    routePacket fifoQueue env20 config20 (disable self5) hubs20 pkt5to20 []
      = .error Fatal.invalidReceiver ∧
    construct params20NoBandwidth = .ok config20NoBandwidth ∧
    routePacket fifoQueue env20 config20NoBandwidth (disable self5) hubs20NoBandwidth
      pkt5to19 [] = .error Fatal.divisionByZero :=
  ⟨rfl, rfl, construct_params20NoBandwidth, rfl⟩

/-- C11, amended: `getHubQueueDelay` returns 0 and returns the hub members of all cores
unchanged whenever the calling instance is disabled, or queueing is disabled, or the
requester is not below the application core count. So, after `disable`, on a constructed
topology with an optical bus bandwidth above zero, `routePacket` still emits its Hops for a
packet whose requester passes the range check and, when it is a unicast, whose receiver is
below `total_cores`: one Hop to the receiver for a unicast, `total_cores` Hops for a
broadcast, the hub members unchanged; and the Hop of a cross-cluster unicast is timed
`pkt.time + sender delay + optical_hop_latency + receiver delay + processing_time` in
`UInt64` arithmetic. -/
theorem getHubQueueDelay_noop_when_not_charged (qm : QueueModel Q) (env : Env) {p : Params}
    {cfg : Config} (hc : construct p = .ok cfg) (hbw : 0 < cfg.m_optical_bus_bandwidth)
    (self : Instance) (hubs : Hubs Q)
    (pkt : NetPacket) (nextHops : List Hop) (requester : Int)
    (hreq : getRequester env cfg pkt = .ok requester) :
    (∀ (caller : Instance) (hub_type : HubType) (sender_cluster_id cluster_id : Int)
        (pkt_time pkt_length : Nat) (pkt_type : PacketType) (r : Int),
      (caller.m_enabled = false ∨ cfg.m_queue_model_enabled = false ∨
        r ≥ (cfg.m_num_application_cores : Int)) →
      getHubQueueDelay qm cfg caller hubs hub_type sender_cluster_id cluster_id pkt_time
        pkt_length pkt_type r = .ok (0, hubs)) ∧
    (pkt.receiver ≠ env.BROADCAST → pkt.receiver < (cfg.m_total_cores : Int) →
      ∃ t, routePacket qm env cfg (disable self) hubs pkt nextHops
        = .ok (nextHops ++
            [{ next_dest := pkt.receiver, final_dest := pkt.receiver, time := t }], hubs)) ∧
    (pkt.receiver ≠ env.BROADCAST → pkt.receiver < (cfg.m_total_cores : Int) →
      getClusterID cfg pkt.sender ≠ getClusterID cfg pkt.receiver →
      ∃ processing_time,
        computeProcessingTime (env.getModeledLength pkt) cfg.m_optical_bus_bandwidth
          = .ok processing_time ∧
        routePacket qm env cfg (disable self) hubs pkt nextHops
          = .ok (nextHops ++
              [{ next_dest := pkt.receiver, final_dest := pkt.receiver,
                 time := u64 (pkt.time + cfg.m_sender_cluster_electrical_network_delay
                   + cfg.m_optical_hop_latency
                   + cfg.m_receiver_cluster_electrical_network_delay
                   + processing_time) }], hubs)) ∧
    (pkt.receiver = env.BROADCAST →
      ∃ hops, routePacket qm env cfg (disable self) hubs pkt nextHops
          = .ok (nextHops ++ hops, hubs) ∧
        hops.length = cfg.m_total_cores) := by
  have hd : (disable self).m_enabled = false ∨ cfg.m_queue_model_enabled = false ∨
      requester ≥ (cfg.m_num_application_cores : Int) := Or.inl rfl
  obtain ⟨processing_time, hpt⟩ := computeProcessingTime_ok (env.getModeledLength pkt) hbw
  refine ⟨?_, ?_, ?_, ?_⟩
  · intro caller hub_type scid cid t len ty r h
    exact getHubQueueDelay_zero qm cfg caller hubs hub_type scid cid t len ty r h
  · intro huni hr
    exact routePacket_unicast_zero qm env cfg (disable self) hubs pkt nextHops hreq hpt huni
      hr hd
  · intro huni hr hcl
    exact ⟨processing_time, hpt,
      crossCluster_route_zero qm env cfg (disable self) hubs pkt nextHops hreq hpt
        huni hr (fun h => hcl (by rw [h])) hcl hd⟩
  · intro hb
    exact routePacket_broadcast_zero qm env (construct_accepted hc) (disable self) hubs pkt
      nextHops hreq hpt hb hd

/-- In the 20-core example, after `disable`, the packet from core 5 to core 19 at time 100
gets its Hop at time 113 = 100 + 3 + 5 + 3 + 2, and nothing is charged. -/
theorem getHubQueueDelay_noop_when_not_charged_witness :
    routePacket fifoQueue env20 config20 (disable self5) hubs20 pkt5to19 []
      = .ok ([{ next_dest := 19, final_dest := 19, time := 113 }], hubs20) := by
  obtain ⟨processing_time, hpt, h⟩ := (getHubQueueDelay_noop_when_not_charged fifoQueue env20
    construct_params20 (by decide) self5 hubs20 pkt5to19 [] 5 rfl).2.2.1 (by decide)
    (by decide) (by decide)
  have h2 : processing_time = 2 :=
    Except.ok.inj (hpt.symm.trans (rfl : computeProcessingTime
      (env20.getModeledLength pkt5to19) config20.m_optical_bus_bandwidth = .ok 2))
  subst h2
  exact h

/-! ## Effect of one hub computation -/

/-- A receiver-hub request on a hub-hosting instance, as the code computes it. -/
theorem computeHubQueueDelay_receiver (qm : QueueModel Q) (cfg : Config) (m_core_id : Int)
    (h : HubState Q) (sender_cluster_id : Int) (pkt_time pkt_length : Nat)
    (hq : cfg.m_queue_model_enabled = true)
    (hhost : m_core_id = getCoreIDWithOpticalHub cfg (getClusterID cfg m_core_id))
    {processing_time : Nat}
    (hpt : computeProcessingTime pkt_length cfg.m_optical_bus_bandwidth = .ok processing_time)
    (hB : 0 < cfg.m_num_electrical_broadcast_networks_per_cluster)
    (q : Q) (total_delay total_packets : Nat)
    (h1 : h.m_receiver_hub_queue_models[toUInt32 sender_cluster_id
      % cfg.m_num_electrical_broadcast_networks_per_cluster]? = some q)
    (h2 : h.m_total_receiver_hub_contention_delay[toUInt32 sender_cluster_id
      % cfg.m_num_electrical_broadcast_networks_per_cluster]? = some total_delay)
    (h3 : h.m_total_receiver_hub_packets[toUInt32 sender_cluster_id
      % cfg.m_num_electrical_broadcast_networks_per_cluster]? = some total_packets) :
    computeHubQueueDelay qm cfg m_core_id (some h) HubType.RECEIVER_HUB sender_cluster_id
        pkt_time pkt_length
      = .ok ((qm.computeQueueDelay q pkt_time processing_time).1,
          some { h with
            m_receiver_hub_queue_models :=
              h.m_receiver_hub_queue_models.set
                (toUInt32 sender_cluster_id
                  % cfg.m_num_electrical_broadcast_networks_per_cluster)
                (qm.computeQueueDelay q pkt_time processing_time).2
            m_total_receiver_hub_contention_delay :=
              h.m_total_receiver_hub_contention_delay.set
                (toUInt32 sender_cluster_id
                  % cfg.m_num_electrical_broadcast_networks_per_cluster)
                (u64 (total_delay + (qm.computeQueueDelay q pkt_time processing_time).1))
            m_total_receiver_hub_packets :=
              h.m_total_receiver_hub_packets.set
                (toUInt32 sender_cluster_id
                  % cfg.m_num_electrical_broadcast_networks_per_cluster)
                (u64 (total_packets + 1)) }) := by
  unfold computeHubQueueDelay
  rw [if_neg (by simp [hq]), if_neg (by simpa using hhost)]
  simp only
  rw [hpt]
  simp only
  rw [if_neg (Nat.pos_iff_ne_zero.mp hB)]
  rw [arrayGet_natCast, arrayGet_natCast, arrayGet_natCast, h1, h2, h3]
  simp only [Int.toNat_ofNat]

/-- A sender-hub request on a hub-hosting instance, as the code computes it. -/
theorem computeHubQueueDelay_sender (qm : QueueModel Q) (cfg : Config) (m_core_id : Int)
    (h : HubState Q) (sender_cluster_id : Int) (pkt_time pkt_length : Nat)
    (hq : cfg.m_queue_model_enabled = true)
    (hhost : m_core_id = getCoreIDWithOpticalHub cfg (getClusterID cfg m_core_id))
    {processing_time : Nat}
    (hpt : computeProcessingTime pkt_length cfg.m_optical_bus_bandwidth = .ok processing_time)
    (hown : sender_cluster_id = getClusterID cfg m_core_id) :
    computeHubQueueDelay qm cfg m_core_id (some h) HubType.SENDER_HUB sender_cluster_id
        pkt_time pkt_length
      = .ok ((qm.computeQueueDelay h.m_sender_hub_queue_model pkt_time processing_time).1,
          some { h with
            m_sender_hub_queue_model :=
              (qm.computeQueueDelay h.m_sender_hub_queue_model pkt_time processing_time).2
            m_total_sender_hub_contention_delay :=
              u64 (h.m_total_sender_hub_contention_delay
                + (qm.computeQueueDelay h.m_sender_hub_queue_model pkt_time
                    processing_time).1)
            m_total_sender_hub_packets := u64 (h.m_total_sender_hub_packets + 1) }) := by
  unfold computeHubQueueDelay
  rw [if_neg (by simp [hq]), if_neg (by simpa using hhost)]
  simp only
  rw [hpt]
  simp only
  rw [if_neg (by simpa using hown)]

/-- The channel index for a negative sender cluster id. -/
theorem channel_of_neg {i : Int} (B : Nat) (h0 : i < 0) (h1 : -2147483648 ≤ i) :
    ((toUInt32 i % B : Nat) : Int) = (4294967296 + i) % (B : Int) := by
  have h := toUInt32_of_neg h0 (by unfold U32; omega)
  rw [Int.natCast_mod, h]
  rfl

/-! ## C12: effect of one hub computation -/

/-- C12, as stated, fails on three inputs. Core 0 of the 20-core example hosts the hub of
cluster 0, with 2 receiver channels, and a `SENDER_HUB` request naming sender cluster 3
stops on the assertion `sender_cluster_id == getClusterID(m_core_id)`: no delay is returned
and no packet is counted. On the topology accepted with an optical bus bandwidth of zero, a
`RECEIVER_HUB` request on that core dies on the division by the bandwidth. And with 3
receiver channels a `RECEIVER_HUB` request naming sender cluster `-1` charges channel 0,
the unsigned remainder `(2^32 - 1) mod 3`, where `-1 mod 3` is 2 and the signed remainder
is `-1`. -/
theorem c12_hub_request_counterexample :
    (config20.m_queue_model_enabled = true ∧
      createOpticalHub fifoQueue config20 0 = some hub0 ∧
      0 < config20.m_num_electrical_broadcast_networks_per_cluster ∧
      computeHubQueueDelay fifoQueue config20 0 (some hub0) HubType.SENDER_HUB 3 100 4
        = .error Fatal.senderClusterMismatch) ∧
    (construct params20NoBandwidth = .ok config20NoBandwidth ∧
      createOpticalHub fifoQueue config20NoBandwidth 0 = some hub0 ∧
      0 < config20NoBandwidth.m_num_electrical_broadcast_networks_per_cluster ∧
      computeHubQueueDelay fifoQueue config20NoBandwidth 0 (some hub0) HubType.RECEIVER_HUB
        0 100 4 = .error Fatal.divisionByZero) ∧
    (construct params20Three = .ok config20Three ∧
      createOpticalHub fifoQueue config20Three 0 = some hub0Three ∧
      computeHubQueueDelay fifoQueue config20Three 0 (some hub0Three) HubType.RECEIVER_HUB
        (-1) 100 4
        = .ok (0, some { hub0Three with
            m_receiver_hub_queue_models := [102, 0, 0]
            m_total_receiver_hub_packets := [1, 0, 0] }) ∧
      (-1 : Int) % 3 = 2 ∧ Int.tmod (-1) 3 = -1) :=
  ⟨⟨rfl, rfl, by decide, rfl⟩, ⟨construct_params20NoBandwidth, rfl, by decide, rfl⟩,
    ⟨construct_params20Three, rfl, rfl, by decide, by decide⟩⟩

/-- C12, amended: on a hub-hosting instance with `B > 0` receiver channels and an optical
bus bandwidth above zero, a `RECEIVER_HUB` request returns the delay `d` that the queue
model of channel `k` computes for `(t, computeProcessingTime(len, bandwidth))`, where `k` is
the unsigned remainder of `sender_cluster_id` by `B` (`sender_cluster_id mod B` for a
cluster id `>= 0`, `(2^32 + sender_cluster_id) mod B` for a negative one); it stores that
model's next state, adds `d` to the contention-delay total of channel `k` and 1 to its
packet count (`UInt64` additions), and leaves every other receiver channel and the
sender-hub model and counters unchanged. A `SENDER_HUB` request whose `sender_cluster_id`
is the cluster of the hub's own core returns the sender model's delay, adds it and 1 packet
to the sender counters, and leaves all receiver channels unchanged. -/
theorem computeHubQueueDelay_touches_one_channel (qm : QueueModel Q) (cfg : Config)
    (m_core_id : Int) (h : HubState Q) (sender_cluster_id : Int) (pkt_time pkt_length : Nat)
    (hq : cfg.m_queue_model_enabled = true)
    (hhost : m_core_id = getCoreIDWithOpticalHub cfg (getClusterID cfg m_core_id))
    (hbw : 0 < cfg.m_optical_bus_bandwidth)
    (hB : 0 < cfg.m_num_electrical_broadcast_networks_per_cluster)
    (hl1 : h.m_receiver_hub_queue_models.length
      = cfg.m_num_electrical_broadcast_networks_per_cluster)
    (hl2 : h.m_total_receiver_hub_contention_delay.length
      = cfg.m_num_electrical_broadcast_networks_per_cluster)
    (hl3 : h.m_total_receiver_hub_packets.length
      = cfg.m_num_electrical_broadcast_networks_per_cluster) :
    (∃ processing_time k q total_delay total_packets h',
      computeProcessingTime pkt_length cfg.m_optical_bus_bandwidth = .ok processing_time ∧
      k = toUInt32 sender_cluster_id % cfg.m_num_electrical_broadcast_networks_per_cluster ∧
      (0 ≤ sender_cluster_id → sender_cluster_id < 2147483648 →
        k = sender_cluster_id.toNat
          % cfg.m_num_electrical_broadcast_networks_per_cluster) ∧
      (sender_cluster_id < 0 → -2147483648 ≤ sender_cluster_id →
        (k : Int) = (4294967296 + sender_cluster_id)
          % (cfg.m_num_electrical_broadcast_networks_per_cluster : Int)) ∧
      h.m_receiver_hub_queue_models[k]? = some q ∧
      h.m_total_receiver_hub_contention_delay[k]? = some total_delay ∧
      h.m_total_receiver_hub_packets[k]? = some total_packets ∧
      computeHubQueueDelay qm cfg m_core_id (some h) HubType.RECEIVER_HUB sender_cluster_id
          pkt_time pkt_length
        = .ok ((qm.computeQueueDelay q pkt_time processing_time).1, some h') ∧
      h'.m_receiver_hub_queue_models[k]?
        = some (qm.computeQueueDelay q pkt_time processing_time).2 ∧
      h'.m_total_receiver_hub_contention_delay[k]?
        = some (u64 (total_delay + (qm.computeQueueDelay q pkt_time processing_time).1)) ∧
      h'.m_total_receiver_hub_packets[k]? = some (u64 (total_packets + 1)) ∧
      (∀ j, j ≠ k →
        h'.m_receiver_hub_queue_models[j]? = h.m_receiver_hub_queue_models[j]? ∧
        h'.m_total_receiver_hub_contention_delay[j]?
          = h.m_total_receiver_hub_contention_delay[j]? ∧
        h'.m_total_receiver_hub_packets[j]? = h.m_total_receiver_hub_packets[j]?) ∧
      h'.m_sender_hub_queue_model = h.m_sender_hub_queue_model ∧
      h'.m_total_sender_hub_contention_delay = h.m_total_sender_hub_contention_delay ∧
      h'.m_total_sender_hub_packets = h.m_total_sender_hub_packets) ∧
    (sender_cluster_id = getClusterID cfg m_core_id →
      ∃ processing_time h',
        computeProcessingTime pkt_length cfg.m_optical_bus_bandwidth = .ok processing_time ∧
        computeHubQueueDelay qm cfg m_core_id (some h) HubType.SENDER_HUB sender_cluster_id
            pkt_time pkt_length
          = .ok ((qm.computeQueueDelay h.m_sender_hub_queue_model pkt_time
              processing_time).1, some h') ∧
        h'.m_sender_hub_queue_model
          = (qm.computeQueueDelay h.m_sender_hub_queue_model pkt_time processing_time).2 ∧
        h'.m_total_sender_hub_contention_delay
          = u64 (h.m_total_sender_hub_contention_delay
              + (qm.computeQueueDelay h.m_sender_hub_queue_model pkt_time
                  processing_time).1) ∧
        h'.m_total_sender_hub_packets = u64 (h.m_total_sender_hub_packets + 1) ∧
        h'.m_receiver_hub_queue_models = h.m_receiver_hub_queue_models ∧
        h'.m_total_receiver_hub_contention_delay = h.m_total_receiver_hub_contention_delay ∧
        h'.m_total_receiver_hub_packets = h.m_total_receiver_hub_packets) := by
  obtain ⟨processing_time, hpt⟩ := computeProcessingTime_ok pkt_length hbw
  have hk : toUInt32 sender_cluster_id % cfg.m_num_electrical_broadcast_networks_per_cluster
      < cfg.m_num_electrical_broadcast_networks_per_cluster := Nat.mod_lt _ hB
  constructor
  · have e1 := List.getElem?_eq_getElem (l := h.m_receiver_hub_queue_models)
      (by rw [hl1]; exact hk)
    have e2 := List.getElem?_eq_getElem (l := h.m_total_receiver_hub_contention_delay)
      (by rw [hl2]; exact hk)
    have e3 := List.getElem?_eq_getElem (l := h.m_total_receiver_hub_packets)
      (by rw [hl3]; exact hk)
    refine ⟨processing_time, _, _, _, _, _, hpt, rfl, ?_, ?_, e1, e2, e3,
      computeHubQueueDelay_receiver qm cfg m_core_id h sender_cluster_id pkt_time pkt_length
        hq hhost hpt hB _ _ _ e1 e2 e3, ?_, ?_, ?_, ?_, rfl, rfl, rfl⟩
    · intro h0 h1
      rw [toUInt32_of_nonneg h0 (by unfold U32; omega)]
    · intro h0 h1
      exact channel_of_neg _ h0 h1
    · exact List.getElem?_set_self (by rw [hl1]; exact hk)
    · exact List.getElem?_set_self (by rw [hl2]; exact hk)
    · exact List.getElem?_set_self (by rw [hl3]; exact hk)
    · intro j hj
      exact ⟨List.getElem?_set_ne (Ne.symm hj), List.getElem?_set_ne (Ne.symm hj),
        List.getElem?_set_ne (Ne.symm hj)⟩
  · intro hown
    exact ⟨processing_time, _, hpt,
      computeHubQueueDelay_sender qm cfg m_core_id h sender_cluster_id pkt_time pkt_length
        hq hhost hpt hown, rfl, rfl, rfl, rfl, rfl, rfl⟩

/-- On core 0 of the 20-core example, with 2 receiver channels, a receiver-hub request of
sender cluster 3 at time 108 is served by channel 1 and leaves channel 0 and the sender side
as they were; and a sender-hub request of cluster 0 at time 103 counts one packet on the
sender side and leaves the two receiver channels as they were. -/
theorem computeHubQueueDelay_touches_one_channel_witness :
    (∃ processing_time k q total_delay total_packets h',
      computeProcessingTime 4 16 = .ok processing_time ∧
      k = toUInt32 3 % 2 ∧
      ((0 : Int) ≤ 3 → (3 : Int) < 2147483648 → k = (3 : Int).toNat % 2) ∧
      ((3 : Int) < 0 → -2147483648 ≤ (3 : Int) →
        (k : Int) = (4294967296 + 3) % ((2 : Nat) : Int)) ∧
      hub0.m_receiver_hub_queue_models[k]? = some q ∧
      hub0.m_total_receiver_hub_contention_delay[k]? = some total_delay ∧
      hub0.m_total_receiver_hub_packets[k]? = some total_packets ∧
      computeHubQueueDelay fifoQueue config20 0 (some hub0) HubType.RECEIVER_HUB 3 108 4
        = .ok ((fifoQueue.computeQueueDelay q 108 processing_time).1, some h') ∧
      h'.m_receiver_hub_queue_models[k]?
        = some (fifoQueue.computeQueueDelay q 108 processing_time).2 ∧
      h'.m_total_receiver_hub_contention_delay[k]?
        = some (u64 (total_delay + (fifoQueue.computeQueueDelay q 108 processing_time).1)) ∧
      h'.m_total_receiver_hub_packets[k]? = some (u64 (total_packets + 1)) ∧
      (∀ j, j ≠ k →
        h'.m_receiver_hub_queue_models[j]? = hub0.m_receiver_hub_queue_models[j]? ∧
        h'.m_total_receiver_hub_contention_delay[j]?
          = hub0.m_total_receiver_hub_contention_delay[j]? ∧
        h'.m_total_receiver_hub_packets[j]? = hub0.m_total_receiver_hub_packets[j]?) ∧
      h'.m_sender_hub_queue_model = hub0.m_sender_hub_queue_model ∧
      h'.m_total_sender_hub_contention_delay = hub0.m_total_sender_hub_contention_delay ∧
      h'.m_total_sender_hub_packets = hub0.m_total_sender_hub_packets) ∧
    (∃ processing_time h',
      computeProcessingTime 4 16 = .ok processing_time ∧
      computeHubQueueDelay fifoQueue config20 0 (some hub0) HubType.SENDER_HUB 0 103 4
        = .ok ((fifoQueue.computeQueueDelay hub0.m_sender_hub_queue_model 103
            processing_time).1, some h') ∧
      h'.m_sender_hub_queue_model
        = (fifoQueue.computeQueueDelay hub0.m_sender_hub_queue_model 103
            processing_time).2 ∧
      h'.m_total_sender_hub_contention_delay
        = u64 (hub0.m_total_sender_hub_contention_delay
            + (fifoQueue.computeQueueDelay hub0.m_sender_hub_queue_model 103
                processing_time).1) ∧
      h'.m_total_sender_hub_packets = u64 (hub0.m_total_sender_hub_packets + 1) ∧
      h'.m_receiver_hub_queue_models = hub0.m_receiver_hub_queue_models ∧
      h'.m_total_receiver_hub_contention_delay = hub0.m_total_receiver_hub_contention_delay ∧
      h'.m_total_receiver_hub_packets = hub0.m_total_receiver_hub_packets) :=
  ⟨(computeHubQueueDelay_touches_one_channel fifoQueue config20 0 hub0 3 108 4 rfl
      (by decide) (by decide) (by decide) rfl rfl rfl).1,
    (computeHubQueueDelay_touches_one_channel fifoQueue config20 0 hub0 0 103 4 rfl
      (by decide) (by decide) (by decide) rfl rfl rfl).2 (by decide)⟩

/-! ## C13: accounting of received packets -/

/-- C13, as stated, fails: the instance on core 5 is enabled and the shared-memory packet's
requester `-1` is below the application core count, so the claim has the three counters
grow; but `getRequester` terminates the run on its range check and nothing is counted. -/
theorem c13_requester_out_of_range_counterexample :
    self5.m_enabled = true ∧
    env20.getShmemRequester pktShmem5to1.data = -1 ∧
    ¬ ((-1 : Int) ≥ (config20.m_num_application_cores : Int)) ∧
    processReceivedPacket env20 config20 self5 pktShmem5to1
      = .error Fatal.requesterOutOfRange :=
  ⟨rfl, rfl, by decide, rfl⟩

/-- C13, amended: for a packet whose requester passes the range check of `getRequester`,
`processReceivedPacket` returns the instance unchanged if it is disabled or the requester is
not below the application core count; otherwise it adds 1 to the packets received, the
modelled packet length to the bytes received and `pkt.time - pkt.start_time` to the
cumulative latency (`UInt64` arithmetic), and changes nothing else. A freshly constructed
instance is disabled and counts nothing; `enable` sets the flag. -/
theorem processReceivedPacket_counts (env : Env) (cfg : Config) (self : Instance)
    (pkt : NetPacket) (requester : Int)
    (hreq : getRequester env cfg pkt = .ok requester) :
    ((self.m_enabled = false ∨ requester ≥ (cfg.m_num_application_cores : Int)) →
      processReceivedPacket env cfg self pkt = .ok self) ∧
    (self.m_enabled = true → requester < (cfg.m_num_application_cores : Int) →
      processReceivedPacket env cfg self pkt
        = .ok { m_core_id := self.m_core_id
                m_enabled := self.m_enabled
                m_total_packets_received := u64 (self.m_total_packets_received + 1)
                m_total_bytes_received
                  := u64 (self.m_total_bytes_received + env.getModeledLength pkt)
                m_total_packet_latency
                  := u64 (self.m_total_packet_latency + u64sub pkt.time pkt.start_time) }) ∧
    (∀ m_core_id, (initialInstance m_core_id).m_enabled = false ∧
      processReceivedPacket env cfg (initialInstance m_core_id) pkt
        = .ok (initialInstance m_core_id)) ∧
    (enable self).m_enabled = true := by
  have hno : ∀ s : Instance,
      (s.m_enabled = false ∨ requester ≥ (cfg.m_num_application_cores : Int)) →
      processReceivedPacket env cfg s pkt = .ok s := by
    intro s h
    unfold processReceivedPacket
    rw [hreq]
    simp only
    rw [if_pos h]
  refine ⟨hno self, ?_, fun c => ⟨rfl, hno _ (Or.inl rfl)⟩, rfl⟩
  intro he hr
  unfold processReceivedPacket
  rw [hreq]
  simp only
  rw [if_neg (by
    rintro (h | h)
    · rw [he] at h; cases h
    · omega)]

/-- In the 20-core example the enabled instance on core 5 counts the packet from core 5 to
core 1: one packet, 4 bytes, latency 10. -/
theorem processReceivedPacket_counts_witness :
    processReceivedPacket env20 config20 self5 pkt5to1
      = .ok { m_core_id := 5, m_enabled := true, m_total_packets_received := 1,
              m_total_bytes_received := 4, m_total_packet_latency := 10 } :=
  (processReceivedPacket_counts env20 config20 self5 pkt5to1 5 rfl).2.1 rfl (by decide)

/-! ## C14: receiver out of range -/

/-- Unicast to a receiver id at or above `total_cores` is fatal. -/
theorem routePacket_receiver_too_large (qm : QueueModel Q) (env : Env) (cfg : Config)
    (self : Instance) (hubs : Hubs Q) (pkt : NetPacket) (nextHops : List Hop)
    (huni : pkt.receiver ≠ env.BROADCAST) (hr : (cfg.m_total_cores : Int) ≤ pkt.receiver) :
    ∃ e, routePacket qm env cfg self hubs pkt nextHops = .error e := by
  unfold routePacket
  rcases getRequester env cfg pkt with e | r
  · exact ⟨e, rfl⟩
  · simp only
    rcases computeProcessingTime (env.getModeledLength pkt) cfg.m_optical_bus_bandwidth
      with e | processing_time
    · exact ⟨e, rfl⟩
    · simp only
      rw [if_neg huni, if_pos (by omega)]
      exact ⟨_, rfl⟩

/-- C14, on the code: the packet from core 5 with receiver `-1` is a unicast (`-1` is not
the broadcast marker) whose receiver is outside `[0, 20)`, and `routePacket` does not fail:
it emits a Hop to core `-1`, at time 108. -/
theorem routePacket_negative_receiver_emits_hop :
    pkt5toMinus1.receiver ≠ env20.BROADCAST ∧
    ¬ validCore config20 pkt5toMinus1.receiver ∧
    routePacket fifoQueue env20 config20 self5 hubs20 pkt5toMinus1 []
      = .ok ([{ next_dest := -1, final_dest := -1, time := 108 }], hubs20) :=
  ⟨by decide, by decide, rfl⟩

theorem hub_nat_lt_square (W S c : Nat) (hS : 0 < S) (hW : 0 < W) (hm : W % S = 0)
    (hc : c < W / S * (W / S)) :
    (c / (W / S) * S) * W + (c % (W / S)) * S < W * W := by
  have hcw := cw_pos W S hW hm
  have hWS := width_eq W S hm
  have hcy : c / (W / S) < W / S := Nat.div_lt_of_lt_mul hc
  have hcx : c % (W / S) < W / S := Nat.mod_lt _ hcw
  have hx : c % (W / S) * S < W := by
    calc c % (W / S) * S < W / S * S := Nat.mul_lt_mul_of_pos_right hcx hS
      _ = W := hWS.symm
  have hy : c / (W / S) * S + S ≤ W := by
    have : (c / (W / S) + 1) * S ≤ W / S * S := Nat.mul_le_mul_right S hcy
    rw [← hWS, Nat.add_mul, Nat.one_mul] at this
    exact this
  have h1 : (c / (W / S) * S + 1) * W ≤ W * W := by
    rw [Nat.mul_comm W W]
    exact Nat.mul_le_mul_right W (by omega)
  rw [Nat.add_mul, Nat.one_mul] at h1
  omega

theorem hub_lt_square {cfg : Config} (ha : Accepted cfg) {c : Nat}
    (hc : c < cfg.m_mesh_width / cfg.m_sqrt_cluster_size
      * (cfg.m_mesh_width / cfg.m_sqrt_cluster_size)) :
    getCoreIDWithOpticalHub cfg (c : Int) < ((cfg.m_mesh_width * cfg.m_mesh_width : Nat) : Int) := by
  rw [getCoreIDWithOpticalHub_natCast]
  exact_mod_cast hub_nat_lt_square _ _ c ha.sqrt_pos ha.width_pos ha.width_multiple hc

theorem complete_lt_num_clusters {cfg : Config} (ha : Accepted cfg) {c : Nat}
    (hc : c < cfg.m_mesh_width / cfg.m_sqrt_cluster_size
      * (cfg.m_mesh_width / cfg.m_sqrt_cluster_size)) : c < cfg.m_num_clusters := by
  rw [ha.clusters, ceilDiv_eq_succ _ _ (by rw [ha.height]; omega) ha.sqrt_pos, ha.height,
    Nat.add_sub_cancel]
  calc c < cfg.m_mesh_width / cfg.m_sqrt_cluster_size
        * (cfg.m_mesh_width / cfg.m_sqrt_cluster_size) := hc
    _ ≤ cfg.m_mesh_width / cfg.m_sqrt_cluster_size
        * (cfg.m_mesh_width / cfg.m_sqrt_cluster_size + 1) :=
      Nat.mul_le_mul_left _ (Nat.le_succ _)

/-- Result of `computeMemoryControllerPositions` on initialised members. -/
theorem computeMemoryControllerPositions_eq (cfg : Config) (n core_count : Int)
    (hS : 0 < cfg.m_sqrt_cluster_size) (hW : 0 < cfg.m_mesh_width) :
    computeMemoryControllerPositions cfg n core_count
      = if n ≤ ((cfg.m_mesh_width / cfg.m_sqrt_cluster_size
            * (cfg.m_mesh_width / cfg.m_sqrt_cluster_size) : Nat) : Int) then
          .ok (true, (List.range n.toNat).map
            (fun (i : Nat) => getCoreIDWithOpticalHub cfg (i : Int)))
        else .error Fatal.tooManyMemoryControllers := by
  unfold computeMemoryControllerPositions
  rw [if_neg (by simp [hS, hW])]
  simp only [tdiv_natCast, ← Nat.cast_mul]
  by_cases h : n ≤ ((cfg.m_mesh_width / cfg.m_sqrt_cluster_size
      * (cfg.m_mesh_width / cfg.m_sqrt_cluster_size) : Nat) : Int)
  · rw [if_neg (by simpa using h), if_pos h]
  · rw [if_pos (by simpa using h), if_neg h]

/-! ## C15: memory controller positions -/

/-- C15: on a constructed topology, `computeMemoryControllerPositions(n, core_count)` with
`0 <= n <= (mesh_width / S)^2` returns success with a list of length `n` whose `i`-th entry
is `getCoreIDWithOpticalHub(i)`, a core of the system below `mesh_width^2` that hosts the hub
of cluster `i`; with `n > (mesh_width / S)^2` it fails fatally; and `core_count` has no
influence on the result. -/
theorem computeMemoryControllerPositions_complete_clusters {p : Params} {cfg : Config}
    (hc : construct p = .ok cfg) (n core_count : Int) :
    (0 ≤ n → n ≤ (((cfg.m_mesh_width / cfg.m_sqrt_cluster_size) ^ 2 : Nat) : Int) →
      ∃ l, computeMemoryControllerPositions cfg n core_count = .ok (true, l) ∧
        (l.length : Int) = n ∧
        ∀ i : Nat, (i : Int) < n →
          l[i]? = some (getCoreIDWithOpticalHub cfg (i : Int)) ∧
          validCore cfg (getCoreIDWithOpticalHub cfg (i : Int)) ∧
          getCoreIDWithOpticalHub cfg (i : Int)
            < ((cfg.m_mesh_width * cfg.m_mesh_width : Nat) : Int) ∧
          getClusterID cfg (getCoreIDWithOpticalHub cfg (i : Int)) = (i : Int)) ∧
    ((((cfg.m_mesh_width / cfg.m_sqrt_cluster_size) ^ 2 : Nat) : Int) < n →
      computeMemoryControllerPositions cfg n core_count
        = .error Fatal.tooManyMemoryControllers) ∧
    (∀ other_core_count : Int,
      computeMemoryControllerPositions cfg n other_core_count
        = computeMemoryControllerPositions cfg n core_count) := by
  have ha := construct_accepted hc
  have heq := fun cc => computeMemoryControllerPositions_eq cfg n cc ha.sqrt_pos ha.width_pos
  rw [sq]
  refine ⟨?_, ?_, ?_⟩
  · intro h0 hn
    refine ⟨_, by rw [heq, if_pos hn], ?_, ?_⟩
    · rw [List.length_map, List.length_range]
      exact Int.toNat_of_nonneg h0
    · intro i hi
      have hi' : i < n.toNat := by omega
      have hic : i < cfg.m_mesh_width / cfg.m_sqrt_cluster_size
          * (cfg.m_mesh_width / cfg.m_sqrt_cluster_size) := by
        have : (i : Int) < ((cfg.m_mesh_width / cfg.m_sqrt_cluster_size
          * (cfg.m_mesh_width / cfg.m_sqrt_cluster_size) : Nat) : Int) := lt_of_lt_of_le hi hn
        exact_mod_cast this
      have hin := complete_lt_num_clusters ha hic
      exact ⟨getElem?_map_range _ _ _ hi',
        validCore_hub ha (Int.natCast_nonneg i) (by exact_mod_cast hin),
        hub_lt_square ha hic, getClusterID_hub ha (Int.natCast_nonneg i)⟩
  · intro hn
    rw [heq, if_neg (by omega)]
  · intro cc
    rw [heq, heq]

/-- In the 20-core example three memory controllers go to cores 0, 2 and 8. -/
theorem computeMemoryControllerPositions_complete_clusters_witness :
    computeMemoryControllerPositions config20 3 20 = .ok (true, [0, 2, 8]) ∧
    (∃ l, computeMemoryControllerPositions config20 3 20 = .ok (true, l) ∧
      (l.length : Int) = 3 ∧
      ∀ i : Nat, (i : Int) < 3 →
        l[i]? = some (getCoreIDWithOpticalHub config20 (i : Int)) ∧
        validCore config20 (getCoreIDWithOpticalHub config20 (i : Int)) ∧
        getCoreIDWithOpticalHub config20 (i : Int)
          < ((config20.m_mesh_width * config20.m_mesh_width : Nat) : Int) ∧
        getClusterID config20 (getCoreIDWithOpticalHub config20 (i : Int)) = (i : Int)) ∧
    computeMemoryControllerPositions config20 5 20
      = .error Fatal.tooManyMemoryControllers :=
  ⟨rfl,
    (computeMemoryControllerPositions_complete_clusters construct_params20 3 20).1
      (by decide) (by decide),
    (computeMemoryControllerPositions_complete_clusters construct_params20 5 20).2.1
      (by decide)⟩

/-! ## C16: the constructor's checks -/

/-- C16: construction derives `S = floor(sqrt(cluster_size))`,
`mesh_width = floor(sqrt(total_cores))` and `mesh_height = ceil(total_cores / mesh_width)`,
and terminates fatally unless `cluster_size == S^2`, `mesh_width % S == 0`,
`mesh_height == mesh_width + 1` and `mesh_width * mesh_height == total_cores`; so the members
of every constructed topology satisfy the three invariants. -/
theorem construct_checks (p : Params) :
    (∀ cfg, construct p = .ok cfg →
      cfg.m_sqrt_cluster_size = Nat.sqrt p.cluster_size ∧
      cfg.m_mesh_width = Nat.sqrt p.total_cores ∧
      cfg.m_mesh_height = ⌈((p.total_cores : ℕ) : ℚ) / ((cfg.m_mesh_width : ℕ) : ℚ)⌉₊ ∧
      cfg.m_total_cores = p.total_cores ∧
      p.cluster_size = cfg.m_sqrt_cluster_size * cfg.m_sqrt_cluster_size ∧
      cfg.m_mesh_width % cfg.m_sqrt_cluster_size = 0 ∧
      cfg.m_mesh_height = cfg.m_mesh_width + 1 ∧
      cfg.m_mesh_width * cfg.m_mesh_height = cfg.m_total_cores) ∧
    (¬ (p.cluster_size = Nat.sqrt p.cluster_size * Nat.sqrt p.cluster_size ∧
        Nat.sqrt p.total_cores % Nat.sqrt p.cluster_size = 0 ∧
        ⌈((p.total_cores : ℕ) : ℚ) / ((Nat.sqrt p.total_cores : ℕ) : ℚ)⌉₊
          = Nat.sqrt p.total_cores + 1 ∧
        Nat.sqrt p.total_cores
            * ⌈((p.total_cores : ℕ) : ℚ) / ((Nat.sqrt p.total_cores : ℕ) : ℚ)⌉₊
          = p.total_cores) →
      ∃ e, construct p = .error e) := by
  have hok : ∀ cfg, construct p = .ok cfg →
      cfg.m_sqrt_cluster_size = Nat.sqrt p.cluster_size ∧
      cfg.m_mesh_width = Nat.sqrt p.total_cores ∧
      cfg.m_mesh_height = ⌈((p.total_cores : ℕ) : ℚ) / ((cfg.m_mesh_width : ℕ) : ℚ)⌉₊ ∧
      cfg.m_total_cores = p.total_cores ∧
      p.cluster_size = cfg.m_sqrt_cluster_size * cfg.m_sqrt_cluster_size ∧
      cfg.m_mesh_width % cfg.m_sqrt_cluster_size = 0 ∧
      cfg.m_mesh_height = cfg.m_mesh_width + 1 ∧
      cfg.m_mesh_width * cfg.m_mesh_height = cfg.m_total_cores := by
    intro cfg h
    have ha := construct_accepted h
    have hcs := construct_cluster_size h
    unfold construct at h
    simp only at h
    split_ifs at h with h1 h2 h3 h4 h5
    simp only [Except.ok.injEq] at h
    subst h
    push_neg at h2
    refine ⟨rfl, rfl, ?_, rfl, hcs.1, ha.width_multiple, ha.height, ha.cores⟩
    simp only
    rw [ceil_div_eq _ _ (Nat.pos_of_ne_zero h2.1), ceilDiv_eq_if _ _ (Nat.pos_of_ne_zero h2.1)]
  refine ⟨hok, ?_⟩
  intro hnot
  rcases hres : construct p with e | cfg
  · exact ⟨e, rfl⟩
  · exfalso
    obtain ⟨h1, h2, h3, h4, h5, h6, h7, h8⟩ := hok cfg hres
    apply hnot
    rw [← h1, ← h2, ← h3]
    exact ⟨h5, h6, h7, by rw [h8, h4]⟩

/-- The example of C16: `total_cores = 20`, `cluster_size = 4` is accepted with `S = 2`,
`mesh_width = 4`, `mesh_height = 5`. -/
theorem construct_checks_witness :
    construct params20 = .ok config20 ∧
    config20.m_sqrt_cluster_size = 2 ∧ config20.m_mesh_width = 4 ∧
    config20.m_mesh_height = 5 ∧
    params20.cluster_size = config20.m_sqrt_cluster_size * config20.m_sqrt_cluster_size ∧
    config20.m_mesh_width % config20.m_sqrt_cluster_size = 0 ∧
    config20.m_mesh_height = config20.m_mesh_width + 1 ∧
    config20.m_mesh_width * config20.m_mesh_height = config20.m_total_cores := by
  obtain ⟨_, _, _, _, h5, h6, h7, h8⟩ :=
    (construct_checks params20).1 config20 construct_params20
  exact ⟨construct_params20, rfl, rfl, rfl, h5, h6, h7, h8⟩

theorem crossClusterHopTime_eq (cfg : Config) (pkt_time processing_time d_s d_r : Nat) :
    crossClusterHopTime cfg pkt_time processing_time d_s d_r
      = u64 (pkt_time + cfg.m_sender_cluster_electrical_network_delay + d_s
          + cfg.m_optical_hop_latency + d_r
          + cfg.m_receiver_cluster_electrical_network_delay + processing_time) := by
  simp only [crossClusterHopTime, u64_time_unicast]

/-! ## C17: Hop time against the hub delays -/

/-- C17, as stated, fails: in the 20-core example, for the packet from core 5 to core 19 at
time 100, hub delays `(0, 0)` give the Hop time 113, and the larger delays
`(2^64 - 104, 0)` give, in `UInt64` arithmetic, the Hop time 9; `routePacket` computes these
two times on the hub members right after construction and on those whose sender hub of
cluster 0 is busy until `2^64 - 1`. -/
theorem c17_hop_time_wraps_counterexample :
    (0 : Nat) ≤ 18446744073709551512 ∧ (0 : Nat) ≤ 0 ∧
    crossClusterHopTime config20 100 2 0 0 = 113 ∧
    crossClusterHopTime config20 100 2 18446744073709551512 0 = 9 ∧
    ¬ (crossClusterHopTime config20 100 2 0 0
      ≤ crossClusterHopTime config20 100 2 18446744073709551512 0) ∧
    Except.map Prod.fst
        (getHubQueueDelay fifoQueue config20 self5 hubs20 HubType.SENDER_HUB 0 0 103 4
          PacketType.OTHER 5) = .ok 0 ∧
    Except.map Prod.fst
        (getHubQueueDelay fifoQueue config20 self5 hubsBusy20 HubType.SENDER_HUB 0 0 103 4
          PacketType.OTHER 5) = .ok 18446744073709551512 ∧
    Except.map Prod.fst (routePacket fifoQueue env20 config20 self5 hubs20 pkt5to19 [])
      = .ok [{ next_dest := 19, final_dest := 19, time := 113 }] ∧
    Except.map Prod.fst (routePacket fifoQueue env20 config20 self5 hubsBusy20 pkt5to19 [])
      = .ok [{ next_dest := 19, final_dest := 19, time := 9 }] :=
  ⟨by decide, by decide, by decide, by decide, by decide, rfl, rfl, rfl, rfl⟩

/-- C17, amended: for a fixed packet and topology, the Hop time of a cross-cluster unicast,
`pkt.time + sender delay + d_s + optical_hop_latency + d_r + receiver delay +
processing_time` in `UInt64` arithmetic, does not decrease when `(d_s, d_r)` is replaced by
`(d_s', d_r')` with `d_s <= d_s'` and `d_r <= d_r'`, provided that the sum with the larger
delays stays below `2^64`. -/
theorem crossClusterHopTime_mono (cfg : Config) (pkt_time processing_time : Nat)
    (d_s d_r d_s' d_r' : Nat) (hs : d_s ≤ d_s') (hr : d_r ≤ d_r')
    (hfit : pkt_time + cfg.m_sender_cluster_electrical_network_delay + d_s'
      + cfg.m_optical_hop_latency + d_r'
      + cfg.m_receiver_cluster_electrical_network_delay + processing_time < U64) :
    crossClusterHopTime cfg pkt_time processing_time d_s d_r
      ≤ crossClusterHopTime cfg pkt_time processing_time d_s' d_r' ∧
    crossClusterHopTime cfg pkt_time processing_time d_s d_r
      = u64 (pkt_time + cfg.m_sender_cluster_electrical_network_delay + d_s
          + cfg.m_optical_hop_latency + d_r
          + cfg.m_receiver_cluster_electrical_network_delay + processing_time) := by
  refine ⟨?_, crossClusterHopTime_eq cfg pkt_time processing_time d_s d_r⟩
  rw [crossClusterHopTime_eq, crossClusterHopTime_eq]
  simp only [u64, U64] at hfit ⊢
  omega

/-- In the 20-core example, raising the hub delays of the packet at time 100 from `(0, 0)`
to `(7, 4)` moves the Hop from time 113 to time 124. -/
theorem crossClusterHopTime_mono_witness :
    crossClusterHopTime config20 100 2 0 0 ≤ crossClusterHopTime config20 100 2 7 4 ∧
    crossClusterHopTime config20 100 2 0 0
      = u64 (100 + config20.m_sender_cluster_electrical_network_delay + 0
          + config20.m_optical_hop_latency + 0
          + config20.m_receiver_cluster_electrical_network_delay + 2) :=
  crossClusterHopTime_mono config20 100 2 0 0 7 4 (by decide) (by decide) (by decide)

/-! ## Lemmas on the counters -/

theorem arrayLe_refl (l : List Nat) : arrayLe l l :=
  ⟨rfl, fun _ c h => ⟨c, h, Nat.le_refl c⟩⟩

theorem arrayLe_trans {l1 l2 l3 : List Nat} (h12 : arrayLe l1 l2) (h23 : arrayLe l2 l3) :
    arrayLe l1 l3 := by
  refine ⟨h23.1.trans h12.1, ?_⟩
  intro j c hc
  obtain ⟨c2, hc2, hle2⟩ := h12.2 j c hc
  obtain ⟨c3, hc3, hle3⟩ := h23.2 j c2 hc2
  exact ⟨c3, hc3, Nat.le_trans hle2 hle3⟩

theorem arrayLe_set {l : List Nat} {k c c' : Nat} (hk : l[k]? = some c) (hle : c ≤ c') :
    arrayLe l (l.set k c') := by
  refine ⟨List.length_set _ _ _, ?_⟩
  intro j d hd
  by_cases hjk : k = j
  · subst hjk
    rw [hk] at hd
    have hlt : k < l.length := by
      rcases Nat.lt_or_ge k l.length with h | h
      · exact h
      · rw [List.getElem?_eq_none h] at hk; cases hk
    exact ⟨c', List.getElem?_set_self hlt, by rw [← Option.some.inj hd]; exact hle⟩
  · exact ⟨d, by rw [List.getElem?_set_ne hjk]; exact hd, Nat.le_refl d⟩

theorem below_set {l : List Nat} {k c' b b' : Nat}
    (hl : ∀ (j c : Nat), l[j]? = some c → c ≤ b) (hc : c' ≤ b') (hb : b ≤ b') :
    ∀ (j c : Nat), (l.set k c')[j]? = some c → c ≤ b' := by
  intro j c hj
  by_cases hjk : k = j
  · subst hjk
    rw [List.getElem?_set_self'] at hj
    rcases hlk : l[k]? with _ | x
    · rw [hlk] at hj; simp at hj
    · rw [hlk] at hj
      have : c' = c := by simpa using hj
      rw [← this]; exact hc
  · rw [List.getElem?_set_ne hjk] at hj
    exact Nat.le_trans (hl j c hj) hb

theorem hubCountersLe_refl (h : HubState Q) : hubCountersLe h h :=
  ⟨Nat.le_refl _, Nat.le_refl _, arrayLe_refl _, arrayLe_refl _⟩

theorem hubCountersLe_trans {h1 h2 h3 : HubState Q} (h12 : hubCountersLe h1 h2)
    (h23 : hubCountersLe h2 h3) : hubCountersLe h1 h3 :=
  ⟨Nat.le_trans h12.1 h23.1, Nat.le_trans h12.2.1 h23.2.1,
    arrayLe_trans h12.2.2.1 h23.2.2.1, arrayLe_trans h12.2.2.2 h23.2.2.2⟩

theorem hubCountersBelow_mono {h : HubState Q} {b b' : Nat} (hb : hubCountersBelow h b)
    (hle : b ≤ b') : hubCountersBelow h b' :=
  ⟨Nat.le_trans hb.1 hle, Nat.le_trans hb.2.1 hle,
    fun j c hc => Nat.le_trans (hb.2.2.1 j c hc) hle,
    fun j c hc => Nat.le_trans (hb.2.2.2 j c hc) hle⟩

theorem hubsCountersLe_refl (hubs : Hubs Q) : hubsCountersLe hubs hubs :=
  ⟨rfl, fun _ h hh => ⟨h, hh, hubCountersLe_refl h⟩⟩

theorem hubsCountersLe_trans {a b c : Hubs Q} (hab : hubsCountersLe a b)
    (hbc : hubsCountersLe b c) : hubsCountersLe a c := by
  refine ⟨hbc.1.trans hab.1, ?_⟩
  intro i h hh
  obtain ⟨h2, hh2, hle2⟩ := hab.2 i h hh
  obtain ⟨h3, hh3, hle3⟩ := hbc.2 i h2 hh2
  exact ⟨h3, hh3, hubCountersLe_trans hle2 hle3⟩

theorem hubsCountersBelow_mono {hubs : Hubs Q} {b b' : Nat} (hb : hubsCountersBelow hubs b)
    (hle : b ≤ b') : hubsCountersBelow hubs b' :=
  fun i h hh => hubCountersBelow_mono (hb i h hh) hle

theorem u64_add_of_lt {c d b m : Nat} (hc : c ≤ b) (hd : d ≤ m) (hb : b + m < U64) :
    u64 (c + d) = c + d := by
  unfold u64
  exact Nat.mod_eq_of_lt (by omega)

theorem arrayGet_some_toNat {α : Type} {xs : List α} {i : Int} {x : α}
    (h : arrayGet xs i = some x) : xs[i.toNat]? = some x := by
  unfold arrayGet at h
  split_ifs at h
  exact h

/-- A hub computation that returns keeps the counters from decreasing, as long as they have
room for the delay. -/
theorem computeHubQueueDelay_counters (qm : QueueModel Q) (cfg : Config) (m_core_id : Int)
    (o o' : Option (HubState Q)) (hub_type : HubType) (sender_cluster_id : Int)
    (pkt_time pkt_length d : Nat)
    (hres : computeHubQueueDelay qm cfg m_core_id o hub_type sender_cluster_id pkt_time
      pkt_length = .ok (d, o')) :
    ∃ h h', o = some h ∧ o' = some h' ∧
      (∃ q processing_time,
        computeProcessingTime pkt_length cfg.m_optical_bus_bandwidth = .ok processing_time ∧
        d = (qm.computeQueueDelay q pkt_time processing_time).1) ∧
      ∀ b m, hubCountersBelow h b → d ≤ m → 1 ≤ m → b + m < U64 →
        hubCountersLe h h' ∧ hubCountersBelow h' (b + m) := by
  unfold computeHubQueueDelay at hres
  by_cases h1 : cfg.m_queue_model_enabled = false
  · rw [if_pos h1] at hres; cases hres
  rw [if_neg h1] at hres
  by_cases h2 : m_core_id ≠ getCoreIDWithOpticalHub cfg (getClusterID cfg m_core_id)
  · rw [if_pos h2] at hres; cases hres
  rw [if_neg h2] at hres
  rcases o with _ | h
  · simp at hres
  · simp only at hres
    rcases hp : computeProcessingTime pkt_length cfg.m_optical_bus_bandwidth
      with e | processing_time
    · cases hub_type <;> (rw [hp] at hres; simp at hres)
    cases hub_type with
    | SENDER_HUB =>
      simp only at hres
      rw [hp] at hres
      simp only at hres
      by_cases h3 : sender_cluster_id ≠ getClusterID cfg m_core_id
      · rw [if_pos h3] at hres; cases hres
      rw [if_neg h3] at hres
      simp only [Except.ok.injEq, Prod.mk.injEq] at hres
      obtain ⟨hd, ho⟩ := hres
      refine ⟨h, _, rfl, ho.symm, ⟨_, _, rfl, hd.symm⟩, ?_⟩
      intro b m hb hdm hm hbm
      rw [hd]
      have e1 := u64_add_of_lt hb.1 hdm hbm
      have e2 := u64_add_of_lt hb.2.1 hm hbm
      refine ⟨⟨?_, ?_, arrayLe_refl _, arrayLe_refl _⟩, ?_, ?_, ?_, ?_⟩
      · simp only [e1]; omega
      · simp only [e2]; omega
      · simp only [e1]; have := hb.1; omega
      · simp only [e2]; have := hb.2.1; omega
      · exact fun j c hc => Nat.le_trans (hb.2.2.1 j c hc) (Nat.le_add_right _ _)
      · exact fun j c hc => Nat.le_trans (hb.2.2.2 j c hc) (Nat.le_add_right _ _)
    | RECEIVER_HUB =>
      simp only at hres
      rw [hp] at hres
      simp only at hres
      by_cases hB : cfg.m_num_electrical_broadcast_networks_per_cluster = 0
      · rw [if_pos hB] at hres; cases hres
      rw [if_neg hB] at hres
      rcases hq1 : arrayGet h.m_receiver_hub_queue_models
          ((toUInt32 sender_cluster_id
            % cfg.m_num_electrical_broadcast_networks_per_cluster : Nat) : Int)
          with _ | q
      · rw [hq1] at hres; simp at hres
      rcases hq2 : arrayGet h.m_total_receiver_hub_contention_delay
          ((toUInt32 sender_cluster_id
            % cfg.m_num_electrical_broadcast_networks_per_cluster : Nat) : Int)
          with _ | td
      · rw [hq1, hq2] at hres; simp at hres
      rcases hq3 : arrayGet h.m_total_receiver_hub_packets
          ((toUInt32 sender_cluster_id
            % cfg.m_num_electrical_broadcast_networks_per_cluster : Nat) : Int)
          with _ | tp
      · rw [hq1, hq2, hq3] at hres; simp at hres
      rw [hq1, hq2, hq3] at hres
      simp only [Except.ok.injEq, Prod.mk.injEq] at hres
      obtain ⟨hd, ho⟩ := hres
      refine ⟨h, _, rfl, ho.symm, ⟨_, _, rfl, hd.symm⟩, ?_⟩
      intro b m hb hdm hm hbm
      rw [hd]
      have k2 := arrayGet_some_toNat hq2
      have k3 := arrayGet_some_toNat hq3
      have e1 := u64_add_of_lt (hb.2.2.1 _ _ k2) hdm hbm
      have e2 := u64_add_of_lt (hb.2.2.2 _ _ k3) hm hbm
      refine ⟨⟨Nat.le_refl _, Nat.le_refl _, ?_, ?_⟩, ?_, ?_, ?_, ?_⟩
      · exact arrayLe_set k2 (by rw [e1]; omega)
      · exact arrayLe_set k3 (by rw [e2]; omega)
      · exact Nat.le_trans hb.1 (Nat.le_add_right _ _)
      · exact Nat.le_trans hb.2.1 (Nat.le_add_right _ _)
      · exact below_set hb.2.2.1 (by rw [e1]; have := hb.2.2.1 _ _ k2; omega)
          (Nat.le_add_right _ _)
      · exact below_set hb.2.2.2 (by rw [e2]; have := hb.2.2.2 _ _ k3; omega)
          (Nat.le_add_right _ _)

/-- One `getHubQueueDelay` keeps all hub counters from decreasing, as long as they have
room for the delay it returns. -/
theorem getHubQueueDelay_counters (qm : QueueModel Q) (cfg : Config) (self : Instance)
    (hubs hubs' : Hubs Q) (hub_type : HubType) (sender_cluster_id cluster_id : Int)
    (pkt_time pkt_length : Nat) (pkt_type : PacketType) (requester : Int) (d : Nat)
    (hres : getHubQueueDelay qm cfg self hubs hub_type sender_cluster_id cluster_id pkt_time
      pkt_length pkt_type requester = .ok (d, hubs'))
    (b : Nat) (hb : hubsCountersBelow hubs b) (hbm : b + max d 1 < U64) :
    hubsCountersLe hubs hubs' ∧ hubsCountersBelow hubs' (b + max d 1) := by
  unfold getHubQueueDelay at hres
  split_ifs at hres with hcond
  · simp only [Except.ok.injEq, Prod.mk.injEq] at hres
    rw [← hres.2]
    exact ⟨hubsCountersLe_refl hubs, hubsCountersBelow_mono hb (Nat.le_add_right _ _)⟩
  · simp only at hres
    rcases ho : arrayGet hubs (getCoreIDWithOpticalHub cfg cluster_id) with _ | o
    · rw [ho] at hres; simp at hres
    rw [ho] at hres
    simp only at hres
    rcases hc : computeHubQueueDelay qm cfg (getCoreIDWithOpticalHub cfg cluster_id) o hub_type
        sender_cluster_id pkt_time pkt_length with e | ⟨d1, o'⟩
    · rw [hc] at hres; simp at hres
    rw [hc] at hres
    simp only [Except.ok.injEq, Prod.mk.injEq] at hres
    obtain ⟨hd, hh⟩ := hres
    subst hd
    obtain ⟨h, h', rfl, rfl, _, hstep⟩ := computeHubQueueDelay_counters qm cfg _ _ _ _ _
      _ _ _ hc
    have hidx := arrayGet_some_toNat ho
    obtain ⟨hle, hbelow⟩ := hstep b (max d1 1) (hb _ h hidx) (Nat.le_max_left _ _)
      (Nat.le_max_right _ _) hbm
    have hlt : (getCoreIDWithOpticalHub cfg cluster_id).toNat < hubs.length := by
      rcases Nat.lt_or_ge (getCoreIDWithOpticalHub cfg cluster_id).toNat hubs.length with h | h
      · exact h
      · rw [List.getElem?_eq_none h] at hidx; cases hidx
    rw [← hh]
    constructor
    · refine ⟨List.length_set _ _ _, ?_⟩
      intro i h0 hi
      by_cases hik : (getCoreIDWithOpticalHub cfg cluster_id).toNat = i
      · subst hik
        rw [hidx] at hi
        have : h = h0 := Option.some.inj (Option.some.inj hi)
        subst this
        exact ⟨h', List.getElem?_set_self hlt, hle⟩
      · exact ⟨h0, by rw [List.getElem?_set_ne hik]; exact hi, hubCountersLe_refl h0⟩
    · intro i h0 hi
      by_cases hik : (getCoreIDWithOpticalHub cfg cluster_id).toNat = i
      · subst hik
        rw [List.getElem?_set_self hlt] at hi
        have : h' = h0 := Option.some.inj (Option.some.inj hi)
        subst this
        exact hbelow
      · rw [List.getElem?_set_ne hik] at hi
        exact hubCountersBelow_mono (hb i h0 hi) (Nat.le_add_right _ _)

theorem headroom_cons (d : Nat) (ds : List Nat) :
    headroom (d :: ds) = max d 1 + headroom ds := by
  simp [headroom]

/-- The first broadcast loop keeps all hub counters from decreasing, as long as they have
room for the delays it returns. -/
theorem receiverHubQueueDelays_counters (qm : QueueModel Q) (cfg : Config) (self : Instance)
    (scid : Int) (t len : Nat) (ty : PacketType) (req : Int) (l : List Nat) :
    ∀ (hubs hubs' : Hubs Q) (ds : List Nat) (b : Nat),
    receiverHubQueueDelays qm cfg self scid t len ty req l hubs = .ok (ds, hubs') →
    hubsCountersBelow hubs b → b + headroom ds < U64 →
    hubsCountersLe hubs hubs' ∧ hubsCountersBelow hubs' (b + headroom ds) := by
  induction l with
  | nil =>
    intro hubs hubs' ds b h hb _
    simp only [receiverHubQueueDelays, Except.ok.injEq, Prod.mk.injEq] at h
    rw [← h.2]
    exact ⟨hubsCountersLe_refl hubs, hubsCountersBelow_mono hb (Nat.le_add_right _ _)⟩
  | cons k rest ih =>
    intro hubs hubs' ds b h hb hbm
    obtain ⟨d, h1, ds', hg, hr, rfl⟩ := receiverHubQueueDelays_cons qm cfg self scid t len ty
      req k _ hubs hubs' ds h
    rw [headroom_cons] at hbm ⊢
    obtain ⟨hle1, hb1⟩ := getHubQueueDelay_counters qm cfg self hubs h1 _ _ _ _ _ _ _ d
      hg b hb (by omega)
    obtain ⟨hle2, hb2⟩ := ih h1 hubs' ds' (b + max d 1) hr hb1 (by omega)
    exact ⟨hubsCountersLe_trans hle1 hle2, by rw [← Nat.add_assoc]; exact hb2⟩

/-- The hub computations of a unicast routing that returns. -/
theorem routePacket_unicast_inv (qm : QueueModel Q) (env : Env) (cfg : Config)
    (self : Instance) (hubs : Hubs Q) (pkt : NetPacket) (nextHops : List Hop)
    (huni : pkt.receiver ≠ env.BROADCAST) (out : List Hop) (hubs' : Hubs Q)
    (h : routePacket qm env cfg self hubs pkt nextHops = .ok (out, hubs')) :
    hubs' = hubs ∨
    ∃ requester d_s hubs1 d_r,
      getRequester env cfg pkt = .ok requester ∧
      getHubQueueDelay qm cfg self hubs HubType.SENDER_HUB (getClusterID cfg pkt.sender)
        (getClusterID cfg pkt.sender)
        (u64 (pkt.time + cfg.m_sender_cluster_electrical_network_delay))
        (env.getModeledLength pkt) pkt.type requester = .ok (d_s, hubs1) ∧
      getHubQueueDelay qm cfg self hubs1 HubType.RECEIVER_HUB (getClusterID cfg pkt.sender)
        (getClusterID cfg pkt.receiver)
        (u64 (pkt.time + cfg.m_sender_cluster_electrical_network_delay + d_s
          + cfg.m_optical_hop_latency))
        (env.getModeledLength pkt) pkt.type requester = .ok (d_r, hubs') := by
  unfold routePacket at h
  rcases hq : getRequester env cfg pkt with e | requester
  · rw [hq] at h; simp at h
  rw [hq] at h
  simp only at h
  rcases hp : computeProcessingTime (env.getModeledLength pkt) cfg.m_optical_bus_bandwidth
    with e | processing_time
  · rw [hp] at h; simp at h
  rw [hp] at h
  simp only at h
  rw [if_neg huni] at h
  by_cases hr : ¬ (pkt.receiver < (cfg.m_total_cores : Int))
  · rw [if_pos hr] at h; cases h
  rw [if_neg hr] at h
  by_cases heq : pkt.sender = pkt.receiver
  · rw [if_pos heq] at h
    simp only [Except.ok.injEq, Prod.mk.injEq] at h
    exact Or.inl h.2.symm
  rw [if_neg heq] at h
  by_cases hcl : getClusterID cfg pkt.sender = getClusterID cfg pkt.receiver
  · rw [if_pos hcl] at h
    simp only [Except.ok.injEq, Prod.mk.injEq] at h
    exact Or.inl h.2.symm
  rw [if_neg hcl] at h
  rcases hs : getHubQueueDelay qm cfg self hubs HubType.SENDER_HUB
      (getClusterID cfg pkt.sender) (getClusterID cfg pkt.sender)
      (u64 (pkt.time + cfg.m_sender_cluster_electrical_network_delay))
      (env.getModeledLength pkt) pkt.type requester with e | ⟨d_s, hubs1⟩
  · rw [hs] at h; simp at h
  rw [hs] at h
  simp only at h
  rw [u64_time_arrival] at h
  rcases hrc : getHubQueueDelay qm cfg self hubs1 HubType.RECEIVER_HUB
      (getClusterID cfg pkt.sender) (getClusterID cfg pkt.receiver)
      (u64 (pkt.time + cfg.m_sender_cluster_electrical_network_delay + d_s
        + cfg.m_optical_hop_latency))
      (env.getModeledLength pkt) pkt.type requester with e | ⟨d_r, hubs2⟩
  · rw [hrc] at h; simp at h
  rw [hrc] at h
  simp only [Except.ok.injEq, Prod.mk.injEq] at h
  exact Or.inr ⟨requester, d_s, hubs1, d_r, rfl, hs, by rw [hrc, h.2]⟩

theorem initialHubs_below (qm : QueueModel Q) (cfg : Config) :
    hubsCountersBelow (initialHubs qm cfg) 0 := by
  intro i h hi
  unfold initialHubs at hi
  rw [List.getElem?_map] at hi
  rcases hr : (List.range cfg.m_total_cores)[i]? with _ | j
  · rw [hr] at hi; simp at hi
  · rw [hr] at hi
    simp only [Option.map_some', Option.some.injEq] at hi
    unfold createOpticalHub at hi
    split_ifs at hi
    have hh := Option.some.inj hi
    subst hh
    refine ⟨Nat.le_refl _, Nat.le_refl _, ?_, ?_⟩
    · intro k c hc
      have := List.getElem?_mem hc
      rw [List.mem_replicate] at this
      omega
    · intro k c hc
      have := List.getElem?_mem hc
      rw [List.mem_replicate] at this
      omega

theorem u64sub_of_le {a b : Nat} (hab : b ≤ a) (ha : a < U64) : u64sub a b = a - b := by
  unfold u64sub u64
  rw [Nat.mod_eq_of_lt ha, Nat.mod_eq_of_lt (Nat.lt_of_le_of_lt hab ha)]
  unfold U64 at ha ⊢
  omega

/-- Received-packet accounting keeps the three counters from decreasing, when the packet
arrives no earlier than it started and the additions fit in 64 bits. -/
theorem processReceivedPacket_counters (env : Env) (cfg : Config) (self self' : Instance)
    (pkt : NetPacket) (h : processReceivedPacket env cfg self pkt = .ok self')
    (hts : pkt.start_time ≤ pkt.time) (ht : pkt.time < U64)
    (h1 : self.m_total_packets_received + 1 < U64)
    (h2 : self.m_total_bytes_received + env.getModeledLength pkt < U64)
    (h3 : self.m_total_packet_latency + (pkt.time - pkt.start_time) < U64) :
    instanceCountersLe self self' := by
  unfold processReceivedPacket at h
  rcases hq : getRequester env cfg pkt with e | requester
  · rw [hq] at h; simp at h
  rw [hq] at h
  simp only at h
  split_ifs at h with hc
  · simp only [Except.ok.injEq] at h
    rw [← h]
    exact ⟨Nat.le_refl _, Nat.le_refl _, Nat.le_refl _⟩
  · simp only [Except.ok.injEq] at h
    rw [← h, u64sub_of_le hts ht]
    simp only [instanceCountersLe, u64, Nat.mod_eq_of_lt h1, Nat.mod_eq_of_lt h2,
      Nat.mod_eq_of_lt h3]
    omega

/-! ## C18: the counters never decrease -/

/-- C18, as stated, fails on four inputs. The enabled instance on core 5 of the 20-core
example has cumulative latency 10 after the packet from core 5 to core 1; processing then a
packet whose `time` 0 is before its `start_time` 1 adds `2^64 - 1` in `UInt64` arithmetic,
and the cumulative latency drops to 9. An instance that has counted `2^64 - 1` received
packets counts the next one as packet 0. A hub that has counted `2^64 - 1` sender-hub
packets counts the next sender-hub request as packet 0, in `computeHubQueueDelay` and so in
`routePacket` for the packet from core 5 to core 19. -/
theorem c18_counter_decreases_counterexample :
    (processReceivedPacket env20 config20 self5 pkt5to1
        = .ok { m_core_id := 5, m_enabled := true, m_total_packets_received := 1,
                m_total_bytes_received := 4, m_total_packet_latency := 10 } ∧
      processReceivedPacket env20 config20
          { m_core_id := 5, m_enabled := true, m_total_packets_received := 1,
            m_total_bytes_received := 4, m_total_packet_latency := 10 } pktEarly
        = .ok { m_core_id := 5, m_enabled := true, m_total_packets_received := 2,
                m_total_bytes_received := 8, m_total_packet_latency := 9 } ∧
      ¬ ((10 : Nat) ≤ 9)) ∧
    (self5Full.m_total_packets_received = 18446744073709551615 ∧
      pkt5to1.start_time ≤ pkt5to1.time ∧
      processReceivedPacket env20 config20 self5Full pkt5to1
        = .ok { m_core_id := 5, m_enabled := true, m_total_packets_received := 0,
                m_total_bytes_received := 4, m_total_packet_latency := 10 }) ∧
    (hub0Full.m_total_sender_hub_packets = 18446744073709551615 ∧
      computeHubQueueDelay fifoQueue config20 0 (some hub0Full) HubType.SENDER_HUB 0 103 4
        = .ok (0, some { hub0Full with
            m_sender_hub_queue_model := 105
            m_total_sender_hub_packets := 0 })) ∧
    (hubsFull20[0]? = some (some hub0Full) ∧
      ∃ out hubs',
        routePacket fifoQueue env20 config20 self5 hubsFull20 pkt5to19 [] = .ok (out, hubs') ∧
        hubs'[0]? = some (some { hub0Full with
          m_sender_hub_queue_model := 105
          m_total_sender_hub_packets := 0 })) :=
  ⟨⟨rfl, rfl, by decide⟩, ⟨rfl, by decide, rfl⟩, ⟨rfl, rfl⟩, ⟨rfl, _, _, rfl, rfl⟩⟩

/-- C18, amended: no operation resets or lowers a performance counter as long as no 64-bit
addition wraps around. `enable` and `disable` leave the three counters of the instance as
they are. `processReceivedPacket` keeps each of bytes received, packets received and
cumulative latency at least at its value before, when `pkt.time >= pkt.start_time` and the
three sums stay below `2^64`. `computeHubQueueDelay` keeps the sender-hub and the
per-channel receiver-hub contention delay and packet counts of its hub at least at their
values before, when these counters are at most `b` and `b + max(d, 1) < 2^64` for the delay
`d` that the call returns. `routePacket` changes hub members only through its
`getHubQueueDelay` calls (sender hub, then receiver hub, for a cross-cluster unicast; sender
hub, then one receiver hub per cluster, for a broadcast), and keeps the counters of the
hubs of all cores at least at their values before, when these counters are at most `b` and
`b` plus the sum of `max(d, 1)` over the delays `d` that these calls return is below
`2^64`. -/
theorem counters_never_decrease_without_wraparound (qm : QueueModel Q) (env : Env)
    (cfg : Config) :
    (∀ self : Instance,
      (enable self).m_total_bytes_received = self.m_total_bytes_received ∧
      (enable self).m_total_packets_received = self.m_total_packets_received ∧
      (enable self).m_total_packet_latency = self.m_total_packet_latency ∧
      (disable self).m_total_bytes_received = self.m_total_bytes_received ∧
      (disable self).m_total_packets_received = self.m_total_packets_received ∧
      (disable self).m_total_packet_latency = self.m_total_packet_latency) ∧
    (∀ (self self' : Instance) (pkt : NetPacket),
      processReceivedPacket env cfg self pkt = .ok self' →
      pkt.start_time ≤ pkt.time → pkt.time < U64 →
      self.m_total_packets_received + 1 < U64 →
      self.m_total_bytes_received + env.getModeledLength pkt < U64 →
      self.m_total_packet_latency + (pkt.time - pkt.start_time) < U64 →
      instanceCountersLe self self') ∧
    (∀ (m_core_id : Int) (o o' : Option (HubState Q)) (hub_type : HubType)
        (sender_cluster_id : Int) (pkt_time pkt_length d : Nat),
      computeHubQueueDelay qm cfg m_core_id o hub_type sender_cluster_id pkt_time pkt_length
        = .ok (d, o') →
      ∃ h h', o = some h ∧ o' = some h' ∧
        ∀ b, hubCountersBelow h b → b + max d 1 < U64 → hubCountersLe h h') ∧
    (∀ (self : Instance) (hubs hubs' : Hubs Q) (pkt : NetPacket) (nextHops out : List Hop),
      pkt.receiver ≠ env.BROADCAST →
      routePacket qm env cfg self hubs pkt nextHops = .ok (out, hubs') →
      hubs' = hubs ∨
      ∃ requester d_s hubs1 d_r,
        getRequester env cfg pkt = .ok requester ∧
        getHubQueueDelay qm cfg self hubs HubType.SENDER_HUB (getClusterID cfg pkt.sender)
          (getClusterID cfg pkt.sender)
          (u64 (pkt.time + cfg.m_sender_cluster_electrical_network_delay))
          (env.getModeledLength pkt) pkt.type requester = .ok (d_s, hubs1) ∧
        getHubQueueDelay qm cfg self hubs1 HubType.RECEIVER_HUB (getClusterID cfg pkt.sender)
          (getClusterID cfg pkt.receiver)
          (u64 (pkt.time + cfg.m_sender_cluster_electrical_network_delay + d_s
            + cfg.m_optical_hop_latency))
          (env.getModeledLength pkt) pkt.type requester = .ok (d_r, hubs') ∧
        ∀ b, hubsCountersBelow hubs b → b + headroom [d_s, d_r] < U64 →
          hubsCountersLe hubs hubs') ∧
    (∀ (self : Instance) (hubs hubs' : Hubs Q) (pkt : NetPacket) (nextHops out : List Hop),
      pkt.receiver = env.BROADCAST →
      routePacket qm env cfg self hubs pkt nextHops = .ok (out, hubs') →
      ∃ requester d_s hubs1 d_r,
        getRequester env cfg pkt = .ok requester ∧
        getHubQueueDelay qm cfg self hubs HubType.SENDER_HUB (getClusterID cfg pkt.sender)
          (getClusterID cfg pkt.sender)
          (u64 (pkt.time + cfg.m_sender_cluster_electrical_network_delay))
          (env.getModeledLength pkt) pkt.type requester = .ok (d_s, hubs1) ∧
        receiverHubQueueDelays qm cfg self (getClusterID cfg pkt.sender)
          (u64 (pkt.time + cfg.m_sender_cluster_electrical_network_delay + d_s
            + cfg.m_optical_hop_latency))
          (env.getModeledLength pkt) pkt.type requester (List.range cfg.m_num_clusters) hubs1
          = .ok (d_r, hubs') ∧
        d_r.length = cfg.m_num_clusters ∧
        ∀ b, hubsCountersBelow hubs b → b + headroom (d_s :: d_r) < U64 →
          hubsCountersLe hubs hubs') := by
  refine ⟨fun self => ⟨rfl, rfl, rfl, rfl, rfl, rfl⟩, ?_, ?_, ?_, ?_⟩
  · intro self self' pkt h hts ht h1 h2 h3
    exact processReceivedPacket_counters env cfg self self' pkt h hts ht h1 h2 h3
  · intro m_core_id o o' hub_type scid t len d hres
    obtain ⟨h, h', ho, ho', _, hstep⟩ := computeHubQueueDelay_counters qm cfg m_core_id
      o o' hub_type scid t len d hres
    refine ⟨h, h', ho, ho', ?_⟩
    intro b hb hbm
    exact (hstep b (max d 1) hb (Nat.le_max_left _ _) (Nat.le_max_right _ _) hbm).1
  · intro self hubs hubs' pkt nextHops out huni h
    rcases routePacket_unicast_inv qm env cfg self hubs pkt nextHops huni out hubs' h with
      heq | ⟨requester, d_s, hubs1, d_r, hq, h2, h3⟩
    · exact Or.inl heq
    · refine Or.inr ⟨requester, d_s, hubs1, d_r, hq, h2, h3, ?_⟩
      intro b hb hbm
      rw [headroom_cons, headroom_cons] at hbm
      obtain ⟨hle1, hb1⟩ := getHubQueueDelay_counters qm cfg self hubs hubs1 _ _ _ _ _ _ _ d_s
        h2 b hb (by omega)
      obtain ⟨hle2, _⟩ := getHubQueueDelay_counters qm cfg self hubs1 hubs' _ _ _ _ _ _ _ d_r
        h3 (b + max d_s 1) hb1 (by omega)
      exact hubsCountersLe_trans hle1 hle2
  · intro self hubs hubs' pkt nextHops out hbc h
    obtain ⟨requester, _, d_s, hubs1, d_r, hops, hq, _, h2, h3, _, _⟩ :=
      routePacket_broadcast_inv qm env cfg self hubs pkt nextHops hbc out hubs' h
    have hlen := receiverHubQueueDelays_length qm cfg self _ _ _ _ _ _ hubs1 hubs' d_r h3
    rw [List.length_range] at hlen
    refine ⟨requester, d_s, hubs1, d_r, hq, h2, h3, hlen, ?_⟩
    intro b hb hbm
    rw [headroom_cons] at hbm
    obtain ⟨hle1, hb1⟩ := getHubQueueDelay_counters qm cfg self hubs hubs1 _ _ _ _ _ _ _ d_s
      h2 b hb (by omega)
    obtain ⟨hle2, _⟩ := receiverHubQueueDelays_counters qm cfg self _ _ _ _ _ _ hubs1
      hubs' d_r (b + max d_s 1) h3 hb1 (by omega)
    exact hubsCountersLe_trans hle1 hle2

/-- In the 20-core example with the single-server queue, routing the packet from core 5 to
core 19 on the hub members right after construction returns and lowers no hub counter: the
two hub delays of the call are 0, and the counters, all 0, have room for them. -/
theorem counters_never_decrease_without_wraparound_witness :
    ∃ (out : List Hop) (hubs' : Hubs Nat),
      routePacket fifoQueue env20 config20 self5 hubs20 pkt5to19 [] = .ok (out, hubs') ∧
      hubsCountersLe hubs20 hubs' := by
  obtain ⟨_, _, _, _, _, _, hroute⟩ := crossCluster_route_eq fifoQueue env20
    (construct_accepted construct_params20) (by decide) self5
    (initialHubs_wf fifoQueue config20) pkt5to19 []
    (show getRequester env20 config20 pkt5to19 = .ok 5 from rfl)
    (show computeProcessingTime (env20.getModeledLength pkt5to19)
      config20.m_optical_bus_bandwidth = .ok 2 from rfl)
    (by decide) (by decide) (by decide) (by decide)
  refine ⟨_, _, hroute, ?_⟩
  rcases (counters_never_decrease_without_wraparound fifoQueue env20 config20).2.2.2.1
    self5 hubs20 _ pkt5to19 [] _ (by decide) hroute with
    heq | ⟨requester, d_s, hubs1, d_r, hq, h2, h3, himp⟩
  · rw [heq]
    exact hubsCountersLe_refl _
  · have hr5 : requester = 5 := Except.ok.inj (hq.symm.trans rfl)
    subst hr5
    have hds : d_s = 0 :=
      Except.ok.inj ((congrArg (Except.map Prod.fst) h2).symm.trans rfl)
    subst hds
    have hh1 : hubs1 = hubs20.set 0 (some { hub0 with
        m_sender_hub_queue_model := 105
        m_total_sender_hub_packets := 1 }) :=
      Except.ok.inj ((congrArg (Except.map Prod.snd) h2).symm.trans rfl)
    subst hh1
    have hdr : d_r = 0 :=
      Except.ok.inj ((congrArg (Except.map Prod.fst) h3).symm.trans rfl)
    subst hdr
    exact himp 0 (initialHubs_below fifoQueue config20) (by decide)

/-- On the hub core of a cluster of an accepted topology, a hub computation that has its
hub members either returns, keeping the number of receiver channels, or stops on an array
index or a division by zero, never on one of its assertions. -/
theorem computeHubQueueDelay_no_assertion (qm : QueueModel Q) {cfg : Config} (ha : Accepted cfg)
    (hq : cfg.m_queue_model_enabled = true) {cluster_id : Int} (hc0 : 0 ≤ cluster_id)
    (h : HubState Q) (hub_type : HubType) (sender_cluster_id : Int)
    (hsend : hub_type = HubType.SENDER_HUB → sender_cluster_id = cluster_id)
    (pkt_time pkt_length : Nat) :
    (∃ d h', computeHubQueueDelay qm cfg (getCoreIDWithOpticalHub cfg cluster_id) (some h)
        hub_type sender_cluster_id pkt_time pkt_length = .ok (d, some h') ∧
      h'.m_receiver_hub_queue_models.length = h.m_receiver_hub_queue_models.length ∧
      h'.m_total_receiver_hub_contention_delay.length
        = h.m_total_receiver_hub_contention_delay.length ∧
      h'.m_total_receiver_hub_packets.length = h.m_total_receiver_hub_packets.length) ∨
    ∃ e, computeHubQueueDelay qm cfg (getCoreIDWithOpticalHub cfg cluster_id) (some h)
        hub_type sender_cluster_id pkt_time pkt_length = .error e ∧
      (e = Fatal.indexOutOfRange ∨ e = Fatal.divisionByZero) := by
  have hcl := getClusterID_hub ha hc0
  unfold computeHubQueueDelay
  rw [if_neg (by simp [hq]), if_neg (by rw [hcl]; simp)]
  rcases hp : computeProcessingTime pkt_length cfg.m_optical_bus_bandwidth
    with e | processing_time
  · have he := (computeProcessingTime_error hp).1
    cases hub_type <;> exact Or.inr ⟨e, rfl, Or.inr he⟩
  cases hub_type with
  | SENDER_HUB =>
    simp only
    rw [if_neg (by rw [hcl, hsend rfl]; simp)]
    exact Or.inl ⟨_, _, rfl, rfl, rfl, rfl⟩
  | RECEIVER_HUB =>
    simp only
    by_cases hB : cfg.m_num_electrical_broadcast_networks_per_cluster = 0
    · rw [if_pos hB]
      exact Or.inr ⟨_, rfl, Or.inr rfl⟩
    rw [if_neg hB]
    rcases arrayGet h.m_receiver_hub_queue_models
        ((toUInt32 sender_cluster_id
          % cfg.m_num_electrical_broadcast_networks_per_cluster : Nat) : Int)
        with _ | q
    · exact Or.inr ⟨_, rfl, Or.inl rfl⟩
    rcases arrayGet h.m_total_receiver_hub_contention_delay
        ((toUInt32 sender_cluster_id
          % cfg.m_num_electrical_broadcast_networks_per_cluster : Nat) : Int)
        with _ | td
    · exact Or.inr ⟨_, rfl, Or.inl rfl⟩
    rcases arrayGet h.m_total_receiver_hub_packets
        ((toUInt32 sender_cluster_id
          % cfg.m_num_electrical_broadcast_networks_per_cluster : Nat) : Int)
        with _ | tp
    · exact Or.inr ⟨_, rfl, Or.inl rfl⟩
    exact Or.inl ⟨_, _, rfl, by simp, by simp, by simp⟩

/-- On a constructed system `getHubQueueDelay` for a cluster of the system either returns,
leaving a constructed system, or stops on an array index or a division by zero. -/
theorem getHubQueueDelay_no_assertion (qm : QueueModel Q) {cfg : Config} (ha : Accepted cfg)
    (self : Instance) {hubs : Hubs Q} (hwf : HubsWF cfg hubs)
    (hub_type : HubType) (sender_cluster_id cluster_id : Int)
    (hc0 : 0 ≤ cluster_id) (hc1 : cluster_id < (cfg.m_num_clusters : Int))
    (hsend : hub_type = HubType.SENDER_HUB → sender_cluster_id = cluster_id)
    (pkt_time pkt_length : Nat) (pkt_type : PacketType) (requester : Int) :
    (∃ d hubs', getHubQueueDelay qm cfg self hubs hub_type sender_cluster_id cluster_id
        pkt_time pkt_length pkt_type requester = .ok (d, hubs') ∧ HubsWF cfg hubs') ∨
    ∃ e, getHubQueueDelay qm cfg self hubs hub_type sender_cluster_id cluster_id
        pkt_time pkt_length pkt_type requester = .error e ∧
      (e = Fatal.indexOutOfRange ∨ e = Fatal.divisionByZero) := by
  unfold getHubQueueDelay
  split_ifs with hcond
  · exact Or.inl ⟨0, hubs, rfl, hwf⟩
  · have hq : cfg.m_queue_model_enabled = true := by
      rcases hqe : cfg.m_queue_model_enabled with _ | _
      · exact absurd (Or.inr (Or.inl hqe)) hcond
      · rfl
    obtain ⟨hv0, hv1⟩ := validCore_hub ha hc0 hc1
    simp only
    obtain ⟨o, ho⟩ := arrayGet_of_lt hubs _ hv0 (by rw [hwf.1]; exact hv1)
    rw [ho]
    simp only
    have ho' := arrayGet_some_toNat ho
    have hidx : (((getCoreIDWithOpticalHub cfg cluster_id).toNat : Nat) : Int)
        = getCoreIDWithOpticalHub cfg cluster_id := Int.toNat_of_nonneg hv0
    obtain ⟨h, rfl, hl1, hl2, hl3⟩ := hwf.2 _ o ho' hq (by
      rw [hidx, getClusterID_hub ha hc0])
    rcases computeHubQueueDelay_no_assertion qm ha hq hc0 h hub_type sender_cluster_id hsend
        pkt_time pkt_length with ⟨d, h', hres, hl1', hl2', hl3'⟩ | ⟨e, herr, he⟩
    · rw [hres]
      exact Or.inl ⟨d, _, rfl, HubsWF_set hwf _ h' (hl1'.trans hl1) (hl2'.trans hl2)
        (hl3'.trans hl3)⟩
    · rw [herr]
      exact Or.inr ⟨e, rfl, he⟩

theorem receiverHubQueueDelays_no_assertion (qm : QueueModel Q) {cfg : Config}
    (ha : Accepted cfg) (self : Instance) (scid : Int) (t len : Nat) (ty : PacketType)
    (req : Int) (l : List Nat) :
    ∀ (hubs : Hubs Q), HubsWF cfg hubs → (∀ k ∈ l, k < cfg.m_num_clusters) →
    (∃ ds hubs', receiverHubQueueDelays qm cfg self scid t len ty req l hubs = .ok (ds, hubs') ∧
      HubsWF cfg hubs') ∨
    ∃ e, receiverHubQueueDelays qm cfg self scid t len ty req l hubs = .error e ∧
      (e = Fatal.indexOutOfRange ∨ e = Fatal.divisionByZero) := by
  induction l with
  | nil =>
    intro hubs hwf _
    exact Or.inl ⟨[], hubs, rfl, hwf⟩
  | cons k rest ih =>
    intro hubs hwf hl
    have hk : k < cfg.m_num_clusters := hl k (List.mem_cons_self _ _)
    rcases getHubQueueDelay_no_assertion qm ha self hwf HubType.RECEIVER_HUB
        scid (k : Int) (Int.natCast_nonneg k) (by exact_mod_cast hk)
        (by intro h; cases h) t len ty req with ⟨d, h1, hg, hwf1⟩ | ⟨e, herr, he⟩
    · rcases ih h1 hwf1 (fun j hj => hl j (List.mem_cons_of_mem _ hj)) with
        ⟨ds, h2, hr, hwf2⟩ | ⟨e2, herr2, he2⟩
      · exact Or.inl ⟨d :: ds, h2,
          receiverHubQueueDelays_cons_ok qm cfg self scid t len ty req k rest hubs h1 h2 d ds
            hg hr, hwf2⟩
      · right
        refine ⟨e2, ?_, he2⟩
        rw [receiverHubQueueDelays, hg]
        simp only
        rw [herr2]
    · right
      refine ⟨e, ?_, he⟩
      rw [receiverHubQueueDelays, herr]

theorem broadcastHops_error (cfg : Config) (t lat pt : Nat) (delays : List Nat) (l : List Nat) :
    ∀ e, broadcastHops cfg t lat pt delays l = .error e → e = Fatal.indexOutOfRange := by
  induction l with
  | nil => intro e h; simp [broadcastHops] at h
  | cons i rest ih =>
    intro e h
    unfold broadcastHops at h
    rcases hd : arrayGet delays (getClusterID cfg (i : Int)) with _ | d
    · rw [hd] at h
      simp only [Except.error.injEq] at h
      exact h.symm
    · rw [hd] at h
      simp only at h
      rcases hr : broadcastHops cfg t lat pt delays rest with e' | hs
      · rw [hr] at h
        simp only [Except.error.injEq] at h
        rw [← h]
        exact ih e' hr
      · rw [hr] at h; simp at h

theorem getRequester_error (env : Env) (cfg : Config) (pkt : NetPacket) (e : Fatal)
    (h : getRequester env cfg pkt = .error e) : e = Fatal.requesterOutOfRange := by
  unfold getRequester at h
  simp only at h
  split_ifs at h <;> cases h <;> rfl

/-- On a constructed system, routing a packet from a valid sender, to a valid receiver or to
all cores, stops only on the requester check, on an array index or on a division by
zero. -/
theorem routePacket_error_kind (qm : QueueModel Q) (env : Env) {cfg : Config}
    (ha : Accepted cfg) (self : Instance) {hubs : Hubs Q} (hwf : HubsWF cfg hubs)
    (pkt : NetPacket) (nextHops : List Hop) (hs : validCore cfg pkt.sender)
    (hr : pkt.receiver = env.BROADCAST ∨ validCore cfg pkt.receiver) (e : Fatal)
    (h : routePacket qm env cfg self hubs pkt nextHops = .error e) :
    e = Fatal.requesterOutOfRange ∨ e = Fatal.indexOutOfRange ∨ e = Fatal.divisionByZero := by
  obtain ⟨hs0, hs1⟩ := getClusterID_range ha hs
  unfold routePacket at h
  rcases hq : getRequester env cfg pkt with e' | requester
  · rw [hq] at h
    simp only [Except.error.injEq] at h
    left
    rw [← h]
    exact getRequester_error env cfg pkt e' hq
  rw [hq] at h
  simp only at h
  right
  rcases hp : computeProcessingTime (env.getModeledLength pkt) cfg.m_optical_bus_bandwidth
    with e' | processing_time
  · rw [hp] at h
    simp only [Except.error.injEq] at h
    right
    rw [← h]
    exact (computeProcessingTime_error hp).1
  rw [hp] at h
  simp only at h
  by_cases hb : pkt.receiver = env.BROADCAST
  · rw [if_pos hb] at h
    rcases getHubQueueDelay_no_assertion qm ha self hwf HubType.SENDER_HUB _ _ hs0 hs1
        (fun _ => rfl) (u64 (pkt.time + cfg.m_sender_cluster_electrical_network_delay))
        (env.getModeledLength pkt) pkt.type requester with
      ⟨d_s, hubs1, hg, hwf1⟩ | ⟨e1, herr, he1⟩
    · rw [hg] at h
      simp only at h
      rcases receiverHubQueueDelays_no_assertion qm ha self (getClusterID cfg pkt.sender)
          (u64 (pkt.time + u64 (u64 (cfg.m_sender_cluster_electrical_network_delay + d_s)
            + cfg.m_optical_hop_latency)))
          (env.getModeledLength pkt) pkt.type requester (List.range cfg.m_num_clusters) hubs1
          hwf1 (fun k hk => List.mem_range.1 hk) with ⟨d_r, hubs2, hl, _⟩ | ⟨e2, herr, he2⟩
      · rw [hl] at h
        simp only at h
        rcases hh : broadcastHops cfg pkt.time
            (u64 (u64 (cfg.m_sender_cluster_electrical_network_delay + d_s)
              + cfg.m_optical_hop_latency))
            processing_time d_r (List.range cfg.m_total_cores) with e' | hops
        · rw [hh] at h
          simp only [Except.error.injEq] at h
          rw [← h]
          exact Or.inl (broadcastHops_error cfg _ _ _ _ _ e' hh)
        · rw [hh] at h; simp at h
      · rw [herr] at h
        simp only [Except.error.injEq] at h
        rw [← h]
        exact he2
    · rw [herr] at h
      simp only [Except.error.injEq] at h
      rw [← h]
      exact he1
  · have hrv : validCore cfg pkt.receiver := hr.resolve_left hb
    obtain ⟨hr0, hr1⟩ := getClusterID_range ha hrv
    rw [if_neg hb, if_neg (by simpa using hrv.2)] at h
    by_cases heq : pkt.sender = pkt.receiver
    · rw [if_pos heq] at h; simp at h
    rw [if_neg heq] at h
    by_cases hcl : getClusterID cfg pkt.sender = getClusterID cfg pkt.receiver
    · rw [if_pos hcl] at h; simp at h
    rw [if_neg hcl] at h
    rcases getHubQueueDelay_no_assertion qm ha self hwf HubType.SENDER_HUB _ _ hs0 hs1
        (fun _ => rfl) (u64 (pkt.time + cfg.m_sender_cluster_electrical_network_delay))
        (env.getModeledLength pkt) pkt.type requester with
      ⟨d_s, hubs1, hg, hwf1⟩ | ⟨e1, herr, he1⟩
    · rw [hg] at h
      simp only at h
      rcases getHubQueueDelay_no_assertion qm ha self hwf1 HubType.RECEIVER_HUB
          (getClusterID cfg pkt.sender) _ hr0 hr1 (by intro h; cases h)
          (u64 (pkt.time + u64 (u64 (cfg.m_sender_cluster_electrical_network_delay + d_s)
            + cfg.m_optical_hop_latency)))
          (env.getModeledLength pkt) pkt.type requester with
        ⟨d_r, hubs2, hg2, _⟩ | ⟨e2, herr, he2⟩
      · rw [hg2] at h; simp at h
      · rw [herr] at h
        simp only [Except.error.injEq] at h
        rw [← h]
        exact he2
    · rw [herr] at h
      simp only [Except.error.injEq] at h
      rw [← h]
      exact he1

/-! ## C20: the assertions of `computeHubQueueDelay` -/

/-- C20: on a constructed topology, the hub computation for a cluster id in
`[0, num_clusters)` is addressed to the core `h = getCoreIDWithOpticalHub(cluster)`, which is
a core of the system, passes the hub-host assertion
`h == getCoreIDWithOpticalHub(getClusterID(h))` and, for a sender-hub request of that
cluster, the assertion `sender_cluster_id == getClusterID(h)`; the clusters of a valid sender
and of a valid receiver are such cluster ids; and on the hub members of a constructed
system `routePacket`, for a packet with a valid sender and a valid receiver (or a
broadcast), never stops on an assertion of `computeHubQueueDelay`. -/
theorem hub_assertions_unreachable (qm : QueueModel Q) (env : Env) {p : Params}
    {cfg : Config} (hc : construct p = .ok cfg) :
    (∀ cluster_id : Int, 0 ≤ cluster_id → cluster_id < (cfg.m_num_clusters : Int) →
      validCore cfg (getCoreIDWithOpticalHub cfg cluster_id) ∧
      getCoreIDWithOpticalHub cfg cluster_id
        = getCoreIDWithOpticalHub cfg
            (getClusterID cfg (getCoreIDWithOpticalHub cfg cluster_id)) ∧
      cluster_id = getClusterID cfg (getCoreIDWithOpticalHub cfg cluster_id)) ∧
    (∀ core_id : Int, validCore cfg core_id →
      0 ≤ getClusterID cfg core_id ∧ getClusterID cfg core_id < (cfg.m_num_clusters : Int)) ∧
    (∀ (self : Instance) (hubs : Hubs Q) (pkt : NetPacket) (nextHops : List Hop) (e : Fatal),
      HubsWF cfg hubs → validCore cfg pkt.sender →
      (pkt.receiver = env.BROADCAST ∨ validCore cfg pkt.receiver) →
      routePacket qm env cfg self hubs pkt nextHops = .error e →
      e ≠ Fatal.queueModelDisabled ∧ e ≠ Fatal.notHubHost ∧ e ≠ Fatal.noHubQueueModel ∧
        e ≠ Fatal.senderClusterMismatch) := by
  have ha := construct_accepted hc
  refine ⟨?_, fun c hcv => getClusterID_range ha hcv, ?_⟩
  · intro c h0 h1
    have hcl := getClusterID_hub ha h0
    exact ⟨validCore_hub ha h0 h1, by rw [hcl], hcl.symm⟩
  · intro self hubs pkt nextHops e hwf hs hr h
    rcases routePacket_error_kind qm env ha self hwf pkt nextHops hs hr e h with
      rfl | rfl | rfl
    · exact ⟨by decide, by decide, by decide, by decide⟩
    · exact ⟨by decide, by decide, by decide, by decide⟩
    · exact ⟨by decide, by decide, by decide, by decide⟩

/-- In the 20-core example the hub of cluster 5 is core 18, a core of the system that hosts
the hub of its own cluster, cluster 5. -/
theorem hub_assertions_unreachable_witness :
    validCore config20 (getCoreIDWithOpticalHub config20 5) ∧
    getCoreIDWithOpticalHub config20 5
      = getCoreIDWithOpticalHub config20
          (getClusterID config20 (getCoreIDWithOpticalHub config20 5)) ∧
    (5 : Int) = getClusterID config20 (getCoreIDWithOpticalHub config20 5) :=
  (hub_assertions_unreachable fifoQueue env20 construct_params20).1 5 (by decide) (by decide)

/-- The constructor returns a configuration exactly when no divisor is zero and its four
checks pass. -/
theorem construct_ok_iff (p : Params) :
    (∃ cfg, construct p = .ok cfg) ↔
      p.cluster_size = Nat.sqrt p.cluster_size * Nat.sqrt p.cluster_size ∧
      Nat.sqrt p.total_cores ≠ 0 ∧ Nat.sqrt p.cluster_size ≠ 0 ∧
      Nat.sqrt p.total_cores % Nat.sqrt p.cluster_size = 0 ∧
      ceilDiv p.total_cores (Nat.sqrt p.total_cores) = Nat.sqrt p.total_cores + 1 ∧
      Nat.sqrt p.total_cores * ceilDiv p.total_cores (Nat.sqrt p.total_cores)
        = p.total_cores := by
  unfold construct
  simp only
  split_ifs with h1 h2 h3 h4 h5
  · simp only [ne_eq] at h1
    constructor
    · rintro ⟨cfg, h⟩; cases h
    · rintro ⟨h, _⟩; exact absurd h h1
  · constructor
    · rintro ⟨cfg, h⟩; cases h
    · rintro ⟨_, hw, hs, _⟩
      rcases h2 with h | h
      · exact absurd h hw
      · exact absurd h hs
  · constructor
    · rintro ⟨cfg, h⟩; cases h
    · rintro ⟨_, _, _, h, _⟩; exact absurd h h3
  · constructor
    · rintro ⟨cfg, h⟩; cases h
    · rintro ⟨_, _, _, _, h, _⟩; exact absurd h h4
  · constructor
    · rintro ⟨cfg, h⟩; cases h
    · rintro ⟨_, _, _, _, _, h⟩; exact absurd h h5
  · push_neg at h2
    simp only [ne_eq, not_not] at h1 h3 h4 h5
    exact ⟨fun _ => ⟨h1, h2.1, h2.2, h3, h4, h5⟩, fun _ => ⟨_, rfl⟩⟩

theorem sqrt_mul_succ (W : Nat) : Nat.sqrt (W * (W + 1)) = W := by
  rw [Nat.mul_add, Nat.mul_one]
  exact Nat.sqrt_add_eq W (Nat.le_add_right W W)

theorem ceilDiv_mul_succ (W : Nat) (hW : 0 < W) : ceilDiv (W * (W + 1)) W = W + 1 := by
  rw [ceilDiv_eq_if _ _ hW, if_pos (Nat.mul_mod_right W (W + 1)),
    Nat.mul_div_cancel_left _ hW]

theorem ceilDiv_succ (W S : Nat) (hS : 0 < S) : ceilDiv (W + 1) S = W / S + 1 := by
  rw [ceilDiv_eq_succ _ _ (Nat.succ_pos W) hS]
  show (W + 1 - 1) / S + 1 = W / S + 1
  rw [Nat.add_sub_cancel]

/-! ## C21: which parameters the constructor accepts -/

/-- C21: for `cluster_size >= 1` and `total_cores >= 1`, the four checks of the constructor
all pass, and the constructor returns a configuration, if and only if `cluster_size = S^2`
for some `S >= 1` and `total_cores = W * (W + 1)` for some `W >= 1` that is a multiple of
`S`; the configuration then has `mesh_width = W`, `mesh_height = W + 1` and
`num_clusters = (W / S) * (W / S + 1)`. -/
theorem construct_accepts_iff (p : Params) (hcs : 1 ≤ p.cluster_size)
    (htc : 1 ≤ p.total_cores) :
    ((p.cluster_size = Nat.sqrt p.cluster_size * Nat.sqrt p.cluster_size ∧
        Nat.sqrt p.total_cores % Nat.sqrt p.cluster_size = 0 ∧
        ⌈((p.total_cores : ℕ) : ℚ) / ((Nat.sqrt p.total_cores : ℕ) : ℚ)⌉₊
          = Nat.sqrt p.total_cores + 1 ∧
        Nat.sqrt p.total_cores
            * ⌈((p.total_cores : ℕ) : ℚ) / ((Nat.sqrt p.total_cores : ℕ) : ℚ)⌉₊
          = p.total_cores) ↔
      ∃ S W, 1 ≤ S ∧ p.cluster_size = S ^ 2 ∧ 1 ≤ W ∧ S ∣ W ∧
        p.total_cores = W * (W + 1)) ∧
    ((∃ cfg, construct p = .ok cfg) ↔
      ∃ S W, 1 ≤ S ∧ p.cluster_size = S ^ 2 ∧ 1 ≤ W ∧ S ∣ W ∧
        p.total_cores = W * (W + 1)) ∧
    (∀ cfg S W, construct p = .ok cfg → p.cluster_size = S ^ 2 →
      p.total_cores = W * (W + 1) →
      cfg.m_sqrt_cluster_size = S ∧ cfg.m_mesh_width = W ∧ cfg.m_mesh_height = W + 1 ∧
      cfg.m_num_clusters = (W / S) * (W / S + 1)) := by
  have hS0 : 0 < Nat.sqrt p.cluster_size := Nat.sqrt_pos.2 hcs
  have hW0 : 0 < Nat.sqrt p.total_cores := Nat.sqrt_pos.2 htc
  have hceil : ⌈((p.total_cores : ℕ) : ℚ) / ((Nat.sqrt p.total_cores : ℕ) : ℚ)⌉₊
      = ceilDiv p.total_cores (Nat.sqrt p.total_cores) := by
    rw [ceil_div_eq _ _ hW0, ceilDiv_eq_if _ _ hW0]
  rw [hceil]
  have hchecks : (p.cluster_size = Nat.sqrt p.cluster_size * Nat.sqrt p.cluster_size ∧
        Nat.sqrt p.total_cores % Nat.sqrt p.cluster_size = 0 ∧
        ceilDiv p.total_cores (Nat.sqrt p.total_cores) = Nat.sqrt p.total_cores + 1 ∧
        Nat.sqrt p.total_cores * ceilDiv p.total_cores (Nat.sqrt p.total_cores)
          = p.total_cores) ↔
      ∃ S W, 1 ≤ S ∧ p.cluster_size = S ^ 2 ∧ 1 ≤ W ∧ S ∣ W ∧
        p.total_cores = W * (W + 1) := by
    constructor
    · rintro ⟨h1, h2, h3, h4⟩
      refine ⟨Nat.sqrt p.cluster_size, Nat.sqrt p.total_cores, hS0, ?_, hW0,
        Nat.dvd_of_mod_eq_zero h2, ?_⟩
      · rw [sq]; exact h1
      · rw [← h3]; exact h4.symm
    · rintro ⟨S, W, _, hS, hW, hdvd, hT⟩
      have e1 : Nat.sqrt p.cluster_size = S := by rw [hS]; exact Nat.sqrt_eq' S
      have e2 : Nat.sqrt p.total_cores = W := by rw [hT]; exact sqrt_mul_succ W
      rw [e1, e2]
      refine ⟨by rw [hS, sq], Nat.mod_eq_zero_of_dvd hdvd, ?_, ?_⟩
      · rw [hT]; exact ceilDiv_mul_succ W hW
      · rw [hT, ceilDiv_mul_succ W hW]
  refine ⟨hchecks, ?_, ?_⟩
  · rw [← hchecks, construct_ok_iff]
    constructor
    · rintro ⟨h1, _, _, h2, h3, h4⟩
      exact ⟨h1, h2, h3, h4⟩
    · rintro ⟨h1, h2, h3, h4⟩
      exact ⟨h1, hW0.ne', hS0.ne', h2, h3, h4⟩
  · intro cfg S W hc hS hT
    have ha := construct_accepted hc
    have e1 : Nat.sqrt p.cluster_size = S := by rw [hS]; exact Nat.sqrt_eq' S
    have e2 : Nat.sqrt p.total_cores = W := by rw [hT]; exact sqrt_mul_succ W
    have hmem : cfg.m_sqrt_cluster_size = Nat.sqrt p.cluster_size ∧
        cfg.m_mesh_width = Nat.sqrt p.total_cores := by
      unfold construct at hc
      simp only at hc
      split_ifs at hc
      simp only [Except.ok.injEq] at hc
      subst hc
      exact ⟨rfl, rfl⟩
    have hs : cfg.m_sqrt_cluster_size = S := hmem.1.trans e1
    have hw : cfg.m_mesh_width = W := hmem.2.trans e2
    have hh : cfg.m_mesh_height = W + 1 := by rw [ha.height, hw]
    refine ⟨hs, hw, hh, ?_⟩
    rw [ha.clusters, hh, hw, hs, ceilDiv_succ W S (by rw [← hs]; exact ha.sqrt_pos)]

/-- The 20-core example: `cluster_size = 4 = 2^2` and `total_cores = 20 = 4 * 5` with 4 a
multiple of 2, so the constructor returns a configuration. -/
theorem construct_accepts_iff_witness :
    ∃ cfg, construct params20 = .ok cfg ∧
      cfg.m_sqrt_cluster_size = 2 ∧ cfg.m_mesh_width = 4 ∧ cfg.m_mesh_height = 4 + 1 ∧
      cfg.m_num_clusters = (4 / 2) * (4 / 2 + 1) := by
  obtain ⟨cfg, h⟩ := (construct_accepts_iff params20 (by decide) (by decide)).2.1.2
    ⟨2, 4, by decide, by decide, by decide, by decide, by decide⟩
  exact ⟨cfg, h, (construct_accepts_iff params20 (by decide) (by decide)).2.2 cfg 2 4 h
    (by decide) (by decide)⟩

end AtacCluster
